import Mathlib

/-!
# Breeze HTTP core: request parser, header stores, response builder

A shallow embedding of `src/http.c`.  Bytes are natural numbers, C strings are
lists of bytes read up to the first NUL, the two buffer arenas are memories
`Nat → Nat` addressed by offset, and a store outside a declared array (which C
leaves undefined) makes the embedded function return `none`.
-/

namespace Breeze

/-! ## Constants declared in the absent headers -/

/-- Constants of `http.h` and `common.h`, which are not part of the sources at
hand.  `HTAB_SIZE` is the number of entries a table made by
`hcreate_r(MAX_HEADER_SIZE, ..)` can hold (POSIX: at least `MAX_HEADER_SIZE`);
`BREEZE_NAME` is the text of the macro `_BREEZE_NAME`; `MAX_STATE_STACK_SIZE`
is the length of the array `_stat_stack` of a handler context. -/
structure Config where
  REQUEST_BUFFER_SIZE : Nat
  RESPONSE_BUFFER_SIZE : Nat
  MAX_HEADER_SIZE : Nat
  HTAB_SIZE : Nat
  BREEZE_NAME : List Nat
  MAX_STATE_STACK_SIZE : Nat

/-- The bytes of a string literal. -/
def str (s : String) : List Nat := s.toList.map Char.toNat

/-! ## Memory and pointers -/

/-- A `char *`: NULL, the address of a string that lives outside the message
object (a literal or caller memory, given by its bytes), or `_buffer + off`. -/
inductive Ptr where
  | null
  | lit (s : List Nat)
  | buf (off : Nat)
deriving DecidableEq, Repr

/-- The assignment `mem[i] = c`. -/
def poke (mem : Nat → Nat) (i c : Nat) : Nat → Nat :=
  fun j => if j = i then c else mem j

/-- Consecutive assignments `mem[off] = bs[0]; mem[off+1] = bs[1]; ...`. -/
def store (mem : Nat → Nat) : Nat → List Nat → (Nat → Nat)
  | _, [] => mem
  | off, c :: cs => store (poke mem off c) (off + 1) cs

/-- The bytes from `mem[off]` up to the first NUL, reading at most `fuel` bytes. -/
def load (mem : Nat → Nat) : Nat → Nat → List Nat
  | _, 0 => []
  | off, fuel + 1 => if mem off = 0 then [] else mem off :: load mem (off + 1) fuel

/-- The C string a pointer designates, `cap` being the size of the arena. -/
def cstr (mem : Nat → Nat) (cap : Nat) : Ptr → List Nat
  | .null => []
  | .lit s => s.takeWhile (fun c => decide (c ≠ 0))
  | .buf off => load mem off (cap - off)

/-! ## `hsearch_r` tables -/

/-- An `ENTRY` of `<search.h>`; the key is kept by value: every key the code
enters is either a registry literal or an arena copy below the cursor. -/
structure ENTRY (α : Type) where
  key : List Nat
  data : α
deriving DecidableEq, Repr

/-- A `struct hsearch_data`: capacity and the entries in insertion order. -/
structure hsearch_data (α : Type) where
  size : Nat
  table : List (ENTRY α)
deriving DecidableEq, Repr

/-- An empty table with room for `size` entries. -/
def hcreate_r {α : Type} (size : Nat) : hsearch_data α := ⟨size, []⟩

/-- The call `hsearch_r(item, FIND, &ret, htab)`: the entry with that key. -/
def hsearch_r_FIND {α : Type} (key : List Nat) (htab : hsearch_data α) : Option (ENTRY α) :=
  htab.table.find? (fun e => decide (e.key = key))

/-- The call `hsearch_r(item, ENTER, &ret, htab)`: an entry already present under
the key is returned untouched; otherwise the item is added unless the table is full. -/
def hsearch_r_ENTER {α : Type} (item : ENTRY α) (htab : hsearch_data α) :
    Option (ENTRY α) × hsearch_data α :=
  match hsearch_r_FIND item.key htab with
  | some e => (some e, htab)
  | none =>
    if htab.size ≤ htab.table.length then (none, htab)
    else (some item, { htab with table := htab.table ++ [item] })

/-! ## Data model -/

inductive parser_state_e where
  | BAD_REQUEST
  | COMPLETE
  | METHOD
  | PATH
  | QUERY_STR
  | VERSION
  | HEADER_NAME
  | HEADER_COLON
  | HEADER_VALUE
  | HEADER_CR
  | HEADER_LF
  | HEADER_COMPLETE_CR
deriving DecidableEq, Repr

/-- The enumeration `http_version_e`; `ZERO` stands for the value a `bzero`ed
field holds when that is none of the named enumerators. -/
inductive http_version_e where
  | HTTP_VERSION_UNKNOW
  | HTTP_VERSION_0_9
  | HTTP_VERSION_1_0
  | HTTP_VERSION_1_1
  | ZERO
deriving DecidableEq, Repr

/-- The connection mode; `ZERO` as for `http_version_e`. -/
inductive connection_opt_e where
  | CONN_CLOSE
  | CONN_KEEP_ALIVE
  | ZERO
deriving DecidableEq, Repr

/-- Return codes of `request_parse_headers`. -/
inductive parse_status where
  | STATUS_COMPLETE
  | STATUS_ERROR
  | STATUS_INCOMPLETE
deriving DecidableEq, Repr

structure http_header_t where
  name : Ptr
  value : Ptr
deriving DecidableEq, Repr

/-- The side effects of the registry, `http_header_callback`. -/
inductive http_header_callback where
  | _handle_connection
  | _handle_content_len
  | _handle_host
deriving DecidableEq, Repr

/-- The struct `request_t`; `content_length` is a `size_t`. -/
structure request_t where
  method : Ptr
  path : Ptr
  query_str : Ptr
  version : http_version_e
  host : Ptr
  content_length : Nat
  connection : connection_opt_e
  headers : Nat → http_header_t
  header_count : Nat
  _header_hash : hsearch_data Nat
  _buffer : Nat → Nat
  _buf_idx : Nat
  _conn : Nat

/-! ## The well-known header registry -/

/-- The table `std_headers`. -/
def std_headers : List (List Nat × Option http_header_callback) :=
  [ (str "accept", none),
    (str "accept-charset", none),
    (str "accept-datetime", none),
    (str "accept-encoding", none),
    (str "accept-language", none),
    (str "accept-ranges", none),
    (str "access-control-allow-origin", none),
    (str "age", none),
    (str "allow", none),
    (str "authorization", none),
    (str "cache-control", none),
    (str "connection", some ._handle_connection),
    (str "content-disposition", none),
    (str "content-encoding", none),
    (str "content-language", none),
    (str "content-length", some ._handle_content_len),
    (str "content-location", none),
    (str "content-md5", none),
    (str "content-range", none),
    (str "content-security-policy", none),
    (str "content-type", none),
    (str "cookie", none),
    (str "dnt", none),
    (str "date", none),
    (str "etag", none),
    (str "expect", none),
    (str "expires", none),
    (str "from", none),
    (str "front-end-https", none),
    (str "host", some ._handle_host),
    (str "if-match", none),
    (str "if-modified-since", none),
    (str "if-none-match", none),
    (str "if-range", none),
    (str "if-unmodified-since", none),
    (str "last-modified", none),
    (str "link", none),
    (str "location", none),
    (str "max-forwards", none),
    (str "origin", none),
    (str "p3p", none),
    (str "pragma", none),
    (str "proxy-authenticate", none),
    (str "proxy-authorization", none),
    (str "proxy-connection", none),
    (str "range", none),
    (str "referer", none),
    (str "refresh", none),
    (str "retry-after", none),
    (str "server", none),
    (str "set-cookie", none),
    (str "status", none),
    (str "strict-transport-security", none),
    (str "te", none),
    (str "trailer", none),
    (str "transfer-encoding", none),
    (str "upgrade", none),
    (str "user-agent", none),
    (str "vary", none),
    (str "via", none),
    (str "www-authenticate", none),
    (str "warning", none),
    (str "x-att-deviceid", none),
    (str "x-content-security-policy", none),
    (str "x-content-type-options", none),
    (str "x-forwarded-for", none),
    (str "x-forwarded-proto", none),
    (str "x-frame-options", none),
    (str "x-powered-by", none),
    (str "x-requested-with", none),
    (str "x-wap-profile", none),
    (str "x-webkit-csp", none),
    (str "x-xss-protection", none),
    (str "x-ua-compatible", none) ]

/-- The table built by `init_std_headers_hash`: every row of `std_headers` is
entered in turn into a table created for `sizeof(std_headers) * 2` entries
(a row is two pointers, 16 bytes). -/
def std_headers_hash : hsearch_data (Option http_header_callback) :=
  std_headers.foldl
    (fun h c => (hsearch_r_ENTER { key := c.1, data := c.2 } h).2)
    (hcreate_r (std_headers.length * 16 * 2))

/-! ## String helpers of libc and `common.c` -/

/-- The function `tolower` in the C locale. -/
def tolower (c : Nat) : Nat := if 65 ≤ c ∧ c ≤ 90 then c + 32 else c

/-- Modelled from the spec: `strlowercase(src, dst, n)` is defined in `common.c`,
which is absent.  The spec says a name "is lowercased before lookup/insert"; the
source is a C string, read up to its terminator, and the destination holds `n`
bytes, so at most `n - 1` bytes are kept before the terminator. -/
def strlowercase (src : List Nat) (n : Nat) : List Nat :=
  ((src.takeWhile (fun c => decide (c ≠ 0))).take (n - 1)).map tolower

/-- The test `isspace` in the C locale. -/
def isspace (c : Nat) : Bool := decide (c = 32 ∨ (9 ≤ c ∧ c ≤ 13))

/-- The digit loop of `strtol` in base 10. -/
def atol_digits : List Nat → Nat → Nat
  | [], acc => acc
  | c :: cs, acc => if 48 ≤ c ∧ c ≤ 57 then atol_digits cs (acc * 10 + (c - 48)) else acc

/-- The function `atol` (that is `strtol(s, NULL, 10)`, which saturates at the
ends of `long`). -/
def atol (s : List Nat) : Int :=
  let clamp (x : Int) : Int := max (-(2 ^ 63)) (min x (2 ^ 63 - 1))
  match s.dropWhile isspace with
  | 45 :: cs => clamp (-(atol_digits cs 0 : Int))
  | 43 :: cs => clamp (atol_digits cs 0 : Int)
  | cs => clamp (atol_digits cs 0 : Int)

/-! ## Requests -/

/-- The function `request_create`: a zeroed request with an empty header table. -/
def request_create (cfg : Config) (conn : Nat) : request_t :=
  { method := .null, path := .null, query_str := .null,
    version := .ZERO, host := .null, content_length := 0,
    connection := .ZERO,
    headers := fun _ => { name := .null, value := .null },
    header_count := 0,
    _header_hash := hcreate_r cfg.HTAB_SIZE,
    _buffer := fun _ => 0, _buf_idx := 0, _conn := conn }

/-- The function `request_reset`: the table is destroyed, the struct zeroed, a
new table created and the connection put back.  `created` tells whether
`hcreate_r` succeeds; when it does not, the function returns `-1` with the
struct still zeroed. -/
def request_reset (cfg : Config) (req : request_t) (created : Bool) : Int × request_t :=
  if created then (0, request_create cfg req._conn)
  else (-1, { request_create cfg 0 with _header_hash := hcreate_r 0 })

/-- The C string at a pointer into the request's token buffer. -/
def request_str (cfg : Config) (req : request_t) (p : Ptr) : List Nat :=
  cstr req._buffer cfg.REQUEST_BUFFER_SIZE p

/-- The function `request_get_header`; `header_name` is the caller's C string. -/
def request_get_header (request : request_t) (header_name : List Nat) : Ptr :=
  match hsearch_r_FIND (strlowercase header_name 64) request._header_hash with
  | none => .null
  | some ret => (request.headers ret.data).value

/-- The macro `FILL_NEXT_CHAR`; the store leaves `_buffer` once
`_buf_idx` has reached `REQUEST_BUFFER_SIZE`. -/
def FILL_NEXT_CHAR (cfg : Config) (req : request_t) (ch : Nat) : Option request_t :=
  if req._buf_idx < cfg.REQUEST_BUFFER_SIZE then
    some { req with _buffer := poke req._buffer req._buf_idx ch, _buf_idx := req._buf_idx + 1 }
  else none

/-- The macro `FINISH_CUR_TOKEN`. -/
def FINISH_CUR_TOKEN (cfg : Config) (req : request_t) : Option request_t :=
  FILL_NEXT_CHAR cfg req 0

/-- The function `_resolve_http_version`. -/
def _resolve_http_version (version_str : List Nat) : http_version_e :=
  if version_str = str "1.1" then .HTTP_VERSION_1_1
  else if version_str = str "1.0" then .HTTP_VERSION_1_0
  else if version_str = str "0.9" then .HTTP_VERSION_0_9
  else .HTTP_VERSION_UNKNOW

/-- The function `_handle_content_len`. -/
def _handle_content_len (cfg : Config) (req : request_t) (header : http_header_t) : request_t :=
  { req with content_length := (atol (request_str cfg req header.value) % 2 ^ 64).toNat }

/-- The function `_handle_host`. -/
def _handle_host (req : request_t) (header : http_header_t) : request_t :=
  { req with host := header.value }

/-- The function `_handle_connection`. -/
def _handle_connection (cfg : Config) (req : request_t) (header : http_header_t) : request_t :=
  if (request_str cfg req header.value).map tolower = str "keep-alive" then
    { req with connection := .CONN_KEEP_ALIVE }
  else
    { req with connection := .CONN_CLOSE }

/-- A call through an `http_header_callback`. -/
def call_header_callback (cfg : Config) (cb : http_header_callback)
    (req : request_t) (header : http_header_t) : request_t :=
  match cb with
  | ._handle_connection => _handle_connection cfg req header
  | ._handle_content_len => _handle_content_len cfg req header
  | ._handle_host => _handle_host req header

/-- The function `handle_common_header`. -/
def handle_common_header (cfg : Config) (req : request_t) (header_index : Nat) : request_t :=
  let header := req.headers header_index
  let header_lowercase := strlowercase (request_str cfg req header.name) 64
  match hsearch_r_FIND header_lowercase std_headers_hash with
  | none => req
  | some ret =>
    let req1 := match ret.data with
      | some callback => call_header_callback cfg callback req header
      | none => req
    { req1 with
      _header_hash := (hsearch_r_ENTER { key := ret.key, data := header_index } req1._header_hash).2 }

/-- The statement `req->headers[req->header_count].name = cur_token` of the
`HEADER_NAME` case. -/
def set_header_name (req : request_t) (cur_token : Nat) : request_t :=
  { req with
    headers := Function.update req.headers req.header_count
      { req.headers req.header_count with name := .buf cur_token } }

/-- The statements of the `HEADER_VALUE` case once the token is finished:
`req->headers[req->header_count].value = cur_token;`
`handle_common_header(req, req->header_count); req->header_count++;`. -/
def finish_header (cfg : Config) (req : request_t) (cur_token : Nat) : request_t :=
  let req1 := { req with
    headers := Function.update req.headers req.header_count
      { req.headers req.header_count with value := .buf cur_token } }
  let req2 := handle_common_header cfg req1 req1.header_count
  { req2 with header_count := req2.header_count + 1 }

/-- The locals of `request_parse_headers` that live across loop iterations. -/
structure parse_locals where
  state : parser_state_e
  cur_token : Nat
  req : request_t

/-- One pass through the `switch` of `request_parse_headers` on byte `ch`. -/
def parse_step (cfg : Config) (l : parse_locals) (ch : Nat) : Option parse_locals :=
  match l.state with
  | .METHOD =>
    if ch = 32 then
      (FINISH_CUR_TOKEN cfg l.req).map fun req =>
        { state := .PATH, cur_token := req._buf_idx,
          req := { req with method := .buf l.cur_token } }
    else if ch < 65 ∨ ch > 90 then some { l with state := .BAD_REQUEST }
    else (FILL_NEXT_CHAR cfg l.req ch).map fun req => { l with req := req }
  | .PATH =>
    if ch = 63 then
      (FINISH_CUR_TOKEN cfg l.req).map fun req =>
        { state := .QUERY_STR, cur_token := req._buf_idx,
          req := { req with path := .buf l.cur_token } }
    else if ch = 32 then
      (FINISH_CUR_TOKEN cfg l.req).map fun req =>
        { state := .VERSION, cur_token := req._buf_idx,
          req := { req with path := .buf l.cur_token } }
    else (FILL_NEXT_CHAR cfg l.req ch).map fun req => { l with req := req }
  | .QUERY_STR =>
    if ch = 32 then
      (FINISH_CUR_TOKEN cfg l.req).map fun req =>
        { state := .VERSION, cur_token := req._buf_idx,
          req := { req with query_str := .buf l.cur_token } }
    else (FILL_NEXT_CHAR cfg l.req ch).map fun req => { l with req := req }
  | .VERSION =>
    if ch = 72 ∨ ch = 84 ∨ ch = 80 ∨ ch = 48 ∨ ch = 49 ∨ ch = 57 ∨ ch = 46 then
      (FILL_NEXT_CHAR cfg l.req ch).map fun req => { l with req := req }
    else if ch = 47 then
      (FINISH_CUR_TOKEN cfg l.req).map fun req =>
        if str "HTTP" ≠ request_str cfg req (.buf l.cur_token) then
          { l with state := .BAD_REQUEST, req := req }
        else { l with cur_token := req._buf_idx, req := req }
    else if ch = 13 then
      (FINISH_CUR_TOKEN cfg l.req).map fun req =>
        let ver := _resolve_http_version (request_str cfg req (.buf l.cur_token))
        if ver = .HTTP_VERSION_UNKNOW then
          { l with state := .BAD_REQUEST, req := req }
        else
          { state := .HEADER_CR, cur_token := req._buf_idx,
            req := { req with version := ver } }
    else some l
  | .HEADER_NAME =>
    if ch = 58 then
      (FINISH_CUR_TOKEN cfg l.req).bind fun req =>
        if req.header_count < cfg.MAX_HEADER_SIZE then
          some
            { state := .HEADER_COLON, cur_token := req._buf_idx,
              req := set_header_name req l.cur_token }
        else none
    else (FILL_NEXT_CHAR cfg l.req ch).map fun req => { l with req := req }
  | .HEADER_COLON =>
    if ch = 32 then some { l with state := .HEADER_VALUE }
    else some { l with state := .BAD_REQUEST }
  | .HEADER_VALUE =>
    if ch = 13 then
      (FINISH_CUR_TOKEN cfg l.req).bind fun req =>
        if req.header_count < cfg.MAX_HEADER_SIZE then
          some
            { state := .HEADER_CR, cur_token := (finish_header cfg req l.cur_token)._buf_idx,
              req := finish_header cfg req l.cur_token }
        else none
    else (FILL_NEXT_CHAR cfg l.req ch).map fun req => { l with req := req }
  | .HEADER_CR =>
    if ch = 10 then some { l with state := .HEADER_LF }
    else some { l with state := .BAD_REQUEST }
  | .HEADER_LF =>
    if ch = 13 then some { l with state := .HEADER_COMPLETE_CR }
    else (FILL_NEXT_CHAR cfg l.req ch).map fun req =>
      { l with state := .HEADER_NAME, req := req }
  | .HEADER_COMPLETE_CR =>
    if ch = 10 then some { l with state := .COMPLETE }
    else some { l with state := .BAD_REQUEST }
  | .COMPLETE => some l
  | .BAD_REQUEST => some l

/-- The `for` loop of `request_parse_headers`: `data` is what is left of the
input and `i` the number of bytes taken so far. -/
def parse_loop (cfg : Config) : parse_locals → List Nat → Nat → Option (parse_locals × Nat)
  | l, [], i => some (l, i)
  | l, ch :: data, i =>
    if l.state = .COMPLETE ∨ l.state = .BAD_REQUEST then some (l, i)
    else
      match parse_step cfg l ch with
      | none => none
      | some l1 => parse_loop cfg l1 data (i + 1)

/-- The final `switch` of `request_parse_headers`. -/
def parse_rc : parser_state_e → parse_status
  | .COMPLETE => .STATUS_COMPLETE
  | .BAD_REQUEST => .STATUS_ERROR
  | _ => .STATUS_INCOMPLETE

/-- The function `request_parse_headers`: the return code, `*consumed` and the
request afterwards; `none` when a store would leave `_buffer` or `headers`. -/
def request_parse_headers (cfg : Config) (req : request_t) (data : List Nat) :
    Option (parse_status × Nat × request_t) :=
  let req0 := { req with _buffer := poke req._buffer 0 0, _buf_idx := 0, header_count := 0 }
  (parse_loop cfg { state := .METHOD, cur_token := 0, req := req0 } data 0).map
    fun r => (parse_rc r.1.state, r.2, r.1.req)

/-! ## Responses -/

/-- The struct `http_status_t`: a code and a pointer to its message. -/
structure http_status_t where
  code : Int
  msg : Ptr
deriving DecidableEq, Repr

/-- The struct `response_t`; `content_length` is read as a `long` (it is
assigned `-1` and printed with `%ld`), `_next_handler` is a function pointer. -/
structure response_t where
  status : http_status_t
  version : http_version_e
  connection : connection_opt_e
  content_length : Int
  headers : Nat → http_header_t
  header_count : Nat
  _header_hash : hsearch_data Nat
  _buffer : Nat → Nat
  _buf_idx : Nat
  _header_sent : Bool
  _done : Bool
  _next_handler : Option Nat
  _conn : Nat

/-- The function `str_http_ver`. -/
def str_http_ver : http_version_e → List Nat
  | .HTTP_VERSION_1_1 => str "1.1"
  | .HTTP_VERSION_1_0 => str "1.0"
  | .HTTP_VERSION_0_9 => str "0.9"
  | _ => str "1.1"

/-- The function `response_create`. -/
def response_create (cfg : Config) (conn : Nat) : response_t :=
  { status := { code := 0, msg := .null },
    version := .ZERO,
    connection := .CONN_KEEP_ALIVE,
    content_length := -1,
    headers := fun _ => { name := .null, value := .null },
    header_count := 0,
    _header_hash := hcreate_r cfg.HTAB_SIZE,
    _buffer := fun _ => 0, _buf_idx := 0,
    _header_sent := false, _done := false, _next_handler := none,
    _conn := conn }

/-- The function `response_reset`; `created` tells whether `hcreate_r`
succeeds.  When it does not, the function returns `-1` before the connection,
the content length and the connection mode are assigned. -/
def response_reset (cfg : Config) (resp : response_t) (created : Bool) : Int × response_t :=
  if created then (0, response_create cfg resp._conn)
  else
    (-1, { response_create cfg 0 with
      _header_hash := hcreate_r 0, content_length := 0, connection := .ZERO })

/-- The C string at a pointer, read against the response's arena. -/
def response_str (cfg : Config) (resp : response_t) (p : Ptr) : List Nat :=
  cstr resp._buffer cfg.RESPONSE_BUFFER_SIZE p

/-- The function `response_get_header`; `header_name` is the caller's C string. -/
def response_get_header (resp : response_t) (header_name : List Nat) : Ptr :=
  match hsearch_r_FIND (strlowercase header_name 64) resp._header_hash with
  | none => .null
  | some ret => (resp.headers ret.data).value

/-- The function `response_alloc`; `n` is a `size_t` and the sum wraps at `2 ^ 64`. -/
def response_alloc (cfg : Config) (resp : response_t) (n : Nat) : Ptr × response_t :=
  if (resp._buf_idx + n) % 2 ^ 64 > cfg.RESPONSE_BUFFER_SIZE then (.null, resp)
  else (.buf resp._buf_idx, { resp with _buf_idx := (resp._buf_idx + n) % 2 ^ 64 })

/-- The function `response_set_header`: the return code and the response
afterwards; `none` when the new header would be stored outside `headers`. -/
def response_set_header (cfg : Config) (resp : response_t) (header_name header_value : Ptr) :
    Option (Int × response_t) :=
  if resp._header_sent then some (-1, resp)
  else
    let header_lowercase := strlowercase (response_str cfg resp header_name) 64
    match hsearch_r_FIND header_lowercase resp._header_hash with
    | some ret =>
      some (0, { resp with
        headers := Function.update resp.headers ret.data
          { resp.headers ret.data with value := header_value } })
    | none =>
      if resp.header_count < cfg.MAX_HEADER_SIZE then
        let header := resp.header_count
        let resp1 := { resp with
          header_count := resp.header_count + 1,
          headers := Function.update resp.headers header
            { name := header_name, value := header_value } }
        let enter (r : response_t) (key : List Nat) : Option (Int × response_t) :=
          match hsearch_r_ENTER { key := key, data := header } r._header_hash with
          | (none, _) => some (-1, r)
          | (some _, h) => some (0, { r with _header_hash := h })
        match hsearch_r_FIND header_lowercase std_headers_hash with
        | some ret => enter resp1 ret.key
        | none =>
          let n := header_lowercase.length + 1
          match response_alloc cfg resp1 n with
          | (.buf keybuf, resp2) =>
            enter { resp2 with _buffer := store resp2._buffer keybuf (header_lowercase ++ [0]) }
              header_lowercase
          | (_, resp2) => some (-1, resp2)
      else none

/-- The libc call `n = snprintf(mem + off, size, ...)`, `s` being the expansion
of the format: at most `size - 1` bytes and a terminator are written, and `n` is
the length of the whole expansion. -/
def snprintf (mem : Nat → Nat) (off size : Nat) (s : List Nat) : (Nat → Nat) × Nat :=
  (if size = 0 then mem else store mem off (s.take (size - 1) ++ [0]), s.length)

/-- The function `response_set_header_printf`, `s` being the expansion of `fmt`
with its arguments.  With the cursor beyond the arena `max_len` wraps around
and `vsnprintf` writes outside it. -/
def response_set_header_printf (cfg : Config) (resp : response_t) (name : Ptr) (s : List Nat) :
    Option (Int × response_t) :=
  if cfg.RESPONSE_BUFFER_SIZE < resp._buf_idx then none
  else
    let buf := resp._buf_idx
    let max_len := cfg.RESPONSE_BUFFER_SIZE - resp._buf_idx
    let (mem, len) := snprintf resp._buffer buf max_len s
    match response_set_header cfg { resp with _buffer := mem } name (.buf buf) with
    | none => none
    | some (res, resp1) =>
      if res = 0 then some (res, { resp1 with _buf_idx := resp1._buf_idx + (len + 1) })
      else some (res, resp1)

/-- The conversion `%lu`. -/
def fmt_lu (n : Nat) : List Nat := (Nat.toDigits 10 n).map Char.toNat

/-- The conversions `%ld` and `%d`. -/
def fmt_ld (x : Int) : List Nat :=
  if x < 0 then 45 :: fmt_lu x.natAbs else fmt_lu x.natAbs

/-- Modelled from the spec: `current_http_date(buf, n)` is defined in `common.c`,
which is absent.  The spec has it give "the current time formatted per the HTTP
date grammar"; the clock is the argument `date`: `some d` when the call returns
0 having written `d` (cut to the `n` bytes of the destination), `none` when it
fails. -/
def current_http_date (mem : Nat → Nat) (buf n : Nat) (date : Option (List Nat)) :
    Int × (Nat → Nat) :=
  match date with
  | some d => (0, store mem buf (d.take (n - 1) ++ [0]))
  | none => (-1, mem)

/-- The first block of `set_common_headers`: `len` is the content length
converted to `size_t`, so the test `len >= 0` is the one of the source; the
result of `response_set_header` is dropped as in the source.  With the cursor
beyond the arena the size handed to `snprintf` wraps around. -/
def common_content_length (cfg : Config) (resp : response_t) : Option response_t :=
  let len : Nat := (resp.content_length % 2 ^ 64).toNat
  if len ≥ 0 then
    if cfg.RESPONSE_BUFFER_SIZE < resp._buf_idx then none
    else
      let keybuf := resp._buf_idx
      let r := snprintf resp._buffer keybuf (cfg.RESPONSE_BUFFER_SIZE - resp._buf_idx)
        (fmt_ld resp.content_length)
      let resp1 := { resp with _buffer := r.1, _buf_idx := resp._buf_idx + (r.2 + 1) }
      (response_set_header cfg resp1 (.lit (str "Content-Length")) (.buf keybuf)).map
        fun x => x.2
  else some { resp with connection := .CONN_CLOSE }

/-- The `switch (resp->connection)` of `set_common_headers`. -/
def common_connection (cfg : Config) (resp : response_t) : Option response_t :=
  let res : Option (Int × response_t) :=
    match resp.connection with
    | .CONN_KEEP_ALIVE =>
      response_set_header cfg resp (.lit (str "Connection")) (.lit (str "keep-alive"))
    | _ => response_set_header cfg resp (.lit (str "Connection")) (.lit (str "close"))
  res.map fun x => x.2

/-- The statement `response_set_header(resp, "Server", _BREEZE_NAME)`. -/
def common_server (cfg : Config) (resp : response_t) : Option response_t :=
  (response_set_header cfg resp (.lit (str "Server")) (.lit cfg.BREEZE_NAME)).map fun x => x.2

/-- The last block of `set_common_headers`: the date buffer is allocated and
`current_http_date` is handed the result, NULL included. -/
def common_date (cfg : Config) (resp : response_t) (date : Option (List Nat)) :
    Option response_t :=
  match response_alloc cfg resp 32 with
  | (.buf tmbuf, resp1) =>
    let r := current_http_date resp1._buffer tmbuf 32 date
    let resp2 := { resp1 with _buffer := r.2 }
    if r.1 = 0 then
      (response_set_header cfg resp2 (.lit (str "Date")) (.buf tmbuf)).map fun x => x.2
    else some resp2
  | (_, _) => none

/-- The function `set_common_headers`, block by block; `none` when a store
leaves an array or `current_http_date` is handed NULL. -/
def set_common_headers (cfg : Config) (resp : response_t) (date : Option (List Nat)) :
    Option response_t :=
  (common_content_length cfg resp).bind fun resp1 =>
  (common_connection cfg resp1).bind fun resp2 =>
  (common_server cfg resp2).bind fun resp3 =>
  common_date cfg resp3 date

/-- The conversion `%s`; a NULL argument is undefined. -/
def fmt_s (cfg : Config) (resp : response_t) (p : Ptr) : Option (List Nat) :=
  if p = .null then none else some (response_str cfg resp p)

/-- One `n = snprintf(buffer + buf_len, RESPONSE_BUFFER_SIZE - buf_len, ...);
buf_len += n;` of `response_send_headers` on the local `buffer`; with `buf_len`
beyond the array the size wraps around and the write leaves it. -/
def send_emit (cfg : Config) (acc : (Nat → Nat) × Nat) (s : List Nat) :
    Option ((Nat → Nat) × Nat) :=
  if cfg.RESPONSE_BUFFER_SIZE < acc.2 then none
  else
    let (mem, n) := snprintf acc.1 acc.2 (cfg.RESPONSE_BUFFER_SIZE - acc.2) s
    some (mem, acc.2 + n)

/-- The header loop of `response_send_headers`, from index `i` for `k` rounds. -/
def send_header_lines (cfg : Config) (resp : response_t) :
    Nat → Nat → (Nat → Nat) × Nat → Option ((Nat → Nat) × Nat)
  | _, 0, acc => some acc
  | i, k + 1, acc =>
    (fmt_s cfg resp (resp.headers i).name).bind fun name =>
    (fmt_s cfg resp (resp.headers i).value).bind fun value =>
    (send_emit cfg acc (name ++ str ": " ++ value ++ str "\r\n")).bind fun acc1 =>
    send_header_lines cfg resp (i + 1) k acc1

/-- The assignment `buffer[buf_len++] = ch` of `response_send_headers`. -/
def send_putc (cfg : Config) (acc : (Nat → Nat) × Nat) (ch : Nat) :
    Option ((Nat → Nat) × Nat) :=
  if acc.2 < cfg.RESPONSE_BUFFER_SIZE then some (poke acc.1 acc.2 ch, acc.2 + 1) else none

/-- The function `response_send_headers`: the return code, the response
afterwards and the bytes handed to `iostream_write` (if it is reached), whose
result is the argument `io_rc`; `date` is the clock of `current_http_date`.
The result is `none` when a store leaves an array or `%s` is given NULL. -/
def response_send_headers (cfg : Config) (resp : response_t) (next_handler : Option Nat)
    (date : Option (List Nat)) (io_rc : Int) :
    Option (Int × response_t × Option (List Nat)) :=
  if resp._header_sent then some (-1, resp, none)
  else
    (set_common_headers cfg resp date).bind fun resp1 =>
    (fmt_s cfg resp1 resp1.status.msg).bind fun msg =>
    (send_emit cfg (fun _ => 0, 0)
      (str "HTTP/" ++ str_http_ver resp1.version ++ str " " ++ fmt_ld resp1.status.code
        ++ str " " ++ msg ++ str "\r\n")).bind fun acc1 =>
    (send_header_lines cfg resp1 0 resp1.header_count acc1).bind fun acc2 =>
    (send_putc cfg acc2 13).bind fun acc3 =>
    (send_putc cfg acc3 10).bind fun acc4 =>
    let resp2 := { resp1 with _next_handler := next_handler }
    let bytes := (List.range acc4.2).map acc4.1
    if io_rc < 0 then some (-1, resp2, some bytes)
    else some (0, { resp2 with _header_sent := true }, some bytes)

/-! ## Request heads

The wire format `<METHOD> <PATH>[?<QUERY>] HTTP/<VERSION>\r\n(<Name>: <Value>\r\n)*\r\n`
and the request the parser is expected to build from it. -/

/-- The tokens of a request head. -/
structure Head where
  method : List Nat
  path : List Nat
  query : Option (List Nat)
  version : List Nat
  headers : List (List Nat × List Nat)

/-- One header line `<Name>: <Value>\r\n`. -/
def header_line (nv : List Nat × List Nat) : List Nat :=
  nv.1 ++ str ": " ++ nv.2 ++ str "\r\n"

/-- The header lines of a head, one after the other. -/
def header_lines : List (List Nat × List Nat) → List Nat
  | [] => []
  | nv :: hs => header_line nv ++ header_lines hs

/-- The part `[?<QUERY>]` of the request target. -/
def query_bytes : Option (List Nat) → List Nat
  | none => []
  | some q => str "?" ++ q

/-- The bytes of a request head on the wire. -/
def Head.bytes (h : Head) : List Nat :=
  h.method ++ str " " ++ h.path ++ query_bytes h.query ++ str " HTTP/" ++ h.version
    ++ str "\r\n" ++ header_lines h.headers ++ str "\r\n"

/-- The character classes of a head as the wire format gives them: METHOD made
of `A`..`Z`, PATH without space or `?`, QUERY without space, VERSION one of the
three supported, Name without `:` and not starting with CR, Value without CR. -/
def Head.charset_ok (h : Head) : Bool :=
  h.method.all (fun c => decide (65 ≤ c ∧ c ≤ 90))
  && h.path.all (fun c => decide (c ≠ 32 ∧ c ≠ 63))
  && (match h.query with
      | none => true
      | some q => q.all (fun c => decide (c ≠ 32)))
  && decide (h.version = str "1.1" ∨ h.version = str "1.0" ∨ h.version = str "0.9")
  && h.headers.all (fun nv =>
      nv.1.all (fun c => decide (c ≠ 58)) && decide (nv.1.head? ≠ some 13)
      && nv.2.all (fun c => decide (c ≠ 13)))

/-- A well-formed head: the character classes hold and no header name is empty. -/
def Head.wf (h : Head) : Bool :=
  h.charset_ok && h.headers.all (fun nv => decide (nv.1 ≠ []))

/-- The bytes the header tokens take in the token buffer, terminators included. -/
def headers_size : List (List Nat × List Nat) → Nat
  | [] => 0
  | nv :: hs => nv.1.length + 1 + (nv.2.length + 1) + headers_size hs

/-- The bytes the interned tokens of a head take in the token buffer. -/
def Head.size (h : Head) : Nat :=
  h.method.length + 1 + (h.path.length + 1)
    + (match h.query with
       | none => 0
       | some q => q.length + 1)
    + 5 + (h.version.length + 1) + headers_size h.headers

/-- A head fits the request's capacity: its tokens fit the token buffer and its
headers fit the header array. -/
def Head.fits (cfg : Config) (h : Head) : Prop :=
  h.size ≤ cfg.REQUEST_BUFFER_SIZE ∧ h.headers.length ≤ cfg.MAX_HEADER_SIZE

instance (cfg : Config) (h : Head) : Decidable (h.fits cfg) := by
  unfold Head.fits; infer_instance

/-- The request after `bs` has been appended to the token buffer. -/
def fill (req : request_t) (bs : List Nat) : request_t :=
  { req with _buffer := store req._buffer req._buf_idx bs, _buf_idx := req._buf_idx + bs.length }

/-- The request after one header line has been parsed: both tokens interned,
the header slot filled, the registry consulted and the header counted. -/
def after_header (cfg : Config) (req : request_t) (nv : List Nat × List Nat) : request_t :=
  finish_header cfg
    (fill (set_header_name (fill req (nv.1 ++ [0])) req._buf_idx) (nv.2 ++ [0]))
    (req._buf_idx + (nv.1.length + 1))

/-- The request after the request line of `h` has been parsed. -/
def after_request_line (req : request_t) (h : Head) : request_t :=
  let r0 := { req with _buffer := poke req._buffer 0 0, _buf_idx := 0, header_count := 0 }
  let r1 := { fill r0 (h.method ++ [0]) with method := .buf 0 }
  let r2 := { fill r1 (h.path ++ [0]) with path := .buf r1._buf_idx }
  let r3 := match h.query with
    | none => r2
    | some q => { fill r2 (q ++ [0]) with query_str := .buf r2._buf_idx }
  let r4 := fill r3 (str "HTTP" ++ [0])
  { fill r4 (h.version ++ [0]) with version := _resolve_http_version h.version }

/-- The request after the whole head `h` has been parsed. -/
def after_head (cfg : Config) (req : request_t) (h : Head) : request_t :=
  h.headers.foldl (after_header cfg) (after_request_line req h)

/-- The names of the registry. -/
def std_names : List (List Nat) := std_headers.map (fun c => c.1)

/-- A configuration for the worked examples. -/
def demo_cfg : Config :=
  { REQUEST_BUFFER_SIZE := 2048, RESPONSE_BUFFER_SIZE := 2048, MAX_HEADER_SIZE := 25,
    HTAB_SIZE := 29, BREEZE_NAME := str "breeze", MAX_STATE_STACK_SIZE := 8 }

/-- The bytes `bs` stand in memory from offset `off` on. -/
def stands (mem : Nat → Nat) (off : Nat) (bs : List Nat) : Prop :=
  ∀ j, j < bs.length → mem (off + j) = bs.getD j 0

/-- The head `GET /a HTTP/1.1\r\nHost: x\r\n\r\n`. -/
def head_demo : Head :=
  { method := str "GET", path := str "/a", query := none, version := str "1.1",
    headers := [(str "Host", str "x")] }

/-- The head `GET / HTTP/1.1\r\n: v\r\n\r\n`, whose one header has an empty name. -/
def head_empty_name : Head :=
  { method := str "GET", path := str "/", query := none, version := str "1.1",
    headers := [([], str "v")] }

/-- A head whose path `/a\0b` holds a NUL byte. -/
def head_nul_path : Head :=
  { method := str "GET", path := [47, 97, 0, 98], query := none, version := str "1.1",
    headers := [] }

/-- The head `GET / HTTP/1.1\r\nX-Foo: 1\r\n\r\n`, with a header outside the registry. -/
def head_custom : Head :=
  { method := str "GET", path := str "/", query := none, version := str "1.1",
    headers := [(str "X-Foo", str "1")] }

/-- The head `GET /a?b=1 HTTP/1.0\r\nContent-Type: text/html\r\nX-Foo: 1\r\n\r\n`. -/
def head_typed : Head :=
  { method := str "GET", path := str "/a", query := some (str "b=1"), version := str "1.0",
    headers := [(str "Content-Type", str "text/html"), (str "X-Foo", str "1")] }

/-- Every key of the request's lookup table is a registry name. -/
def keys_std (req : request_t) : Prop :=
  ∀ e ∈ req._header_hash.table, e.key ∈ std_names


/-- The status `STATUS_OK`. -/
def STATUS_OK : http_status_t := { code := 200, msg := .lit (str "OK") }

/-- A fresh response with status 200, content length left unset. -/
def resp_demo : response_t := { response_create demo_cfg 0 with status := STATUS_OK }

/-- A date as `current_http_date` writes it. -/
def date_demo : List Nat := str "Sun, 01 Nov 2026 00:00:00 GMT"

/-- A call of `response_set_header` is within capacity: the name is already in
the lookup table, or there is a free header slot and a free table entry and,
for a name outside the registry, room in the arena for its lower-cased copy. -/
def set_header_fits (cfg : Config) (resp : response_t) (header_name : Ptr) : Prop :=
  (hsearch_r_FIND (strlowercase (response_str cfg resp header_name) 64) resp._header_hash).isSome
  ∨ (resp.header_count < cfg.MAX_HEADER_SIZE
      ∧ resp._header_hash.table.length < resp._header_hash.size
      ∧ (strlowercase (response_str cfg resp header_name) 64 ∈ std_names
          ∨ resp._buf_idx + ((strlowercase (response_str cfg resp header_name) 64).length + 1)
              ≤ cfg.RESPONSE_BUFFER_SIZE))

/-- The local buffer of `response_send_headers` holds `out` in its first
`buf_len` bytes. -/
def holds (acc : (Nat → Nat) × Nat) (out : List Nat) : Prop :=
  acc.2 = out.length ∧ stands acc.1 0 out

/-- The lines `<Name>: <Value>\r\n` of the headers `i`, .., `i + k - 1`. -/
def header_bytes (cfg : Config) (resp : response_t) : Nat → Nat → List Nat
  | _, 0 => []
  | i, k + 1 =>
    response_str cfg resp (resp.headers i).name ++ str ": "
      ++ response_str cfg resp (resp.headers i).value ++ str "\r\n"
      ++ header_bytes cfg resp (i + 1) k

/-- The status line `HTTP/<version> <code> <message>\r\n` of a response. -/
def status_line (cfg : Config) (resp : response_t) : List Nat :=
  str "HTTP/" ++ str_http_ver resp.version ++ str " " ++ fmt_ld resp.status.code
    ++ str " " ++ response_str cfg resp resp.status.msg ++ str "\r\n"

/-- The response after a header whose name is new to the lookup table has been
stored in the next slot and entered under `key`. -/
def push_header (resp : response_t) (key : List Nat) (name value : Ptr) : response_t :=
  { resp with
    header_count := resp.header_count + 1,
    headers := Function.update resp.headers resp.header_count { name := name, value := value },
    _header_hash := { resp._header_hash with
      table := resp._header_hash.table ++ [{ key := key, data := resp.header_count }] } }

/-- The response after `bs` has been written at the arena cursor and the cursor
moved past it. -/
def arena_put (resp : response_t) (bs : List Nat) : response_t :=
  { resp with
    _buffer := store resp._buffer resp._buf_idx bs,
    _buf_idx := resp._buf_idx + bs.length }

/-- A fresh response with status 200 and content length 13. -/
def resp_demo13 : response_t := { resp_demo with content_length := 13 }

/-! ## Status pages and body writes -/

/-- The type `ctx_state_t` of `http.h`: an opaque state marker. -/
abbrev ctx_state_t : Type := Nat

/-- The struct `handler_ctx_t`: the state stack, its depth and the configuration
pointer (0 for NULL). -/
structure handler_ctx_t where
  _stat_stack : Nat → ctx_state_t
  _stat_top : Nat
  conf : Nat

/-- The function `context_create`: a zeroed context. -/
def context_create : handler_ctx_t :=
  { _stat_stack := fun _ => 0, _stat_top := 0, conf := 0 }

/-- The function `context_reset`. -/
def context_reset (ctx : handler_ctx_t) : Int × handler_ctx_t :=
  (0, { ctx with _stat_top := 0, conf := 0 })

/-- The function `context_push`. -/
def context_push (cfg : Config) (ctx : handler_ctx_t) (stat : ctx_state_t) :
    Int × handler_ctx_t :=
  if ctx._stat_top ≥ cfg.MAX_STATE_STACK_SIZE then (-1, ctx)
  else
    (0, { ctx with
      _stat_stack := Function.update ctx._stat_stack ctx._stat_top stat,
      _stat_top := ctx._stat_top + 1 })

/-- The function `context_pop`: the index of the slot whose address is returned
(`none` for NULL) and the context afterwards. -/
def context_pop (ctx : handler_ctx_t) : Option Nat × handler_ctx_t :=
  if ctx._stat_top ≤ 0 then (none, ctx)
  else (some (ctx._stat_top - 1), { ctx with _stat_top := ctx._stat_top - 1 })

/-- The function `context_peek`: the index of the slot whose address is returned
(`none` for NULL) and the context afterwards. -/
def context_peek (ctx : handler_ctx_t) : Option Nat × handler_ctx_t :=
  if ctx._stat_top ≤ 0 then (none, ctx)
  else (some (ctx._stat_top - 1), ctx)

/-! ## Write completions -/

/-- The struct `connection_t` as far as `http.c` reads it; `handler_conf` is
`conn->server->handler_conf`. -/
structure connection_t where
  request : request_t
  response : response_t
  context : handler_ctx_t
  handler_conf : Nat

/-- The calls `on_write_finished` makes into `connection.c`, which is absent. -/
inductive conn_call where
  | connection_run_handler (handler : Nat)
  | connection_close
  | connection_run
deriving DecidableEq, Repr

/-- The statement `if (handler != NULL) connection_run_handler(conn, handler);`
of `on_write_finished`: the connection afterwards and the call made.
`run_handler` is what `connection_run_handler` does to the connection. -/
def run_next_handler (run_handler : connection_t → Nat → connection_t) (conn : connection_t) :
    connection_t × List conn_call :=
  match conn.response._next_handler with
  | some handler => (run_handler conn handler, [.connection_run_handler handler])
  | none => (conn, [])

/-- The function `on_write_finished`: the connection afterwards and the calls
made into `connection.c`, in order.  `req_created` and `resp_created` tell
whether `hcreate_r` succeeds in the two resets. -/
def on_write_finished (cfg : Config) (run_handler : connection_t → Nat → connection_t)
    (req_created resp_created : Bool) (conn : connection_t) :
    connection_t × List conn_call :=
  let r0 := run_next_handler run_handler conn
  let conn1 := r0.1
  if conn1.response._done then
    match conn1.response.connection with
    | .CONN_CLOSE => (conn1, r0.2 ++ [.connection_close])
    | _ =>
      let rq := request_reset cfg conn1.request req_created
      let conn2 := { conn1 with request := rq.2 }
      if rq.1 < 0 then (conn2, r0.2 ++ [.connection_close])
      else
        let rs := response_reset cfg conn2.response resp_created
        let conn3 := { conn2 with response := rs.2 }
        if rs.1 < 0 then (conn3, r0.2 ++ [.connection_close])
        else
          let cx := context_reset conn3.context
          let conn4 := { conn3 with context := cx.2 }
          if cx.1 < 0 then (conn4, r0.2 ++ [.connection_close])
          else
            ({ conn4 with context := { conn4.context with conf := conn4.handler_conf } },
              r0.2 ++ [.connection_run])
  else (conn1, r0.2)

/-! ## Worked examples for the response, context and connection claims -/

/-- A context of depth 2 in the demo configuration. -/
def ctx_demo : handler_ctx_t :=
  { _stat_stack := fun j => if j = 0 then 11 else if j = 1 then 22 else 0,
    _stat_top := 2, conf := 5 }

/-- A response whose headers have been sent, with one header stored and the
cursor at 6. -/
def resp_sent : response_t :=
  { push_header (arena_put resp_demo (str "x-foo" ++ [0])) (str "x-foo")
      (.lit (str "X-Foo")) (.lit (str "1")) with _header_sent := true }

/-- The connection mode `_handle_connection` derives from a header value. -/
def connection_mode (v : List Nat) : connection_opt_e :=
  if (v.takeWhile (fun c => decide (c ≠ 0))).map tolower = str "keep-alive"
  then .CONN_KEEP_ALIVE else .CONN_CLOSE

/-- A head with the header `Connection: keep-alive\0x`. -/
def head_conn_nul : Head :=
  { method := str "GET", path := str "/", query := none, version := str "1.1",
    headers := [(str "Connection", str "keep-alive" ++ [0, 120])] }

/-- A head with the headers `CONNECTION: Keep-Alive` and then `connection: close`. -/
def head_conn_twice : Head :=
  { method := str "GET", path := str "/", query := none, version := str "1.1",
    headers := [(str "CONNECTION", str "Keep-Alive"), (str "connection", str "close")] }

/-- A context whose stack is full in the demo configuration. -/
def ctx_full : handler_ctx_t :=
  { _stat_stack := fun j => j + 1, _stat_top := 8, conf := 5 }

/-- A connection whose response is done, in keep-alive mode, with no
continuation pending. -/
def conn_demo : connection_t :=
  { request := request_create demo_cfg 7,
    response := { resp_demo13 with _header_sent := true, _done := true },
    context := ctx_demo,
    handler_conf := 9 }

/-! ## Default headers on any response, and status pages -/

/-- The response after `response_set_header` has stored a header under a key of
the registry: the value of the header found under the key is replaced, or the
header is pushed. -/
def upsert (resp : response_t) (key : List Nat) (name value : Ptr) : response_t :=
  match hsearch_r_FIND key resp._header_hash with
  | some ret =>
    { resp with
      headers := Function.update resp.headers ret.data
        { resp.headers ret.data with value := value } }
  | none => push_header resp key name value

/-- The value of the `Connection` header for a connection mode. -/
def connection_value : connection_opt_e → Ptr
  | .CONN_KEEP_ALIVE => .lit (str "keep-alive")
  | _ => .lit (str "close")

/-- The names of the default headers. -/
def default_header_names : List (List Nat) :=
  [str "Content-Length", str "Connection", str "Server", str "Date"]

/-- The response after default-header injection on a response with room for it. -/
def with_common (cfg : Config) (resp : response_t) (date : Option (List Nat)) : response_t :=
  let r1 := upsert (arena_put resp (fmt_ld resp.content_length ++ [0]))
    (str "content-length") (.lit (str "Content-Length")) (.buf resp._buf_idx)
  let r2 := upsert r1 (str "connection") (.lit (str "Connection")) (connection_value r1.connection)
  let r3 := upsert r2 (str "server") (.lit (str "Server")) (.lit cfg.BREEZE_NAME)
  match date with
  | some d =>
    upsert
      { r3 with
        _buffer := store r3._buffer r3._buf_idx (d.take 31 ++ [0]),
        _buf_idx := (r3._buf_idx + 32) % 2 ^ 64 }
      (str "date") (.lit (str "Date")) (.buf r3._buf_idx)
  | none => { r3 with _buf_idx := (r3._buf_idx + 32) % 2 ^ 64 }

/-- The header slots of `b` are those of `a`, in place and under the same
names, followed by default headers whose names were not in the table of `a`. -/
def injected (a b : response_t) : Prop :=
  a.header_count ≤ b.header_count
  ∧ (∀ j, j < a.header_count → (b.headers j).name = (a.headers j).name)
  ∧ (∀ j, a.header_count ≤ j → j < b.header_count →
      ∃ dn, (b.headers j).name = .lit dn ∧ dn ∈ default_header_names
        ∧ hsearch_r_FIND (strlowercase dn 64) a._header_hash = none)
  ∧ (∃ extra, b._header_hash.table = a._header_hash.table ++ extra)

/-- Every header slot in use holds a name and a value. -/
def all_set (resp : response_t) : Prop :=
  ∀ j, j < resp.header_count →
    (resp.headers j).name ≠ .null ∧ (resp.headers j).value ≠ .null

/-- A response with content length 13 on which the caller has set
`Content-Type: text/html`. -/
def resp_typed : response_t :=
  push_header resp_demo13 (str "content-type") (.lit (str "Content-Type"))
    (.lit (str "text/html"))

/-- The run of the parser from `l` on `data` stays within the token buffer and
the header array: the bytes still to come fit the buffer, and the header lines
still to come (one `:` each at least) fit the array. -/
def within (cfg : Config) (l : parse_locals) (data : List Nat) : Prop :=
  l.req._buf_idx + data.length ≤ cfg.REQUEST_BUFFER_SIZE
  ∧ l.req.header_count
      + (if l.state = .HEADER_COLON ∨ l.state = .HEADER_VALUE then 1 else 0)
      + data.count 58 ≤ cfg.MAX_HEADER_SIZE

/-- A field has the same value in two results, or holds in each result what it
held before the call. -/
def same_or_kept {α : Type} (x y x0 y0 : α) : Prop :=
  x = y ∨ (x = x0 ∧ y = y0)

/-- Two requests hold the same tokens: same cursor (within the buffer), same
header count, same bytes below the cursor. -/
def same_tokens (cfg : Config) (a b : request_t) : Prop :=
  a._buf_idx = b._buf_idx ∧ a.header_count = b.header_count
  ∧ a._buf_idx ≤ cfg.REQUEST_BUFFER_SIZE
  ∧ ∀ j, j < a._buf_idx → a._buffer j = b._buffer j

/-- The header slot being filled has in both requests the same name pointer, at
a token that is terminated below the cursor. -/
def same_name (a b : request_t) : Prop :=
  ∃ off e, (a.headers a.header_count).name = .buf off
    ∧ (b.headers b.header_count).name = .buf off
    ∧ off ≤ e ∧ e < a._buf_idx ∧ a._buffer e = 0

/-- The head `GET / HTTP/1.1\r\n\r\n`, without any header. -/
def head_bare : Head :=
  { method := str "GET", path := str "/", query := none, version := str "1.1", headers := [] }

/-- The request in which `GET /a HTTP/1.1\r\nHost: x\r\n\r\n` has been parsed. -/
def req_after_demo : request_t :=
  match request_parse_headers demo_cfg (request_create demo_cfg 0) head_demo.bytes with
  | some r => r.2.2
  | none => request_create demo_cfg 0

/-- A fresh response on which `response_alloc(resp, 2040)` has been called: the
cursor stands 8 bytes before the end of the arena. -/
def resp_filled : response_t := (response_alloc demo_cfg resp_demo13 2040).2

/-! ## Header names as the code reads them, and two runs of the parser -/

/-- The name of a header as the code reads it: the C string, up to the first
NUL byte, lower-cased. -/
def cname (n : List Nat) : List Nat :=
  (n.takeWhile (fun c => decide (c ≠ 0))).map tolower

/-- The head `GET / HTTP/1.1\r\nHost\0junk: x\r\n\r\n`, whose one header has a NUL
byte in its name. -/
def head_nul_name : Head :=
  { method := str "GET", path := str "/", query := none, version := str "1.1",
    headers := [(str "Host" ++ [0] ++ str "junk", str "x")] }

/-- A head with the headers `Host: good` and then `Host\0junk: evil`. -/
def head_host_then_nul : Head :=
  { method := str "GET", path := str "/", query := none, version := str "1.1",
    headers := [(str "Host", str "good"), (str "Host" ++ [0] ++ str "junk", str "evil")] }

/-- A head with the headers `Host\0junk: evil` and then `Host: good`. -/
def head_nul_then_host : Head :=
  { method := str "GET", path := str "/", query := none, version := str "1.1",
    headers := [(str "Host" ++ [0] ++ str "junk", str "evil"), (str "Host", str "good")] }

/-- A head with the headers `Connection: keep-alive` and then
`Connection\0junk: close`. -/
def head_conn_then_nul : Head :=
  { method := str "GET", path := str "/", query := none, version := str "1.1",
    headers := [(str "Connection", str "keep-alive"),
      (str "Connection" ++ [0] ++ str "junk", str "close")] }

/-- The pointer `p` designates a token of the buffer `mem` that is terminated
below the cursor `idx`. -/
def token_ptr (mem : Nat → Nat) (idx : Nat) (p : Ptr) : Prop :=
  ∃ off e, p = .buf off ∧ off ≤ e ∧ e < idx ∧ mem e = 0

/-- A pointer field is in two results the same pointer, to a token terminated
below the cursor, or holds in each result the pointer it held before the
call. -/
def same_token_or_kept (mem : Nat → Nat) (idx : Nat) (x y x0 y0 : Ptr) : Prop :=
  (x = y ∧ token_ptr mem idx x) ∨ (x = x0 ∧ y = y0)

/-- The fields a parse leaves in `a` and `b`, started from `req1` and `req2`:
each is the same in both (a pointer field then designates a token terminated
below the cursor), or is in both what the request held before. -/
def same_fields (req1 req2 a b : request_t) : Prop :=
  same_token_or_kept a._buffer a._buf_idx a.method b.method req1.method req2.method
  ∧ same_token_or_kept a._buffer a._buf_idx a.path b.path req1.path req2.path
  ∧ same_token_or_kept a._buffer a._buf_idx a.query_str b.query_str
      req1.query_str req2.query_str
  ∧ same_or_kept a.version b.version req1.version req2.version
  ∧ same_token_or_kept a._buffer a._buf_idx a.host b.host req1.host req2.host
  ∧ same_or_kept a.content_length b.content_length req1.content_length req2.content_length
  ∧ same_or_kept a.connection b.connection req1.connection req2.connection

/-- Two runs of the parser on the same bytes, started from `req1` and `req2`,
are at the same point. -/
def sim (cfg : Config) (req1 req2 : request_t) (l1 l2 : parse_locals) : Prop :=
  l1.state = l2.state ∧ l1.cur_token = l2.cur_token
  ∧ l1.cur_token ≤ l1.req._buf_idx
  ∧ same_tokens cfg l1.req l2.req
  ∧ same_fields req1 req2 l1.req l2.req
  ∧ ((l1.state = .HEADER_COLON ∨ l1.state = .HEADER_VALUE) → same_name l1.req l2.req)

/-- The head `GET /0123456789abcdefghijABCDEFGHIJ HTTP/1.1\r\n\r\n`, whose path is
31 bytes long. -/
def head_long_path : Head :=
  { method := str "GET", path := str "/0123456789abcdefghijABCDEFGHIJ", query := none,
    version := str "1.1", headers := [] }

/-! # Lemmas and theorems -/

/-! ## Memory lemmas -/

theorem store_below (mem : Nat → Nat) (off : Nat) (bs : List Nat) (j : Nat) (h : j < off) :
    store mem off bs j = mem j := by
  induction bs generalizing mem off with
  | nil => rfl
  | cons c cs ih =>
    rw [store, ih _ _ (by omega)]
    simp [poke]; intro h1; omega

theorem store_above (mem : Nat → Nat) (off : Nat) (bs : List Nat) (j : Nat)
    (h : off + bs.length ≤ j) : store mem off bs j = mem j := by
  induction bs generalizing mem off with
  | nil => rfl
  | cons c cs ih =>
    simp only [List.length_cons] at h
    rw [store, ih _ _ (by omega)]
    simp [poke]; intro h1; omega

theorem store_append (mem : Nat → Nat) (off : Nat) (a b : List Nat) :
    store mem off (a ++ b) = store (store mem off a) (off + a.length) b := by
  induction a generalizing mem off with
  | nil => simp [store]
  | cons c cs ih =>
    rw [List.cons_append, store, store, ih, List.length_cons, Nat.add_assoc, Nat.add_comm 1]

theorem store_at (mem : Nat → Nat) (off : Nat) (bs : List Nat) (j : Nat) (h : j < bs.length) :
    store mem off bs (off + j) = bs.getD j 0 := by
  induction bs generalizing mem off j with
  | nil => simp at h
  | cons c cs ih =>
    cases j with
    | zero =>
      simp only [store, Nat.add_zero, List.getD_cons_zero]
      rw [store_below _ _ _ _ (by omega)]; simp [poke]
    | succ j =>
      simp only [List.length_cons] at h
      simp only [store, List.getD_cons_succ]
      have := ih (poke mem off c) (off + 1) j (by omega)
      rw [← this]; congr 1; omega

theorem stands_store (mem : Nat → Nat) (off : Nat) (bs : List Nat) :
    stands (store mem off bs) off bs := fun j hj => store_at mem off bs j hj

theorem stands_cons {mem : Nat → Nat} {off c : Nat} {bs : List Nat}
    (h : stands mem off (c :: bs)) : mem off = c ∧ stands mem (off + 1) bs := by
  constructor
  · simpa using h 0 (by simp)
  · intro j hj
    have := h (j + 1) (by simpa using hj)
    simpa [Nat.add_assoc, Nat.add_comm 1 j] using this

theorem stands_append_left {mem : Nat → Nat} {off : Nat} {a b : List Nat}
    (h : stands mem off (a ++ b)) : stands mem off a := by
  intro j hj
  have := h j (by simp; omega)
  rw [this]
  simp [List.getD_eq_getElem?_getD, List.getElem?_append_left hj]

theorem stands_append_right {mem : Nat → Nat} {off : Nat} {a b : List Nat}
    (h : stands mem off (a ++ b)) : stands mem (off + a.length) b := by
  intro j hj
  have := h (a.length + j) (by simp; omega)
  rw [Nat.add_assoc, this]
  simp [List.getD_eq_getElem?_getD, List.getElem?_append_right]

theorem stands_congr {mem mem1 : Nat → Nat} {off : Nat} {bs : List Nat}
    (h : stands mem off bs) (hm : ∀ j, j < off + bs.length → mem1 j = mem j) :
    stands mem1 off bs := by
  intro j hj
  rw [hm _ (by omega)]; exact h j hj

/-- Reading a C string whose bytes and terminator stand in memory. -/
theorem load_of_stands (mem : Nat → Nat) (off fuel : Nat) (t : List Nat)
    (h : stands mem off (t ++ [0])) (hf : t.length < fuel) :
    load mem off fuel = t.takeWhile (fun c => decide (c ≠ 0)) := by
  induction t generalizing off fuel with
  | nil =>
    cases fuel with
    | zero => simp at hf
    | succ f =>
      have := (stands_cons h).1
      simp [load, this]
  | cons c cs ih =>
    cases fuel with
    | zero => simp at hf
    | succ f =>
      simp only [List.length_cons] at hf
      obtain ⟨h0, h1⟩ := stands_cons (by simpa using h)
      simp only [load, h0, List.takeWhile_cons]
      by_cases hc : c = 0
      · simp [hc]
      · simp only [hc, if_false, ne_eq, not_false_eq_true, decide_True, if_true]
        rw [ih (off + 1) f h1 (by omega)]

/-! ## The parser loop, phase by phase -/

theorem str_sp : str " " = [32] := by decide
theorem str_qm : str "?" = [63] := by decide
theorem str_colon_sp : str ": " = [58, 32] := by decide
theorem str_crlf : str "\r\n" = [13, 10] := by decide
theorem str_sp_http : str " HTTP/" = [32, 72, 84, 84, 80, 47] := by decide
theorem str_http : str "HTTP" = [72, 84, 84, 80] := by decide
theorem str_v11 : str "1.1" = [49, 46, 49] := by decide
theorem str_v10 : str "1.0" = [49, 46, 48] := by decide
theorem str_v09 : str "0.9" = [48, 46, 57] := by decide

theorem FILL_NEXT_CHAR_eq (cfg : Config) (req : request_t) (ch : Nat)
    (h : req._buf_idx < cfg.REQUEST_BUFFER_SIZE) :
    FILL_NEXT_CHAR cfg req ch = some (fill req [ch]) := by
  simp [FILL_NEXT_CHAR, fill, h, store]

theorem FINISH_CUR_TOKEN_eq (cfg : Config) (req : request_t)
    (h : req._buf_idx < cfg.REQUEST_BUFFER_SIZE) :
    FINISH_CUR_TOKEN cfg req = some (fill req [0]) :=
  FILL_NEXT_CHAR_eq cfg req 0 h

theorem fill_fill (req : request_t) (a b : List Nat) :
    fill (fill req a) b = fill req (a ++ b) := by
  simp [fill, store_append, Nat.add_assoc]

theorem fill_buf_idx (req : request_t) (a : List Nat) :
    (fill req a)._buf_idx = req._buf_idx + a.length := rfl

theorem parse_loop_cons (cfg : Config) (S : parser_state_e) (tok : Nat) (req : request_t)
    (l1 : parse_locals) (ch : Nat) (data : List Nat)
    (i : Nat) (h1 : S ≠ .COMPLETE) (h2 : S ≠ .BAD_REQUEST)
    (hs : parse_step cfg ⟨S, tok, req⟩ ch = some l1) :
    parse_loop cfg ⟨S, tok, req⟩ (ch :: data) i = parse_loop cfg l1 data (i + 1) := by
  simp [parse_loop, h1, h2, hs]

/-- A run of bytes that the current state only appends to the token buffer. -/
theorem parse_loop_fill (cfg : Config) (S : parser_state_e) (tok : Nat) (t : List Nat)
    (hS1 : S ≠ .COMPLETE) (hS2 : S ≠ .BAD_REQUEST)
    (hstep : ∀ c ∈ t, ∀ r : request_t,
      parse_step cfg ⟨S, tok, r⟩ c = (FILL_NEXT_CHAR cfg r c).map (fun r1 => ⟨S, tok, r1⟩))
    (req : request_t) (rest : List Nat) (i : Nat)
    (hcap : req._buf_idx + t.length ≤ cfg.REQUEST_BUFFER_SIZE) :
    parse_loop cfg ⟨S, tok, req⟩ (t ++ rest) i
      = parse_loop cfg ⟨S, tok, fill req t⟩ rest (i + t.length) := by
  induction t generalizing req i with
  | nil => rfl
  | cons c cs ih =>
    simp only [List.length_cons] at hcap
    have hs := hstep c (by simp) req
    rw [FILL_NEXT_CHAR_eq cfg req c (by omega)] at hs
    rw [List.cons_append, parse_loop_cons cfg S tok req _ c _ i hS1 hS2 hs]
    rw [ih (fun c hc r => hstep c (by simp [hc]) r) _ _ (by rw [fill_buf_idx]; simp; omega)]
    rw [fill_fill]; simp [Nat.add_assoc, Nat.add_comm 1]

theorem method_phase (cfg : Config) (tok : Nat) (req : request_t) (m rest : List Nat) (i : Nat)
    (hm : ∀ c ∈ m, 65 ≤ c ∧ c ≤ 90)
    (hcap : req._buf_idx + m.length + 1 ≤ cfg.REQUEST_BUFFER_SIZE) :
    parse_loop cfg ⟨.METHOD, tok, req⟩ (m ++ 32 :: rest) i
      = parse_loop cfg
          ⟨.PATH, req._buf_idx + m.length + 1, { fill req (m ++ [0]) with method := .buf tok }⟩
          rest (i + m.length + 1) := by
  rw [parse_loop_fill cfg .METHOD tok m (by decide) (by decide) _ req _ i (by omega)]
  · rw [parse_loop_cons cfg .METHOD tok _ _ 32 rest _ (by decide) (by decide)]
    simp [parse_step, FINISH_CUR_TOKEN_eq cfg (fill req m) (by rw [fill_buf_idx]; omega),
      fill_fill, fill_buf_idx, Nat.add_assoc]
  · intro c hc r
    have := hm c hc
    simp only [parse_step]
    rw [if_neg (by omega), if_neg (by omega)]

theorem path_phase_sp (cfg : Config) (tok : Nat) (req : request_t) (p rest : List Nat) (i : Nat)
    (hp : ∀ c ∈ p, c ≠ 32 ∧ c ≠ 63)
    (hcap : req._buf_idx + p.length + 1 ≤ cfg.REQUEST_BUFFER_SIZE) :
    parse_loop cfg ⟨.PATH, tok, req⟩ (p ++ 32 :: rest) i
      = parse_loop cfg
          ⟨.VERSION, req._buf_idx + p.length + 1, { fill req (p ++ [0]) with path := .buf tok }⟩
          rest (i + p.length + 1) := by
  rw [parse_loop_fill cfg .PATH tok p (by decide) (by decide) _ req _ i (by omega)]
  · rw [parse_loop_cons cfg .PATH tok _ _ 32 rest _ (by decide) (by decide)]
    simp [parse_step, FINISH_CUR_TOKEN_eq cfg (fill req p) (by rw [fill_buf_idx]; omega),
      fill_fill, fill_buf_idx, Nat.add_assoc]
  · intro c hc r
    have := hp c hc
    simp only [parse_step]
    rw [if_neg this.2, if_neg this.1]

theorem path_phase_qm (cfg : Config) (tok : Nat) (req : request_t) (p rest : List Nat) (i : Nat)
    (hp : ∀ c ∈ p, c ≠ 32 ∧ c ≠ 63)
    (hcap : req._buf_idx + p.length + 1 ≤ cfg.REQUEST_BUFFER_SIZE) :
    parse_loop cfg ⟨.PATH, tok, req⟩ (p ++ 63 :: rest) i
      = parse_loop cfg
          ⟨.QUERY_STR, req._buf_idx + p.length + 1,
            { fill req (p ++ [0]) with path := .buf tok }⟩
          rest (i + p.length + 1) := by
  rw [parse_loop_fill cfg .PATH tok p (by decide) (by decide) _ req _ i (by omega)]
  · rw [parse_loop_cons cfg .PATH tok _ _ 63 rest _ (by decide) (by decide)]
    simp [parse_step, FINISH_CUR_TOKEN_eq cfg (fill req p) (by rw [fill_buf_idx]; omega),
      fill_fill, fill_buf_idx, Nat.add_assoc]
  · intro c hc r
    have := hp c hc
    simp only [parse_step]
    rw [if_neg this.2, if_neg this.1]

theorem query_phase (cfg : Config) (tok : Nat) (req : request_t) (q rest : List Nat) (i : Nat)
    (hq : ∀ c ∈ q, c ≠ 32)
    (hcap : req._buf_idx + q.length + 1 ≤ cfg.REQUEST_BUFFER_SIZE) :
    parse_loop cfg ⟨.QUERY_STR, tok, req⟩ (q ++ 32 :: rest) i
      = parse_loop cfg
          ⟨.VERSION, req._buf_idx + q.length + 1,
            { fill req (q ++ [0]) with query_str := .buf tok }⟩
          rest (i + q.length + 1) := by
  rw [parse_loop_fill cfg .QUERY_STR tok q (by decide) (by decide) _ req _ i (by omega)]
  · rw [parse_loop_cons cfg .QUERY_STR tok _ _ 32 rest _ (by decide) (by decide)]
    simp [parse_step, FINISH_CUR_TOKEN_eq cfg (fill req q) (by rw [fill_buf_idx]; omega),
      fill_fill, fill_buf_idx, Nat.add_assoc]
  · intro c hc r
    have := hq c hc
    simp only [parse_step]
    rw [if_neg this]

theorem request_str_fill (cfg : Config) (req : request_t) (t : List Nat)
    (hcap : req._buf_idx + t.length + 1 ≤ cfg.REQUEST_BUFFER_SIZE) :
    request_str cfg (fill req (t ++ [0])) (.buf req._buf_idx)
      = t.takeWhile (fun c => decide (c ≠ 0)) := by
  simp only [request_str, cstr, fill]
  exact load_of_stands _ _ _ t (stands_store _ _ _) (by omega)

theorem version_phase (cfg : Config) (req : request_t) (v rest : List Nat) (i : Nat)
    (hv : v = str "1.1" ∨ v = str "1.0" ∨ v = str "0.9")
    (hcap : req._buf_idx + 5 + (v.length + 1) ≤ cfg.REQUEST_BUFFER_SIZE) :
    parse_loop cfg ⟨.VERSION, req._buf_idx, req⟩
        (72 :: 84 :: 84 :: 80 :: 47 :: (v ++ 13 :: rest)) i
      = parse_loop cfg
          ⟨.HEADER_CR, req._buf_idx + 5 + (v.length + 1),
            { fill (fill req (str "HTTP" ++ [0])) (v ++ [0]) with
              version := _resolve_http_version v }⟩
          rest (i + 5 + (v.length + 1)) := by
  have hfill : ∀ t : List Nat, (∀ c ∈ t, c = 72 ∨ c = 84 ∨ c = 80 ∨ c = 48 ∨ c = 49 ∨ c = 57 ∨ c = 46) →
      ∀ (tok : Nat) (r : request_t) (rest : List Nat) (i : Nat),
      r._buf_idx + t.length ≤ cfg.REQUEST_BUFFER_SIZE →
      parse_loop cfg ⟨.VERSION, tok, r⟩ (t ++ rest) i
        = parse_loop cfg ⟨.VERSION, tok, fill r t⟩ rest (i + t.length) := by
    intro t ht tok r rest i hc
    apply parse_loop_fill cfg .VERSION tok t (by decide) (by decide) _ r rest i hc
    intro c hc r
    simp only [parse_step]
    rw [if_pos (ht c hc)]
  have h1 := hfill [72, 84, 84, 80] (by decide) req._buf_idx req (47 :: (v ++ 13 :: rest)) i
    (by simp; omega)
  simp only [List.cons_append, List.nil_append] at h1
  rw [h1]
  have hs : request_str cfg (fill req ([72, 84, 84, 80] ++ [0])) (.buf req._buf_idx)
      = [72, 84, 84, 80] := by
    rw [request_str_fill cfg req _ (by simp; omega)]; decide
  rw [parse_loop_cons cfg .VERSION _ _ ⟨.VERSION, req._buf_idx + 5, fill req (str "HTTP" ++ [0])⟩
    47 _ _ (by decide) (by decide)
    (by
      have hb0 : (fill req [72, 84, 84, 80])._buf_idx < cfg.REQUEST_BUFFER_SIZE := by
        rw [fill_buf_idx]; simp; omega
      simp only [parse_step]
      rw [if_neg (by decide)]
      simp only [if_true]
      rw [FINISH_CUR_TOKEN_eq cfg _ hb0, Option.map_some', fill_fill, hs, str_http,
        if_neg (by simp)]
      simp [fill_buf_idx])]
  have hvc : ∀ c ∈ v, c = 72 ∨ c = 84 ∨ c = 80 ∨ c = 48 ∨ c = 49 ∨ c = 57 ∨ c = 46 := by
    rcases hv with h | h | h <;> subst h <;> decide
  have hvz : v.takeWhile (fun c => decide (c ≠ 0)) = v := by
    rcases hv with h | h | h <;> subst h <;> decide
  have hvr : _resolve_http_version v ≠ .HTTP_VERSION_UNKNOW := by
    rcases hv with h | h | h <;> subst h <;> decide
  have hb : (fill req (str "HTTP" ++ [0]))._buf_idx = req._buf_idx + 5 := by
    rw [fill_buf_idx]; simp [str_http]
  rw [← hb, hfill v hvc _ _ _ _ (by rw [hb]; omega)]
  have hs2 : request_str cfg (fill (fill req (str "HTTP" ++ [0])) (v ++ [0]))
      (.buf (fill req (str "HTTP" ++ [0]))._buf_idx) = v := by
    rw [request_str_fill cfg _ _ (by rw [hb]; omega), hvz]
  rw [parse_loop_cons cfg .VERSION _ _
    ⟨.HEADER_CR, req._buf_idx + 5 + (v.length + 1),
      { fill (fill req (str "HTTP" ++ [0])) (v ++ [0]) with
        version := _resolve_http_version v }⟩
    13 _ _ (by decide) (by decide)
    (by
      have hb1 : (fill (fill req (str "HTTP" ++ [0])) v)._buf_idx < cfg.REQUEST_BUFFER_SIZE := by
        rw [fill_buf_idx, hb]; omega
      simp only [parse_step]
      rw [if_neg (by decide), if_neg (by decide)]
      simp only [if_true]
      rw [FINISH_CUR_TOKEN_eq cfg _ hb1, Option.map_some', fill_fill]
      simp only [hs2]
      rw [if_neg hvr]
      simp [fill_buf_idx, hb, str_http, Nat.add_assoc])]
  have hi : i + [72, 84, 84, 80].length + 1 + v.length + 1 = i + 5 + (v.length + 1) := by
    simp only [List.length_cons, List.length_nil]; omega
  rw [hi, hb]

/-- What `handle_common_header` leaves alone. -/
theorem handle_common_header_frame (cfg : Config) (req : request_t) (k : Nat) :
    (handle_common_header cfg req k)._buf_idx = req._buf_idx
    ∧ (handle_common_header cfg req k)._buffer = req._buffer
    ∧ (handle_common_header cfg req k).headers = req.headers
    ∧ (handle_common_header cfg req k).header_count = req.header_count
    ∧ (handle_common_header cfg req k).method = req.method
    ∧ (handle_common_header cfg req k).path = req.path
    ∧ (handle_common_header cfg req k).query_str = req.query_str
    ∧ (handle_common_header cfg req k).version = req.version
    ∧ (handle_common_header cfg req k)._conn = req._conn := by
  unfold handle_common_header
  simp only
  split
  · simp
  · rename_i ret _
    cases hd : ret.data with
    | none => simp
    | some cb =>
      cases cb
      · simp only [call_header_callback, _handle_connection]
        split <;> simp
      · simp [call_header_callback, _handle_content_len]
      · simp [call_header_callback, _handle_host]

theorem finish_header_buf_idx (cfg : Config) (req : request_t) (tok : Nat) :
    (finish_header cfg req tok)._buf_idx = req._buf_idx := by
  simp [finish_header, (handle_common_header_frame cfg _ _).1]

theorem finish_header_count (cfg : Config) (req : request_t) (tok : Nat) :
    (finish_header cfg req tok).header_count = req.header_count + 1 := by
  simp [finish_header, (handle_common_header_frame cfg _ _).2.2.2.1]

theorem after_header_buf_idx (cfg : Config) (req : request_t) (nv : List Nat × List Nat) :
    (after_header cfg req nv)._buf_idx = req._buf_idx + (nv.1.length + 1) + (nv.2.length + 1) := by
  simp [after_header, finish_header_buf_idx, fill, set_header_name]

theorem after_header_count (cfg : Config) (req : request_t) (nv : List Nat × List Nat) :
    (after_header cfg req nv).header_count = req.header_count + 1 := by
  simp [after_header, finish_header_count, fill, set_header_name]

theorem colon_step (cfg : Config) (tok : Nat) (req : request_t) (rest : List Nat) (i : Nat) :
    parse_loop cfg ⟨.HEADER_COLON, tok, req⟩ (32 :: rest) i
      = parse_loop cfg ⟨.HEADER_VALUE, tok, req⟩ rest (i + 1) := by
  simp [parse_loop, parse_step]

theorem cr_lf_step (cfg : Config) (tok : Nat) (req : request_t) (rest : List Nat) (i : Nat) :
    parse_loop cfg ⟨.HEADER_CR, tok, req⟩ (10 :: rest) i
      = parse_loop cfg ⟨.HEADER_LF, tok, req⟩ rest (i + 1) := by
  simp [parse_loop, parse_step]

theorem header_phase (cfg : Config) (req : request_t) (n v rest : List Nat) (i : Nat)
    (hn0 : n ≠ []) (hn1 : n.head? ≠ some 13) (hn2 : ∀ c ∈ n, c ≠ 58) (hv : ∀ c ∈ v, c ≠ 13)
    (hcap : req._buf_idx + (n.length + 1) + (v.length + 1) ≤ cfg.REQUEST_BUFFER_SIZE)
    (hcnt : req.header_count < cfg.MAX_HEADER_SIZE) :
    parse_loop cfg ⟨.HEADER_LF, req._buf_idx, req⟩ (n ++ 58 :: 32 :: (v ++ 13 :: 10 :: rest)) i
      = parse_loop cfg
          ⟨.HEADER_LF, (after_header cfg req (n, v))._buf_idx, after_header cfg req (n, v)⟩
          rest (i + (n.length + 2) + (v.length + 2)) := by
  obtain ⟨c, n1, rfl⟩ := List.exists_cons_of_ne_nil hn0
  have hc : c ≠ 13 := by simpa using hn1
  simp only [List.length_cons] at hcap
  -- first byte of the name
  rw [List.cons_append, parse_loop_cons cfg .HEADER_LF _ _
    ⟨.HEADER_NAME, req._buf_idx, fill req [c]⟩ c _ _ (by decide) (by decide)
    (by
      simp only [parse_step]
      rw [if_neg hc, FILL_NEXT_CHAR_eq cfg req c (by omega)]; rfl)]
  -- rest of the name
  rw [parse_loop_fill cfg .HEADER_NAME req._buf_idx n1 (by decide) (by decide)
    (by
      intro d hd r
      simp only [parse_step]
      rw [if_neg (hn2 d (by simp [hd]))])
    _ _ _ (by rw [fill_buf_idx]; simp; omega), fill_fill]
  -- the colon
  have hb : (fill req ([c] ++ n1))._buf_idx < cfg.REQUEST_BUFFER_SIZE := by
    rw [fill_buf_idx]; simp; omega
  rw [parse_loop_cons cfg .HEADER_NAME _ _
    ⟨.HEADER_COLON, req._buf_idx + (n1.length + 1 + 1),
      set_header_name (fill req (c :: n1 ++ [0])) req._buf_idx⟩
    58 _ _ (by decide) (by decide)
    (by
      simp only [parse_step, if_true]
      rw [FINISH_CUR_TOKEN_eq cfg _ hb, Option.some_bind, fill_fill]
      rw [if_pos (by simpa [fill] using hcnt)]
      simp [fill, Nat.add_assoc])]
  -- the space
  rw [colon_step]
  -- the value
  have hb2 : (set_header_name (fill req (c :: n1 ++ [0])) req._buf_idx)._buf_idx
      = req._buf_idx + (n1.length + 1 + 1) := by
    simp [set_header_name, fill]
  rw [parse_loop_fill cfg .HEADER_VALUE _ v (by decide) (by decide)
    (by
      intro d hd r
      simp only [parse_step]
      rw [if_neg (hv d hd)])
    _ _ _ (by rw [hb2]; omega)]
  -- CR
  rw [parse_loop_cons cfg .HEADER_VALUE _ _
    ⟨.HEADER_CR, (after_header cfg req (c :: n1, v))._buf_idx, after_header cfg req (c :: n1, v)⟩
    13 _ _ (by decide) (by decide)
    (by
      simp only [parse_step, if_true]
      rw [FINISH_CUR_TOKEN_eq cfg _ (by rw [fill_buf_idx, hb2]; omega), Option.some_bind,
        fill_fill]
      rw [if_pos (by simpa [fill, set_header_name] using hcnt)]
      simp [after_header])]
  -- LF
  rw [cr_lf_step]
  congr 1
  simp only [List.length_cons]; omega

theorem parse_loop_complete (cfg : Config) (tok : Nat) (req : request_t) (rest : List Nat)
    (i : Nat) : parse_loop cfg ⟨.COMPLETE, tok, req⟩ rest i = some (⟨.COMPLETE, tok, req⟩, i) := by
  cases rest <;> simp [parse_loop]

theorem end_phase (cfg : Config) (tok : Nat) (req : request_t) (rest : List Nat) (i : Nat) :
    parse_loop cfg ⟨.HEADER_LF, tok, req⟩ (13 :: 10 :: rest) i
      = some (⟨.COMPLETE, tok, req⟩, i + 2) := by
  rw [parse_loop_cons cfg .HEADER_LF tok req ⟨.HEADER_COMPLETE_CR, tok, req⟩ 13 _ _ (by decide)
    (by decide) (by simp [parse_step])]
  rw [parse_loop_cons cfg .HEADER_COMPLETE_CR tok req ⟨.COMPLETE, tok, req⟩ 10 _ _ (by decide)
    (by decide) (by simp [parse_step])]
  rw [parse_loop_complete]

/-- The header lines and the closing blank line, from the state after a line end. -/
theorem headers_phase (cfg : Config) (hs : List (List Nat × List Nat)) (req : request_t)
    (tok : Nat) (htok : tok = req._buf_idx) (rest : List Nat) (i : Nat)
    (hwf : ∀ nv ∈ hs, nv.1 ≠ [] ∧ nv.1.head? ≠ some 13 ∧ (∀ c ∈ nv.1, c ≠ 58)
      ∧ (∀ c ∈ nv.2, c ≠ 13))
    (hcap : req._buf_idx + headers_size hs ≤ cfg.REQUEST_BUFFER_SIZE)
    (hcnt : req.header_count + hs.length ≤ cfg.MAX_HEADER_SIZE) :
    parse_loop cfg ⟨.HEADER_LF, tok, req⟩ (header_lines hs ++ 13 :: 10 :: rest) i
      = some (⟨.COMPLETE, (hs.foldl (after_header cfg) req)._buf_idx,
                hs.foldl (after_header cfg) req⟩,
              i + (header_lines hs).length + 2) := by
  subst htok
  induction hs generalizing req i with
  | nil => simp [header_lines, end_phase]
  | cons nv hs ih =>
    obtain ⟨n, v⟩ := nv
    have h1 := hwf (n, v) (by simp)
    simp only [headers_size, List.length_cons] at hcap hcnt
    have hl : header_lines ((n, v) :: hs) ++ 13 :: 10 :: rest
        = n ++ 58 :: 32 :: (v ++ 13 :: 10 :: (header_lines hs ++ 13 :: 10 :: rest)) := by
      simp [header_lines, header_line, str_colon_sp, str_crlf]
    rw [hl, header_phase cfg req n v _ i h1.1 h1.2.1 h1.2.2.1 h1.2.2.2 (by omega) (by omega)]
    rw [ih _ _ (fun nv hnv => hwf nv (by simp [hnv]))
      (by rw [after_header_buf_idx]; simp only; omega)
      (by rw [after_header_count]; omega)]
    simp only [List.foldl_cons, header_lines, header_line, str_colon_sp, str_crlf,
      List.length_append, List.length_cons, List.length_nil]
    congr 2; omega

theorem after_request_line_buf_idx (req : request_t) (h : Head) :
    (after_request_line req h)._buf_idx = h.size - headers_size h.headers := by
  cases hq : h.query <;>
    simp [after_request_line, Head.size, fill, hq, str_http]

theorem after_request_line_count (req : request_t) (h : Head) :
    (after_request_line req h).header_count = 0 := by
  cases hq : h.query <;> simp [after_request_line, fill, hq]


/-- The character classes of a well-formed head, as propositions. -/
theorem Head.wf_iff (h : Head) :
    h.wf = true ↔
      (∀ c ∈ h.method, 65 ≤ c ∧ c ≤ 90) ∧ (∀ c ∈ h.path, c ≠ 32 ∧ c ≠ 63)
      ∧ (∀ q, h.query = some q → ∀ c ∈ q, c ≠ 32)
      ∧ (h.version = str "1.1" ∨ h.version = str "1.0" ∨ h.version = str "0.9")
      ∧ (∀ nv ∈ h.headers, nv.1 ≠ [] ∧ nv.1.head? ≠ some 13 ∧ (∀ c ∈ nv.1, c ≠ 58)
          ∧ (∀ c ∈ nv.2, c ≠ 13)) := by
  obtain ⟨m, p, q, v, hs⟩ := h
  cases q with
  | none =>
    simp only [Head.wf, Head.charset_ok, Bool.and_eq_true, List.all_eq_true, decide_eq_true_eq,
      Bool.and_true]
    constructor
    · rintro ⟨⟨⟨⟨a, b⟩, d⟩, e⟩, f⟩
      exact ⟨a, b, fun q hq => (by cases hq), d,
        fun nv hnv => ⟨f nv hnv, (e nv hnv).1.2, (e nv hnv).1.1, (e nv hnv).2⟩⟩
    · rintro ⟨a, b, -, d, e⟩
      exact ⟨⟨⟨⟨a, b⟩, d⟩, fun nv hnv => ⟨⟨(e nv hnv).2.2.1, (e nv hnv).2.1⟩, (e nv hnv).2.2.2⟩⟩,
        fun nv hnv => (e nv hnv).1⟩
  | some q =>
    simp only [Head.wf, Head.charset_ok, Bool.and_eq_true, List.all_eq_true, decide_eq_true_eq]
    constructor
    · rintro ⟨⟨⟨⟨⟨a, b⟩, c⟩, d⟩, e⟩, f⟩
      exact ⟨a, b, fun q1 hq => (by cases hq; exact c), d,
        fun nv hnv => ⟨f nv hnv, (e nv hnv).1.2, (e nv hnv).1.1, (e nv hnv).2⟩⟩
    · rintro ⟨a, b, c, d, e⟩
      exact ⟨⟨⟨⟨⟨a, b⟩, c q rfl⟩, d⟩,
        fun nv hnv => ⟨⟨(e nv hnv).2.2.1, (e nv hnv).2.1⟩, (e nv hnv).2.2.2⟩⟩,
        fun nv hnv => (e nv hnv).1⟩

theorem version_phase_at (cfg : Config) (tok : Nat) (req : request_t) (v rest : List Nat)
    (i : Nat) (htok : tok = req._buf_idx)
    (hv : v = str "1.1" ∨ v = str "1.0" ∨ v = str "0.9")
    (hcap : req._buf_idx + 5 + (v.length + 1) ≤ cfg.REQUEST_BUFFER_SIZE) :
    parse_loop cfg ⟨.VERSION, tok, req⟩
        (72 :: 84 :: 84 :: 80 :: 47 :: (v ++ 13 :: rest)) i
      = parse_loop cfg
          ⟨.HEADER_CR, req._buf_idx + 5 + (v.length + 1),
            { fill (fill req (str "HTTP" ++ [0])) (v ++ [0]) with
              version := _resolve_http_version v }⟩
          rest (i + 5 + (v.length + 1)) := by
  subst htok; exact version_phase cfg req v rest i hv hcap

theorem request_line_phase (cfg : Config) (req : request_t) (h : Head) (rest : List Nat)
    (hwf : h.wf = true) (hfit : h.size ≤ cfg.REQUEST_BUFFER_SIZE) :
    parse_loop cfg
        ⟨.METHOD, 0, { req with _buffer := poke req._buffer 0 0, _buf_idx := 0, header_count := 0 }⟩
        (h.method ++ str " " ++ h.path ++ query_bytes h.query ++ str " HTTP/" ++ h.version
          ++ str "\r\n" ++ rest) 0
      = parse_loop cfg
          ⟨.HEADER_LF, (after_request_line req h)._buf_idx, after_request_line req h⟩ rest
          ((h.method ++ str " " ++ h.path ++ query_bytes h.query ++ str " HTTP/" ++ h.version
          ++ str "\r\n").length) := by
  obtain ⟨hm, hp, hq, hv, -⟩ := (Head.wf_iff h).1 hwf
  have hvl : h.version.length = 3 := by rcases hv with e | e | e <;> rw [e] <;> decide
  cases hqq : h.query with
  | none =>
    simp only [Head.size, hqq] at hfit
    have hl : h.method ++ str " " ++ h.path ++ query_bytes none ++ str " HTTP/" ++ h.version
          ++ str "\r\n" ++ rest
        = h.method ++ 32 :: (h.path ++ 32 :: 72 :: 84 :: 84 :: 80 :: 47 ::
            (h.version ++ 13 :: 10 :: rest)) := by
      simp [query_bytes, str_sp, str_sp_http, str_crlf]
    rw [hl, method_phase cfg 0 _ _ _ _ hm (by simp only []; omega)]
    rw [path_phase_sp cfg _ _ _ _ _ hp (by simp only [fill, List.length_append]; simp; omega)]
    rw [version_phase_at cfg _ _ _ _ _ (by simp [fill]; omega) hv
      (by simp only [fill, List.length_append]; simp; omega)]
    rw [cr_lf_step]
    congr 1
    · simp [after_request_line, hqq, fill, str_http]
    · simp [query_bytes, str_sp, str_sp_http, str_crlf]; omega
  | some q =>
    simp only [Head.size, hqq] at hfit
    have hl : h.method ++ str " " ++ h.path ++ query_bytes (some q) ++ str " HTTP/" ++ h.version
          ++ str "\r\n" ++ rest
        = h.method ++ 32 :: (h.path ++ 63 :: (q ++ 32 :: 72 :: 84 :: 84 :: 80 :: 47 ::
            (h.version ++ 13 :: 10 :: rest))) := by
      simp [query_bytes, str_sp, str_qm, str_sp_http, str_crlf]
    rw [hl, method_phase cfg 0 _ _ _ _ hm (by simp only []; omega)]
    rw [path_phase_qm cfg _ _ _ _ _ hp (by simp only [fill, List.length_append]; simp; omega)]
    rw [query_phase cfg _ _ _ _ _ (hq q hqq)
      (by simp only [fill, List.length_append]; simp; omega)]
    rw [version_phase_at cfg _ _ _ _ _ (by simp [fill]; omega) hv
      (by simp only [fill, List.length_append]; simp; omega)]
    rw [cr_lf_step]
    congr 1
    · simp [after_request_line, hqq, fill, str_http]; omega
    · simp [query_bytes, str_sp, str_qm, str_sp_http, str_crlf]; omega


/-- Parsing a well-formed head that fits the capacity: the loop ends in
`COMPLETE` having taken exactly the bytes of the head. -/
theorem parse_head (cfg : Config) (req : request_t) (h : Head) (rest : List Nat)
    (hwf : h.wf = true) (hfit : h.fits cfg) :
    request_parse_headers cfg req (h.bytes ++ rest)
      = some (.STATUS_COMPLETE, h.bytes.length, after_head cfg req h) := by
  obtain ⟨hsz, hcnt⟩ := hfit
  have hw := (Head.wf_iff h).1 hwf
  have hb : (after_request_line req h)._buf_idx + headers_size h.headers
      ≤ cfg.REQUEST_BUFFER_SIZE := by
    rw [after_request_line_buf_idx]
    have : headers_size h.headers ≤ h.size := by unfold Head.size; omega
    omega
  unfold request_parse_headers
  have hl : h.bytes ++ rest
      = (h.method ++ str " " ++ h.path ++ query_bytes h.query ++ str " HTTP/" ++ h.version
          ++ str "\r\n") ++ (header_lines h.headers ++ 13 :: 10 :: rest) := by
    simp [Head.bytes, str_crlf]
  simp only []
  rw [hl, request_line_phase cfg req h _ hwf hsz]
  rw [headers_phase cfg h.headers _ _ rfl _ _ hw.2.2.2.2 hb
    (by rw [after_request_line_count]; omega)]
  simp [parse_rc, after_head, Head.bytes, str_crlf]
  omega

/-! ## The registry -/

set_option maxRecDepth 100000 in
theorem std_headers_hash_table :
    std_headers_hash.table = std_headers.map (fun c => { key := c.1, data := c.2 }) := by
  decide

theorem std_find_some {key : List Nat} {ret : ENTRY (Option http_header_callback)}
    (h : hsearch_r_FIND key std_headers_hash = some ret) :
    ret.key = key ∧ key ∈ std_names := by
  unfold hsearch_r_FIND at h
  have h1 := List.find?_some h
  have h2 := List.mem_of_find?_eq_some h
  simp only [decide_eq_true_eq] at h1
  refine ⟨h1, ?_⟩
  rw [std_headers_hash_table] at h2
  rw [← h1]
  simp only [List.mem_map] at h2
  obtain ⟨c, hc, rfl⟩ := h2
  exact List.mem_map.2 ⟨c, hc, rfl⟩

theorem std_find_none {key : List Nat}
    (h : hsearch_r_FIND key std_headers_hash = none) : key ∉ std_names := by
  unfold hsearch_r_FIND at h
  rw [List.find?_eq_none] at h
  intro hk
  simp only [std_names, List.mem_map] at hk
  obtain ⟨c, hc, rfl⟩ := hk
  have := h { key := c.1, data := c.2 } (by
    rw [std_headers_hash_table]; exact List.mem_map.2 ⟨c, hc, rfl⟩)
  simp at this

theorem std_find_of_mem {key : List Nat} (h : key ∈ std_names) :
    ∃ ret, hsearch_r_FIND key std_headers_hash = some ret := by
  cases hf : hsearch_r_FIND key std_headers_hash with
  | none => exact absurd h (std_find_none hf)
  | some ret => exact ⟨ret, rfl⟩

set_option maxRecDepth 100000 in
theorem std_callback_host :
    ∀ e ∈ std_headers_hash.table, (e.data = some ._handle_host ↔ e.key = str "host") := by
  rw [std_headers_hash_table]; decide

theorem std_find_host {key : List Nat} {ret : ENTRY (Option http_header_callback)}
    (h : hsearch_r_FIND key std_headers_hash = some ret) :
    ret.data = some ._handle_host ↔ key = str "host" := by
  have h2 := List.mem_of_find?_eq_some h
  rw [std_callback_host ret h2, (std_find_some h).1]

/-! ## `hsearch_r` -/

section htab
variable {α : Type}

theorem enter_size (e : ENTRY α) (h : hsearch_data α) :
    (hsearch_r_ENTER e h).2.size = h.size := by
  unfold hsearch_r_ENTER
  split
  · rfl
  · split <;> rfl

theorem enter_length (e : ENTRY α) (h : hsearch_data α) :
    (hsearch_r_ENTER e h).2.table.length ≤ h.table.length + 1 := by
  unfold hsearch_r_ENTER
  split
  · simp
  · split <;> simp

theorem find_enter_keep (e x : ENTRY α) (h : hsearch_data α) (k : List Nat)
    (hk : hsearch_r_FIND k h = some x) :
    hsearch_r_FIND k (hsearch_r_ENTER e h).2 = some x := by
  unfold hsearch_r_ENTER
  split
  · exact hk
  · split
    · exact hk
    · unfold hsearch_r_FIND at hk ⊢
      rw [List.find?_append, hk]; rfl

theorem find_enter_other (e : ENTRY α) (h : hsearch_data α) (k : List Nat)
    (hk : e.key ≠ k) :
    hsearch_r_FIND k (hsearch_r_ENTER e h).2 = hsearch_r_FIND k h := by
  unfold hsearch_r_ENTER
  split
  · rfl
  · split
    · rfl
    · unfold hsearch_r_FIND
      simp [List.find?_append, hk]

theorem find_enter_new (e : ENTRY α) (h : hsearch_data α)
    (hk : hsearch_r_FIND e.key h = none) (hroom : h.table.length < h.size) :
    hsearch_r_FIND e.key (hsearch_r_ENTER e h).2 = some e := by
  unfold hsearch_r_ENTER
  rw [hk]
  simp only [if_neg (Nat.not_le.2 hroom)]
  unfold hsearch_r_FIND at hk ⊢
  simp [List.find?_append, hk]

theorem enter_keys (e : ENTRY α) (h : hsearch_data α) :
    ∀ x ∈ (hsearch_r_ENTER e h).2.table, x ∈ h.table ∨ x = e := by
  unfold hsearch_r_ENTER
  split
  · intro x hx; exact Or.inl hx
  · split
    · intro x hx; exact Or.inl hx
    · intro x hx
      simpa using hx

theorem find_some_key {h : hsearch_data α} {k : List Nat} {x : ENTRY α}
    (hf : hsearch_r_FIND k h = some x) : x.key = k ∧ x ∈ h.table := by
  unfold hsearch_r_FIND at hf
  exact ⟨by simpa using List.find?_some hf, List.mem_of_find?_eq_some hf⟩

end htab

/-! ## One header line -/

theorem takeWhile_idem (l : List Nat) :
    (l.takeWhile (fun c => decide (c ≠ 0))).takeWhile (fun c => decide (c ≠ 0))
      = l.takeWhile (fun c => decide (c ≠ 0)) := by
  exact List.takeWhile_idem

theorem strlowercase_takeWhile (l : List Nat) (n : Nat) :
    strlowercase (l.takeWhile (fun c => decide (c ≠ 0))) n = strlowercase l n := by
  unfold strlowercase; rw [takeWhile_idem]

/-- The request just before `handle_common_header` runs on a header line. -/
theorem after_header_unfold (cfg : Config) (req : request_t) (n v : List Nat) :
    after_header cfg req (n, v)
      = { handle_common_header cfg
            { req with
              _buffer := store req._buffer req._buf_idx (n ++ [0] ++ (v ++ [0])),
              _buf_idx := req._buf_idx + (n.length + 1) + (v.length + 1),
              headers := Function.update req.headers req.header_count
                { name := .buf req._buf_idx, value := .buf (req._buf_idx + (n.length + 1)) } }
            req.header_count with
          header_count := req.header_count + 1 } := by
  simp only [after_header, finish_header, fill, set_header_name, store_append,
    List.length_append, List.length_cons, List.length_nil, Function.update_idem,
    Function.update_same, (handle_common_header_frame cfg _ _).2.2.2.1, Nat.add_assoc,
    Nat.zero_add]

theorem after_header_buffer (cfg : Config) (req : request_t) (n v : List Nat) :
    (after_header cfg req (n, v))._buffer
      = store req._buffer req._buf_idx (n ++ [0] ++ (v ++ [0])) := by
  rw [after_header_unfold]; simp [(handle_common_header_frame cfg _ _).2.1]

theorem after_header_headers (cfg : Config) (req : request_t) (n v : List Nat) :
    (after_header cfg req (n, v)).headers
      = Function.update req.headers req.header_count
          { name := .buf req._buf_idx, value := .buf (req._buf_idx + (n.length + 1)) } := by
  rw [after_header_unfold]; simp [(handle_common_header_frame cfg _ _).2.2.1]

theorem after_header_fields (cfg : Config) (req : request_t) (nv : List Nat × List Nat) :
    (after_header cfg req nv).method = req.method
    ∧ (after_header cfg req nv).path = req.path
    ∧ (after_header cfg req nv).query_str = req.query_str
    ∧ (after_header cfg req nv).version = req.version
    ∧ (after_header cfg req nv)._conn = req._conn := by
  obtain ⟨n, v⟩ := nv
  have h := handle_common_header_frame cfg
  rw [after_header_unfold]
  simp [(h _ _).2.2.2.2.1, (h _ _).2.2.2.2.2.1, (h _ _).2.2.2.2.2.2.1,
    (h _ _).2.2.2.2.2.2.2.1, (h _ _).2.2.2.2.2.2.2.2]

/-- The name `handle_common_header` reads back from the token buffer. -/
theorem header_name_read (cfg : Config) (mem : Nat → Nat) (a : Nat) (n v : List Nat)
    (hcap : a + (n.length + 1) + (v.length + 1) ≤ cfg.REQUEST_BUFFER_SIZE) :
    load (store mem a (n ++ [0] ++ (v ++ [0]))) a (cfg.REQUEST_BUFFER_SIZE - a)
      = n.takeWhile (fun c => decide (c ≠ 0)) :=
  load_of_stands _ _ _ n (stands_append_left (stands_store _ _ _)) (by omega)

theorem header_value_read (cfg : Config) (mem : Nat → Nat) (a : Nat) (n v : List Nat)
    (hcap : a + (n.length + 1) + (v.length + 1) ≤ cfg.REQUEST_BUFFER_SIZE) :
    load (store mem a (n ++ [0] ++ (v ++ [0]))) (a + (n.length + 1))
        (cfg.REQUEST_BUFFER_SIZE - (a + (n.length + 1)))
      = v.takeWhile (fun c => decide (c ≠ 0)) := by
  have h := stands_append_right (stands_store mem a (n ++ [0] ++ (v ++ [0])))
  simp only [List.length_append, List.length_cons, List.length_nil, Nat.zero_add] at h
  exact load_of_stands _ _ _ v h (by omega)

theorem handle_common_header_hash (cfg : Config) (req : request_t) (k : Nat) :
    (handle_common_header cfg req k)._header_hash
      = match hsearch_r_FIND (strlowercase (request_str cfg req (req.headers k).name) 64)
            std_headers_hash with
        | none => req._header_hash
        | some ret => (hsearch_r_ENTER { key := ret.key, data := k } req._header_hash).2 := by
  unfold handle_common_header
  simp only
  cases hsearch_r_FIND (strlowercase (request_str cfg req (req.headers k).name) 64)
      std_headers_hash with
  | none => rfl
  | some ret =>
    simp only
    cases ret.data with
    | none => rfl
    | some cb =>
      cases cb
      · simp only [call_header_callback, _handle_connection]; split <;> rfl
      · rfl
      · rfl

theorem handle_common_header_host (cfg : Config) (req : request_t) (k : Nat) :
    (handle_common_header cfg req k).host
      = if strlowercase (request_str cfg req (req.headers k).name) 64 = str "host"
        then (req.headers k).value else req.host := by
  unfold handle_common_header
  simp only
  cases hf : hsearch_r_FIND (strlowercase (request_str cfg req (req.headers k).name) 64)
      std_headers_hash with
  | none =>
    have : strlowercase (request_str cfg req (req.headers k).name) 64 ≠ str "host" := by
      intro he; exact std_find_none hf (by rw [he]; decide)
    simp [this]
  | some ret =>
    have hh := std_find_host hf
    simp only
    cases hd : ret.data with
    | none =>
      have : strlowercase (request_str cfg req (req.headers k).name) 64 ≠ str "host" := by
        intro he; have := hh.2 he; rw [hd] at this; cases this
      simp [this]
    | some cb =>
      cases cb
      · have : strlowercase (request_str cfg req (req.headers k).name) 64 ≠ str "host" := by
          intro he; have := hh.2 he; rw [hd] at this; cases this
        simp only [call_header_callback, _handle_connection, if_neg this]; split <;> rfl
      · have : strlowercase (request_str cfg req (req.headers k).name) 64 ≠ str "host" := by
          intro he; have := hh.2 he; rw [hd] at this; cases this
        simp [call_header_callback, _handle_content_len, this]
      · have : strlowercase (request_str cfg req (req.headers k).name) 64 = str "host" :=
          hh.1 hd
        simp [call_header_callback, _handle_host, this]

theorem after_header_hash (cfg : Config) (req : request_t) (n v : List Nat)
    (hcap : req._buf_idx + (n.length + 1) + (v.length + 1) ≤ cfg.REQUEST_BUFFER_SIZE) :
    (after_header cfg req (n, v))._header_hash
      = match hsearch_r_FIND (strlowercase n 64) std_headers_hash with
        | none => req._header_hash
        | some ret =>
          (hsearch_r_ENTER { key := ret.key, data := req.header_count } req._header_hash).2 := by
  rw [after_header_unfold]
  simp only [handle_common_header_hash, request_str, cstr, Function.update_same]
  rw [header_name_read cfg _ _ n v hcap, strlowercase_takeWhile]

theorem after_header_host (cfg : Config) (req : request_t) (n v : List Nat)
    (hcap : req._buf_idx + (n.length + 1) + (v.length + 1) ≤ cfg.REQUEST_BUFFER_SIZE) :
    (after_header cfg req (n, v)).host
      = if strlowercase n 64 = str "host" then .buf (req._buf_idx + (n.length + 1))
        else req.host := by
  rw [after_header_unfold]
  simp only [handle_common_header_host, request_str, cstr, Function.update_same]
  rw [header_name_read cfg _ _ n v hcap, strlowercase_takeWhile]

/-! ## All header lines -/

theorem after_headers_fields (cfg : Config) (hs : List (List Nat × List Nat)) (req : request_t) :
    (hs.foldl (after_header cfg) req).method = req.method
    ∧ (hs.foldl (after_header cfg) req).path = req.path
    ∧ (hs.foldl (after_header cfg) req).query_str = req.query_str
    ∧ (hs.foldl (after_header cfg) req).version = req.version
    ∧ (hs.foldl (after_header cfg) req)._conn = req._conn := by
  induction hs generalizing req with
  | nil => simp
  | cons nv hs ih =>
    have h1 := after_header_fields cfg req nv
    have h2 := ih (after_header cfg req nv)
    simp only [List.foldl_cons]
    exact ⟨h2.1.trans h1.1, h2.2.1.trans h1.2.1, h2.2.2.1.trans h1.2.2.1,
      h2.2.2.2.1.trans h1.2.2.2.1, h2.2.2.2.2.trans h1.2.2.2.2⟩

theorem after_headers_buf_idx (cfg : Config) (hs : List (List Nat × List Nat))
    (req : request_t) :
    (hs.foldl (after_header cfg) req)._buf_idx = req._buf_idx + headers_size hs := by
  induction hs generalizing req with
  | nil => simp [headers_size]
  | cons nv hs ih =>
    simp only [List.foldl_cons, ih, after_header_buf_idx, headers_size]; omega

theorem after_headers_count (cfg : Config) (hs : List (List Nat × List Nat))
    (req : request_t) :
    (hs.foldl (after_header cfg) req).header_count = req.header_count + hs.length := by
  induction hs generalizing req with
  | nil => simp
  | cons nv hs ih =>
    simp only [List.foldl_cons, ih, after_header_count, List.length_cons]; omega

theorem after_headers_buffer_below (cfg : Config) (hs : List (List Nat × List Nat))
    (req : request_t) (j : Nat) (hj : j < req._buf_idx) :
    (hs.foldl (after_header cfg) req)._buffer j = req._buffer j := by
  induction hs generalizing req with
  | nil => rfl
  | cons nv hs ih =>
    obtain ⟨n, v⟩ := nv
    simp only [List.foldl_cons]
    rw [ih _ (by rw [after_header_buf_idx]; omega), after_header_buffer,
      store_below _ _ _ _ hj]

theorem after_headers_headers_below (cfg : Config) (hs : List (List Nat × List Nat))
    (req : request_t) (j : Nat) (hj : j < req.header_count) :
    (hs.foldl (after_header cfg) req).headers j = req.headers j := by
  induction hs generalizing req with
  | nil => rfl
  | cons nv hs ih =>
    obtain ⟨n, v⟩ := nv
    simp only [List.foldl_cons]
    rw [ih _ (by rw [after_header_count]; omega), after_header_headers,
      Function.update_noteq (by omega)]

/-- What a header line can do to the lookup table: nothing, or enter a registry
key for the header's slot. -/
theorem after_header_hash_cases (cfg : Config) (req : request_t) (nv : List Nat × List Nat) :
    (after_header cfg req nv)._header_hash = req._header_hash
    ∨ ∃ e : ENTRY Nat, e.key ∈ std_names ∧ e.data = req.header_count
        ∧ (after_header cfg req nv)._header_hash = (hsearch_r_ENTER e req._header_hash).2 := by
  obtain ⟨n, v⟩ := nv
  rw [after_header_unfold]
  simp only [handle_common_header_hash]
  split
  · exact Or.inl rfl
  · rename_i ret hf
    exact Or.inr ⟨_, by rw [(std_find_some hf).1]; exact (std_find_some hf).2, rfl, rfl⟩

theorem after_headers_find_keep (cfg : Config) (hs : List (List Nat × List Nat))
    (req : request_t) (k : List Nat) (x : ENTRY Nat)
    (hk : hsearch_r_FIND k req._header_hash = some x) :
    hsearch_r_FIND k (hs.foldl (after_header cfg) req)._header_hash = some x := by
  induction hs generalizing req with
  | nil => exact hk
  | cons nv hs ih =>
    simp only [List.foldl_cons]
    apply ih
    rcases after_header_hash_cases cfg req nv with h | ⟨e, -, -, h⟩
    · rw [h]; exact hk
    · rw [h]; exact find_enter_keep e x _ k hk

theorem after_headers_size (cfg : Config) (hs : List (List Nat × List Nat))
    (req : request_t) :
    (hs.foldl (after_header cfg) req)._header_hash.size = req._header_hash.size
    ∧ (hs.foldl (after_header cfg) req)._header_hash.table.length
        ≤ req._header_hash.table.length + hs.length := by
  induction hs generalizing req with
  | nil => simp
  | cons nv hs ih =>
    simp only [List.foldl_cons, List.length_cons]
    have h2 := ih (after_header cfg req nv)
    rcases after_header_hash_cases cfg req nv with h | ⟨e, -, -, h⟩
    · rw [h] at h2; exact ⟨h2.1, by omega⟩
    · rw [h, enter_size] at h2
      have := enter_length e req._header_hash
      exact ⟨h2.1, by omega⟩

theorem after_headers_keys (cfg : Config) (hs : List (List Nat × List Nat))
    (req : request_t) :
    ∀ x ∈ (hs.foldl (after_header cfg) req)._header_hash.table,
      x ∈ req._header_hash.table ∨ x.key ∈ std_names := by
  induction hs generalizing req with
  | nil => intro x hx; exact Or.inl hx
  | cons nv hs ih =>
    simp only [List.foldl_cons]
    intro x hx
    rcases ih (after_header cfg req nv) x hx with h1 | h1
    · rcases after_header_hash_cases cfg req nv with h | ⟨e, he, -, h⟩
      · rw [h] at h1; exact Or.inl h1
      · rw [h] at h1
        rcases enter_keys e _ x h1 with h3 | h3
        · exact Or.inl h3
        · rw [h3]; exact Or.inr he
    · exact Or.inr h1

theorem after_headers_find_none (cfg : Config) (hs : List (List Nat × List Nat))
    (req : request_t) (k : List Nat)
    (hcap : req._buf_idx + headers_size hs ≤ cfg.REQUEST_BUFFER_SIZE)
    (hk : hsearch_r_FIND k req._header_hash = none)
    (hne : ∀ nv ∈ hs, strlowercase nv.1 64 ≠ k) :
    hsearch_r_FIND k (hs.foldl (after_header cfg) req)._header_hash = none := by
  induction hs generalizing req with
  | nil => exact hk
  | cons nv hs ih =>
    obtain ⟨n, v⟩ := nv
    simp only [headers_size] at hcap
    simp only [List.foldl_cons]
    apply ih _ (by rw [after_header_buf_idx]; simp only; omega) _
      (fun nv hnv => hne nv (by simp [hnv]))
    rw [after_header_hash cfg req n v (by omega)]
    cases hf : hsearch_r_FIND (strlowercase n 64) std_headers_hash with
    | none => exact hk
    | some ret =>
      simp only
      rw [find_enter_other _ _ _ (by
        simp only [(std_find_some hf).1]; exact hne (n, v) (by simp))]
      exact hk

theorem after_headers_host_keep (cfg : Config) (hs : List (List Nat × List Nat))
    (req : request_t)
    (hcap : req._buf_idx + headers_size hs ≤ cfg.REQUEST_BUFFER_SIZE)
    (hne : ∀ nv ∈ hs, strlowercase nv.1 64 ≠ str "host") :
    (hs.foldl (after_header cfg) req).host = req.host := by
  induction hs generalizing req with
  | nil => rfl
  | cons nv hs ih =>
    obtain ⟨n, v⟩ := nv
    simp only [headers_size] at hcap
    simp only [List.foldl_cons]
    rw [ih _ (by rw [after_header_buf_idx]; simp only; omega)
      (fun nv hnv => hne nv (by simp [hnv])),
      after_header_host cfg req n v (by omega), if_neg (hne (n, v) (by simp))]

theorem headers_size_append (a b : List (List Nat × List Nat)) :
    headers_size (a ++ b) = headers_size a + headers_size b := by
  induction a with
  | nil => simp [headers_size]
  | cons nv a ih => rw [List.cons_append, headers_size, headers_size, ih]; omega

theorem stands_store_above {mem : Nat → Nat} {off : Nat} {bs : List Nat}
    (h : stands mem off bs) (off1 : Nat) (cs : List Nat) (hle : off + bs.length ≤ off1) :
    stands (store mem off1 cs) off bs :=
  stands_congr h (fun j hj => store_below _ _ _ _ (by omega))

theorem request_str_of_stands (cfg : Config) (req : request_t) (off : Nat) (t : List Nat)
    (h : stands req._buffer off (t ++ [0]))
    (hcap : off + t.length + 1 ≤ cfg.REQUEST_BUFFER_SIZE) :
    request_str cfg req (.buf off) = t.takeWhile (fun c => decide (c ≠ 0)) :=
  load_of_stands _ _ _ t h (by omega)

/-- The slot and the value bytes of one header of the head, after all header
lines have been parsed. -/
theorem after_headers_slot (cfg : Config) (hs1 hs2 : List (List Nat × List Nat))
    (n v : List Nat) (req : request_t)
    (hcap : req._buf_idx + headers_size (hs1 ++ (n, v) :: hs2) ≤ cfg.REQUEST_BUFFER_SIZE) :
    ((hs1 ++ (n, v) :: hs2).foldl (after_header cfg) req).headers (req.header_count + hs1.length)
        = { name := .buf (req._buf_idx + headers_size hs1),
            value := .buf (req._buf_idx + headers_size hs1 + (n.length + 1)) }
    ∧ request_str cfg ((hs1 ++ (n, v) :: hs2).foldl (after_header cfg) req)
        (.buf (req._buf_idx + headers_size hs1 + (n.length + 1)))
        = v.takeWhile (fun c => decide (c ≠ 0)) := by
  rw [headers_size_append] at hcap
  simp only [headers_size] at hcap
  simp only [List.foldl_append, List.foldl_cons]
  constructor
  · rw [after_headers_headers_below _ _ _ _ (by
      rw [after_header_count, after_headers_count]; omega)]
    rw [after_header_headers, after_headers_count, after_headers_buf_idx,
      Function.update_same]
  · apply request_str_of_stands _ _ _ _ _ (by omega)
    have hs := stands_append_right (stands_store (hs1.foldl (after_header cfg) req)._buffer
      (hs1.foldl (after_header cfg) req)._buf_idx (n ++ [0] ++ (v ++ [0])))
    simp only [List.length_append, List.length_cons, List.length_nil, Nat.zero_add,
      after_headers_buf_idx] at hs
    refine stands_congr hs (fun j hj => ?_)
    simp only [List.length_append, List.length_cons, List.length_nil, Nat.zero_add] at hj
    rw [after_headers_buffer_below _ _ _ _ (by
      rw [after_header_buf_idx, after_headers_buf_idx]; simp only; omega)]
    rw [after_header_buffer, after_headers_buf_idx]

/-- The table entry of the first header with a given registry name. -/
theorem after_headers_find (cfg : Config) (hs1 hs2 : List (List Nat × List Nat))
    (n v : List Nat) (req : request_t)
    (hcap : req._buf_idx + headers_size (hs1 ++ (n, v) :: hs2) ≤ cfg.REQUEST_BUFFER_SIZE)
    (hstd : strlowercase n 64 ∈ std_names)
    (hfresh : hsearch_r_FIND (strlowercase n 64) req._header_hash = none)
    (hfirst : ∀ nv ∈ hs1, strlowercase nv.1 64 ≠ strlowercase n 64)
    (hroom : req._header_hash.table.length + hs1.length < req._header_hash.size) :
    hsearch_r_FIND (strlowercase n 64)
        ((hs1 ++ (n, v) :: hs2).foldl (after_header cfg) req)._header_hash
      = some { key := strlowercase n 64, data := req.header_count + hs1.length } := by
  rw [headers_size_append] at hcap
  simp only [headers_size] at hcap
  simp only [List.foldl_append, List.foldl_cons]
  apply after_headers_find_keep
  rw [after_header_hash cfg _ n v (by rw [after_headers_buf_idx]; omega)]
  obtain ⟨ret, hret⟩ := std_find_of_mem hstd
  rw [hret]
  simp only [(std_find_some hret).1, after_headers_count]
  have hsz := after_headers_size cfg hs1 req
  exact find_enter_new { key := strlowercase n 64, data := req.header_count + hs1.length } _
    (after_headers_find_none cfg hs1 req _ (by omega) hfresh hfirst)
    (by rw [hsz.1]; omega)

/-- The host pointer after all header lines: the value of the last `Host` line. -/
theorem after_headers_host (cfg : Config) (hs1 hs2 : List (List Nat × List Nat))
    (n v : List Nat) (req : request_t)
    (hcap : req._buf_idx + headers_size (hs1 ++ (n, v) :: hs2) ≤ cfg.REQUEST_BUFFER_SIZE)
    (hhost : strlowercase n 64 = str "host")
    (hlast : ∀ nv ∈ hs2, strlowercase nv.1 64 ≠ str "host") :
    ((hs1 ++ (n, v) :: hs2).foldl (after_header cfg) req).host
      = .buf (req._buf_idx + headers_size hs1 + (n.length + 1)) := by
  rw [headers_size_append] at hcap
  simp only [headers_size] at hcap
  simp only [List.foldl_append, List.foldl_cons]
  rw [after_headers_host_keep cfg hs2 _ (by
      rw [after_header_buf_idx, after_headers_buf_idx]; simp only; omega) hlast,
    after_header_host cfg _ n v (by rw [after_headers_buf_idx]; omega), if_pos hhost,
    after_headers_buf_idx]

/-- The request line as it stands in the token buffer. -/
theorem after_request_line_tokens (req : request_t) (h : Head) :
    (after_request_line req h).method = .buf 0
    ∧ stands (after_request_line req h)._buffer 0 (h.method ++ [0])
    ∧ (after_request_line req h).path = .buf (h.method.length + 1)
    ∧ stands (after_request_line req h)._buffer (h.method.length + 1) (h.path ++ [0])
    ∧ (∀ q, h.query = some q →
        (after_request_line req h).query_str = .buf (h.method.length + 1 + (h.path.length + 1))
        ∧ stands (after_request_line req h)._buffer
            (h.method.length + 1 + (h.path.length + 1)) (q ++ [0]))
    ∧ (h.query = none → (after_request_line req h).query_str = req.query_str)
    ∧ (after_request_line req h).version = _resolve_http_version h.version
    ∧ (after_request_line req h).host = req.host
    ∧ (after_request_line req h)._header_hash = req._header_hash := by
  have hm : stands (store (poke req._buffer 0 0) 0 (h.method ++ [0])) 0 (h.method ++ [0]) :=
    stands_store _ _ _
  have hp : ∀ mem : Nat → Nat, stands (store mem (h.method.length + 1) (h.path ++ [0]))
      (h.method.length + 1) (h.path ++ [0]) := fun mem => stands_store _ _ _
  cases hq : h.query with
  | none =>
    refine ⟨?_, ?_, ?_, ?_, ?_, ?_, ?_, ?_, ?_⟩
    · simp [after_request_line, hq, fill]
    · simp only [after_request_line, hq, fill, List.length_append, List.length_cons,
        List.length_nil, Nat.zero_add]
      exact stands_store_above (stands_store_above (stands_store_above hm _ _ (by simp only [List.length_append, List.length_cons, List.length_nil]; omega)) _ _
        (by simp only [List.length_append, List.length_cons, List.length_nil]; omega)) _ _ (by simp only [List.length_append, List.length_cons, List.length_nil]; omega)
    · simp [after_request_line, hq, fill]
    · simp only [after_request_line, hq, fill, List.length_append, List.length_cons,
        List.length_nil, Nat.zero_add]
      exact stands_store_above (stands_store_above (hp _) _ _ (by simp only [List.length_append, List.length_cons, List.length_nil]; omega)) _ _ (by simp only [List.length_append, List.length_cons, List.length_nil]; omega)
    · intro q hq1; cases hq1
    · intro _; simp [after_request_line, hq, fill]
    · simp [after_request_line, hq, fill]
    · simp [after_request_line, hq, fill]
    · simp [after_request_line, hq, fill]
  | some q =>
    refine ⟨?_, ?_, ?_, ?_, ?_, ?_, ?_, ?_, ?_⟩
    · simp [after_request_line, hq, fill]
    · simp only [after_request_line, hq, fill, List.length_append, List.length_cons,
        List.length_nil, Nat.zero_add]
      exact stands_store_above (stands_store_above (stands_store_above
        (stands_store_above hm _ _ (by simp only [List.length_append, List.length_cons, List.length_nil]; omega)) _ _ (by simp only [List.length_append, List.length_cons, List.length_nil]; omega)) _ _ (by simp only [List.length_append, List.length_cons, List.length_nil]; omega)) _ _
        (by simp only [List.length_append, List.length_cons, List.length_nil]; omega)
    · simp [after_request_line, hq, fill]
    · simp only [after_request_line, hq, fill, List.length_append, List.length_cons,
        List.length_nil, Nat.zero_add]
      exact stands_store_above (stands_store_above (stands_store_above (hp _) _ _ (by simp only [List.length_append, List.length_cons, List.length_nil]; omega))
        _ _ (by simp only [List.length_append, List.length_cons, List.length_nil]; omega)) _ _ (by simp only [List.length_append, List.length_cons, List.length_nil]; omega)
    · intro q1 hq1
      cases hq1
      refine ⟨by simp [after_request_line, hq, fill], ?_⟩
      simp only [after_request_line, hq, fill, List.length_append, List.length_cons,
        List.length_nil, Nat.zero_add]
      exact stands_store_above (stands_store_above (stands_store _ _ _) _ _ (by simp only [List.length_append, List.length_cons, List.length_nil]; omega)) _ _
        (by simp only [List.length_append, List.length_cons, List.length_nil]; omega)
    · intro hq1; cases hq1
    · simp [after_request_line, hq, fill]
    · simp [after_request_line, hq, fill]
    · simp [after_request_line, hq, fill]

/-! ## Claims about the request parser -/

theorem tolower_eq_zero (c : Nat) : tolower c = 0 ↔ c = 0 := by
  unfold tolower; split <;> omega

theorem map_tolower_takeWhile (l : List Nat) :
    (l.takeWhile (fun c => decide (c ≠ 0))).map tolower
      = (l.map tolower).takeWhile (fun c => decide (c ≠ 0)) := by
  induction l with
  | nil => rfl
  | cons c cs ih =>
    by_cases hc : c = 0
    · subst hc; simp [tolower]
    · have : tolower c ≠ 0 := fun h => hc ((tolower_eq_zero c).1 h)
      simp only [List.takeWhile_cons, List.map_cons, ne_eq, hc, not_false_eq_true, decide_True,
        this, if_true, ih, List.map_cons]

/-- Two spellings of a name that differ only in case share their lookup key. -/
theorem strlowercase_recase (a b : List Nat) (n : Nat) (h : a.map tolower = b.map tolower) :
    strlowercase a n = strlowercase b n := by
  unfold strlowercase
  rw [List.map_take, List.map_take, map_tolower_takeWhile, map_tolower_takeWhile, h]

theorem takeWhile_upper (m : List Nat) (hm : ∀ c ∈ m, 65 ≤ c ∧ c ≤ 90) :
    m.takeWhile (fun c => decide (c ≠ 0)) = m := by
  rw [List.takeWhile_eq_self_iff]
  intro c hc
  have := hm c hc
  simp; omega

/-- C1 (as amended): for every well-formed request head with non-empty header
names that fits the request's capacity, followed by any trailing bytes,
`request_parse_headers` returns `STATUS_COMPLETE` and sets `*consumed` to exactly
the byte length of the head. -/
theorem C1_parse_complete (cfg : Config) (req : request_t) (h : Head) (rest : List Nat)
    (hwf : h.wf = true) (hfit : h.fits cfg) :
    (request_parse_headers cfg req (h.bytes ++ rest)).map (fun r => (r.1, r.2.1))
      = some (.STATUS_COMPLETE, h.bytes.length) := by
  rw [parse_head cfg req h rest hwf hfit]; rfl

/-- C1 at the head `GET /a HTTP/1.1\r\nHost: x\r\n\r\n` followed by the bytes `BODY`. -/
theorem C1_parse_complete_witness :
    head_demo.wf = true ∧ head_demo.fits demo_cfg
    ∧ (request_parse_headers demo_cfg (request_create demo_cfg 0)
          (head_demo.bytes ++ str "BODY")).map (fun r => (r.1, r.2.1))
        = some (.STATUS_COMPLETE, head_demo.bytes.length) :=
  ⟨by decide, by decide,
    C1_parse_complete demo_cfg (request_create demo_cfg 0) head_demo (str "BODY")
      (by decide) (by decide)⟩

/-- C1 (as stated) fails: the head `GET / HTTP/1.1\r\n: v\r\n\r\n` meets every
character class of the claim (its header name is empty, so it holds no `:` and
does not start with CR) and fits the capacity, yet the parser takes the colon
for the first byte of the name and ends `STATUS_INCOMPLETE`. -/
theorem C1_empty_name_counterexample :
    head_empty_name.charset_ok = true ∧ head_empty_name.fits demo_cfg
    ∧ (request_parse_headers demo_cfg (request_create demo_cfg 0)
          (head_empty_name.bytes ++ [])).map (fun r => (r.1, r.2.1))
        = some (.STATUS_INCOMPLETE, 23) := by
  decide

/-- The fields a well-formed head leaves in the request, the `Host` header being
told by the key `strlowercase` makes of its name. -/
theorem parse_fields_keyed (cfg : Config) (req : request_t) (h : Head) (rest : List Nat)
    (hwf : h.wf = true) (hfit : h.fits cfg) :
    ∃ r, request_parse_headers cfg req (h.bytes ++ rest)
        = some (.STATUS_COMPLETE, h.bytes.length, r)
      ∧ request_str cfg r r.method = h.method
      ∧ request_str cfg r r.path = h.path.takeWhile (fun c => decide (c ≠ 0))
      ∧ (∀ q, h.query = some q →
          request_str cfg r r.query_str = q.takeWhile (fun c => decide (c ≠ 0)))
      ∧ (h.query = none → r.query_str = req.query_str)
      ∧ (h.version = str "1.1" → r.version = .HTTP_VERSION_1_1)
      ∧ (h.version = str "1.0" → r.version = .HTTP_VERSION_1_0)
      ∧ (h.version = str "0.9" → r.version = .HTTP_VERSION_0_9)
      ∧ (∀ hs1 n v hs2, h.headers = hs1 ++ (n, v) :: hs2 → strlowercase n 64 = str "host" →
          (∀ nv ∈ hs2, strlowercase nv.1 64 ≠ str "host") →
          request_str cfg r r.host = v.takeWhile (fun c => decide (c ≠ 0)))
      ∧ ((∀ nv ∈ h.headers, strlowercase nv.1 64 ≠ str "host") → r.host = req.host) := by
  refine ⟨after_head cfg req h, parse_head cfg req h rest hwf hfit, ?_⟩
  obtain ⟨hsz, hcnt⟩ := hfit
  obtain ⟨hm, -, -, -, -⟩ := (Head.wf_iff h).1 hwf
  have hf := after_headers_fields cfg h.headers (after_request_line req h)
  have ht := after_request_line_tokens req h
  have hbi := after_request_line_buf_idx req h
  have hhs : headers_size h.headers ≤ h.size := by unfold Head.size; omega
  have hb : (after_request_line req h)._buf_idx + headers_size h.headers
      ≤ cfg.REQUEST_BUFFER_SIZE := by rw [hbi]; omega
  have hbelow := after_headers_buffer_below cfg h.headers (after_request_line req h)
  -- a token of the request line is still in place after the header lines
  have hkeep : ∀ (off : Nat) (t : List Nat),
      stands (after_request_line req h)._buffer off (t ++ [0]) →
      off + t.length + 1 ≤ (after_request_line req h)._buf_idx →
      request_str cfg (after_head cfg req h) (.buf off)
        = t.takeWhile (fun c => decide (c ≠ 0)) := by
    intro off t hst hle
    apply request_str_of_stands _ _ _ _ _ (by omega)
    refine stands_congr hst (fun j hj => ?_)
    simp only [List.length_append, List.length_cons, List.length_nil] at hj
    exact hbelow j (by omega)
  have h1 : h.method.length + 1 + (h.path.length + 1)
      ≤ (after_request_line req h)._buf_idx := by
    rw [hbi]; unfold Head.size; omega
  have h2 : ∀ q, h.query = some q → h.method.length + 1 + (h.path.length + 1) + (q.length + 1)
      ≤ (after_request_line req h)._buf_idx := by
    intro q hq; rw [hbi]; unfold Head.size; rw [hq]; simp only; omega
  refine ⟨?_, ?_, ?_, ?_, ?_, ?_, ?_, ?_, ?_⟩
  · show request_str cfg (after_head cfg req h) (after_head cfg req h).method = _
    rw [show (after_head cfg req h).method = .buf 0 from hf.1.trans ht.1,
      hkeep 0 h.method ht.2.1 (by omega), takeWhile_upper _ hm]
  · rw [show (after_head cfg req h).path = .buf (h.method.length + 1) from
        hf.2.1.trans ht.2.2.1,
      hkeep _ h.path ht.2.2.2.1 (by omega)]
  · intro q hq
    have hq2 := ht.2.2.2.2.1 q hq
    rw [show (after_head cfg req h).query_str
          = .buf (h.method.length + 1 + (h.path.length + 1)) from hf.2.2.1.trans hq2.1,
      hkeep _ q hq2.2 (by have := h2 q hq; omega)]
  · intro hq
    exact hf.2.2.1.trans (ht.2.2.2.2.2.1 hq)
  · intro hv
    rw [show (after_head cfg req h).version = _ from hf.2.2.2.1.trans ht.2.2.2.2.2.2.1, hv]
    decide
  · intro hv
    rw [show (after_head cfg req h).version = _ from hf.2.2.2.1.trans ht.2.2.2.2.2.2.1, hv]
    decide
  · intro hv
    rw [show (after_head cfg req h).version = _ from hf.2.2.2.1.trans ht.2.2.2.2.2.2.1, hv]
    decide
  · intro hs1 n v hs2 hh hhost hlast
    have hb2 : (after_request_line req h)._buf_idx + headers_size (hs1 ++ (n, v) :: hs2)
        ≤ cfg.REQUEST_BUFFER_SIZE := by rw [← hh]; exact hb
    unfold after_head
    rw [hh, after_headers_host cfg hs1 hs2 n v _ hb2 hhost hlast]
    exact (after_headers_slot cfg hs1 hs2 n v _ hb2).2
  · intro hno
    unfold after_head
    rw [after_headers_host_keep cfg h.headers _ hb hno]
    exact ht.2.2.2.2.2.2.2.1


/-- C2 (as stated) fails: the head `GET /a\0b HTTP/1.1\r\n\r\n` is well formed (its
path holds neither a space nor `?`) and is parsed to `STATUS_COMPLETE`, but the
recorded path, a C string, reads `/a` and not the path token `/a\0b`. -/
theorem C2_nul_path_counterexample :
    head_nul_path.wf = true ∧ head_nul_path.fits demo_cfg
    ∧ (request_parse_headers demo_cfg (request_create demo_cfg 0)
          (head_nul_path.bytes ++ [])).map
        (fun r => (r.1, request_str demo_cfg r.2.2 r.2.2.path))
        = some (.STATUS_COMPLETE, [47, 97])
    ∧ head_nul_path.path ≠ [47, 97] := by
  decide

/-- C6 (evaluation at the failing input): the version field `HTTP/1.1x` holds no
CR and is none of `HTTP/1.1`, `HTTP/1.0`, `HTTP/0.9`, yet
`GET /a HTTP/1.1x\r\n\r\n` is parsed to `STATUS_COMPLETE` with version 1.1: the
`switch` of the version state has no default case and drops the `x`. -/
theorem C6_version_extra_byte_accepted :
    (request_parse_headers demo_cfg (request_create demo_cfg 0)
        (str "GET /a HTTP/1.1x\r\n\r\n")).map (fun r => (r.1, r.2.1, r.2.2.version))
      = some (.STATUS_COMPLETE, 20, .HTTP_VERSION_1_1) := by
  decide

theorem method_overflow (cfg : Config) (tok : Nat) (n : Nat) :
    ∀ (req : request_t) (i : Nat), req._buf_idx + n = cfg.REQUEST_BUFFER_SIZE →
      parse_loop cfg ⟨.METHOD, tok, req⟩ (List.replicate (n + 1) 65) i = none := by
  induction n with
  | zero =>
    intro req i hk
    have hlt : ¬ req._buf_idx < cfg.REQUEST_BUFFER_SIZE := by omega
    simp [List.replicate, parse_loop, parse_step, FILL_NEXT_CHAR, hlt]
  | succ n ih =>
    intro req i hk
    rw [List.replicate_succ, parse_loop_cons cfg .METHOD tok req ⟨.METHOD, tok, fill req [65]⟩
      65 _ i (by decide) (by decide)
      (by
        simp only [parse_step]
        rw [if_neg (by decide), if_neg (by decide), FILL_NEXT_CHAR_eq cfg req 65 (by omega)]
        rfl)]
    exact ih _ _ (by rw [fill_buf_idx]; simp; omega)

/-- C7 (evaluation at the failing input): whatever the capacity, a run of
`REQUEST_BUFFER_SIZE + 1` method letters is not answered with `STATUS_ERROR`:
the parser has no capacity check and its last `FILL_NEXT_CHAR` stores at
`_buffer[REQUEST_BUFFER_SIZE]`, outside the token buffer. -/
theorem C7_token_buffer_overflow (cfg : Config) (req : request_t) :
    request_parse_headers cfg req (List.replicate (cfg.REQUEST_BUFFER_SIZE + 1) 65) = none := by
  unfold request_parse_headers
  simp only []
  rw [method_overflow cfg 0 cfg.REQUEST_BUFFER_SIZE _ 0 (by simp)]
  rfl

/-- A header of a well-formed head whose key is in the registry, and which is the
first with that key, is found by `request_get_header` under every re-casing of
its name. -/
theorem get_header_keyed (cfg : Config) (req : request_t) (h : Head) (rest : List Nat)
    (hwf : h.wf = true) (hfit : h.fits cfg)
    (hreq : req._header_hash = hcreate_r cfg.HTAB_SIZE)
    (htab : cfg.MAX_HEADER_SIZE ≤ cfg.HTAB_SIZE) :
    ∃ r, request_parse_headers cfg req (h.bytes ++ rest)
        = some (.STATUS_COMPLETE, h.bytes.length, r)
      ∧ ∀ hs1 n v hs2 n1, h.headers = hs1 ++ (n, v) :: hs2 →
          strlowercase n 64 ∈ std_names →
          (∀ nv ∈ hs1, strlowercase nv.1 64 ≠ strlowercase n 64) →
          n1.map tolower = n.map tolower →
          request_get_header r n1 ≠ .null
          ∧ request_str cfg r (request_get_header r n1)
              = v.takeWhile (fun c => decide (c ≠ 0)) := by
  refine ⟨after_head cfg req h, parse_head cfg req h rest hwf hfit, ?_⟩
  intro hs1 n v hs2 n1 hh hstd hfirst hcase
  obtain ⟨hsz, hcnt⟩ := hfit
  have ht := after_request_line_tokens req h
  have hbi := after_request_line_buf_idx req h
  have hhs : headers_size h.headers ≤ h.size := by unfold Head.size; omega
  have hb : (after_request_line req h)._buf_idx + headers_size (hs1 ++ (n, v) :: hs2)
      ≤ cfg.REQUEST_BUFFER_SIZE := by rw [← hh, hbi]; omega
  have hhash : (after_request_line req h)._header_hash = hcreate_r cfg.HTAB_SIZE :=
    ht.2.2.2.2.2.2.2.2.trans hreq
  have hlen : hs1.length < h.headers.length := by rw [hh]; simp
  have hfind := after_headers_find cfg hs1 hs2 n v (after_request_line req h) hb hstd
    (by rw [hhash]; rfl) hfirst
    (by rw [hhash]; simp only [hcreate_r, List.length_nil]; omega)
  have hslot := after_headers_slot cfg hs1 hs2 n v (after_request_line req h) hb
  have hget : request_get_header (after_head cfg req h) n1
      = .buf ((after_request_line req h)._buf_idx + headers_size hs1 + (n.length + 1)) := by
    unfold request_get_header after_head
    rw [strlowercase_recase n1 n 64 hcase, hh, hfind]
    simp only [hslot.1]
  rw [hget]
  refine ⟨by simp, ?_⟩
  unfold after_head
  rw [hh]
  exact hslot.2

set_option maxRecDepth 100000 in
/-- C8 (as stated) fails: the head `GET / HTTP/1.1\r\nX-Foo: 1\r\n\r\n` is parsed
to `STATUS_COMPLETE`, but its header `X-Foo` is not in the registry and
`request_get_header` returns NULL for it. -/
theorem C8_unregistered_counterexample :
    head_custom.wf = true ∧ head_custom.fits demo_cfg
    ∧ (request_parse_headers demo_cfg (request_create demo_cfg 0)
          (head_custom.bytes ++ [])).map
        (fun r => (r.1, request_get_header r.2.2 (str "X-Foo")))
        = some (.STATUS_COMPLETE, .null) := by
  decide

theorem FILL_NEXT_CHAR_hash {cfg : Config} {req r : request_t} {ch : Nat}
    (h : FILL_NEXT_CHAR cfg req ch = some r) : r._header_hash = req._header_hash := by
  unfold FILL_NEXT_CHAR at h
  split at h
  · cases h; rfl
  · cases h

theorem finish_header_hash_cases (cfg : Config) (req : request_t) (tok : Nat) :
    (finish_header cfg req tok)._header_hash = req._header_hash
    ∨ ∃ e : ENTRY Nat, e.key ∈ std_names
        ∧ (finish_header cfg req tok)._header_hash = (hsearch_r_ENTER e req._header_hash).2 := by
  simp only [finish_header, handle_common_header_hash]
  split
  · exact Or.inl rfl
  · rename_i ret hf
    exact Or.inr ⟨_, by rw [(std_find_some hf).1]; exact (std_find_some hf).2, rfl⟩

theorem finish_header_keys (cfg : Config) (req : request_t) (tok : Nat) (h : keys_std req) :
    keys_std (finish_header cfg req tok) := by
  intro e he
  rcases finish_header_hash_cases cfg req tok with h1 | ⟨x, hx, h1⟩
  · rw [h1] at he; exact h e he
  · rw [h1] at he
    rcases enter_keys _ _ e he with h2 | h2
    · exact h e h2
    · rw [h2]; exact hx

theorem parse_step_keys (cfg : Config) (l l1 : parse_locals) (ch : Nat)
    (hs : parse_step cfg l ch = some l1) (h : keys_std l.req) : keys_std l1.req := by
  obtain ⟨S, tok, req⟩ := l
  have hfill : ∀ (f : request_t → parse_locals), (∀ r, (f r).req._header_hash = r._header_hash) →
      ∀ c, (FILL_NEXT_CHAR cfg req c).map f = some l1 → keys_std l1.req := by
    intro f hf c hm
    cases hfc : FILL_NEXT_CHAR cfg req c with
    | none => rw [hfc] at hm; cases hm
    | some r =>
      rw [hfc] at hm
      simp only [Option.map_some', Option.some.injEq] at hm
      subst hm
      intro e he
      rw [hf r, FILL_NEXT_CHAR_hash hfc] at he
      exact h e he
  have hsame : ∀ l2 : parse_locals, l2.req._header_hash = req._header_hash →
      some l2 = some l1 → keys_std l1.req := by
    intro l2 h2 he
    cases he
    intro e he; rw [h2] at he; exact h e he
  cases S <;> simp only [parse_step] at hs
  · exact hsame _ rfl hs
  · exact hsame _ rfl hs
  · split at hs
    · exact hfill _ (fun r => rfl) _ hs
    · split at hs
      · exact hsame _ rfl hs
      · exact hfill _ (fun r => rfl) _ hs
  · split at hs
    · exact hfill _ (fun r => rfl) _ hs
    · split at hs
      · exact hfill _ (fun r => rfl) _ hs
      · exact hfill _ (fun r => rfl) _ hs
  · split at hs
    · exact hfill _ (fun r => rfl) _ hs
    · exact hfill _ (fun r => rfl) _ hs
  · split at hs
    · exact hfill _ (fun r => rfl) _ hs
    · split at hs
      · exact hfill _ (fun r => by split <;> rfl) _ hs
      · split at hs
        · exact hfill _ (fun r => by split <;> rfl) _ hs
        · exact hsame _ rfl hs
  · split at hs
    · cases hfc : FINISH_CUR_TOKEN cfg req with
      | none => rw [hfc] at hs; cases hs
      | some r =>
        rw [hfc, Option.some_bind] at hs
        split at hs
        · cases hs
          intro e he
          have : (set_header_name r tok)._header_hash = req._header_hash :=
            (FILL_NEXT_CHAR_hash hfc : r._header_hash = req._header_hash)
          rw [this] at he; exact h e he
        · cases hs
    · exact hfill _ (fun r => rfl) _ hs
  · split at hs <;> exact hsame _ rfl hs
  · split at hs
    · cases hfc : FINISH_CUR_TOKEN cfg req with
      | none => rw [hfc] at hs; cases hs
      | some r =>
        rw [hfc, Option.some_bind] at hs
        split at hs
        · cases hs
          apply finish_header_keys
          intro e he
          rw [(FILL_NEXT_CHAR_hash hfc : r._header_hash = req._header_hash)] at he
          exact h e he
        · cases hs
    · exact hfill _ (fun r => rfl) _ hs
  · split at hs <;> exact hsame _ rfl hs
  · split at hs
    · exact hsame _ rfl hs
    · exact hfill _ (fun r => rfl) _ hs
  · split at hs <;> exact hsame _ rfl hs

theorem parse_loop_keys (cfg : Config) (data : List Nat) :
    ∀ (l l1 : parse_locals) (i i1 : Nat), parse_loop cfg l data i = some (l1, i1) →
      keys_std l.req → keys_std l1.req := by
  induction data with
  | nil =>
    intro l l1 i i1 h hk
    simp only [parse_loop, Option.some.injEq, Prod.mk.injEq] at h
    rw [← h.1]; exact hk
  | cons ch data ih =>
    intro l l1 i i1 h hk
    simp only [parse_loop] at h
    split at h
    · simp only [Option.some.injEq, Prod.mk.injEq] at h
      rw [← h.1]; exact hk
    · cases hs : parse_step cfg l ch with
      | none => rw [hs] at h; cases h
      | some l2 =>
        rw [hs] at h
        exact ih l2 l1 _ i1 h (parse_step_keys cfg l l2 ch hs hk)


/-- The registry gate in terms of the keys `strlowercase` makes of the names. -/
theorem registry_gate_keyed (cfg : Config) (req : request_t) (hk : keys_std req) :
    (∀ data rc consumed r name,
        request_parse_headers cfg req data = some (rc, consumed, r) →
        request_get_header r name ≠ .null → strlowercase name 64 ∈ std_names)
    ∧ (∀ (h : Head) (rest : List Nat), h.wf = true → h.fits cfg →
        ∃ r, request_parse_headers cfg req (h.bytes ++ rest)
            = some (.STATUS_COMPLETE, h.bytes.length, r)
          ∧ r.header_count = h.headers.length
          ∧ ∀ nv ∈ h.headers, strlowercase nv.1 64 ∉ std_names →
              request_get_header r nv.1 = .null) := by
  have part1 : ∀ data rc consumed r name,
      request_parse_headers cfg req data = some (rc, consumed, r) →
      request_get_header r name ≠ .null → strlowercase name 64 ∈ std_names := by
    intro data rc consumed r name hp hg
    unfold request_parse_headers at hp
    simp only [Option.map_eq_some', Prod.mk.injEq] at hp
    obtain ⟨⟨l1, i1⟩, hl, -, -, hr⟩ := hp
    have hkr : keys_std r := by
      rw [← hr]
      exact parse_loop_keys cfg data _ l1 0 i1 hl hk
    unfold request_get_header at hg
    cases hf : hsearch_r_FIND (strlowercase name 64) r._header_hash with
    | none => rw [hf] at hg; exact absurd rfl hg
    | some ret =>
      have := find_some_key hf
      rw [← this.1]; exact hkr ret this.2
  refine ⟨part1, ?_⟩
  intro h rest hwf hfit
  have hp := parse_head cfg req h rest hwf hfit
  refine ⟨after_head cfg req h, hp, ?_, ?_⟩
  · unfold after_head
    rw [after_headers_count, after_request_line_count, Nat.zero_add]
  · intro nv _ hn
    by_contra hne
    exact hn (part1 _ _ _ _ nv.1 hp hne)

/-! ## `response_set_header` -/

/-- The name is already in the lookup table: the value is overwritten in place. -/
theorem set_header_existing (cfg : Config) (resp : response_t) (n v : Ptr) (ret : ENTRY Nat)
    (hsent : resp._header_sent = false)
    (hf : hsearch_r_FIND (strlowercase (response_str cfg resp n) 64) resp._header_hash
      = some ret) :
    response_set_header cfg resp n v
      = some (0, { resp with
          headers := Function.update resp.headers ret.data
            { resp.headers ret.data with value := v } }) := by
  unfold response_set_header
  simp only [hsent, hf]
  rfl

set_option maxRecDepth 100000 in
/-- A new name of the registry: the header takes the next slot and is entered
under the registry's key. -/
theorem set_header_new_std (cfg : Config) (resp : response_t) (n v : Ptr)
    (hsent : resp._header_sent = false)
    (hf : hsearch_r_FIND (strlowercase (response_str cfg resp n) 64) resp._header_hash = none)
    (hcnt : resp.header_count < cfg.MAX_HEADER_SIZE)
    (hroom : resp._header_hash.table.length < resp._header_hash.size)
    (hstd : strlowercase (response_str cfg resp n) 64 ∈ std_names) :
    response_set_header cfg resp n v
      = some (0, { resp with
          header_count := resp.header_count + 1,
          headers := Function.update resp.headers resp.header_count { name := n, value := v },
          _header_hash := { resp._header_hash with
            table := resp._header_hash.table
              ++ [{ key := strlowercase (response_str cfg resp n) 64,
                    data := resp.header_count }] } }) := by
  obtain ⟨ret, hret⟩ := std_find_of_mem hstd
  unfold response_set_header
  simp only [hsent, hf, hcnt, if_true, hret, (std_find_some hret).1]
  simp only [hsearch_r_ENTER, hf, if_neg (Nat.not_le.2 hroom)]
  rfl

set_option maxRecDepth 100000 in
/-- A new name outside the registry: the header takes the next slot, the
lower-cased name is copied into the arena and the header is entered under it. -/
theorem set_header_new_custom (cfg : Config) (resp : response_t) (n v : Ptr)
    (hsent : resp._header_sent = false)
    (hf : hsearch_r_FIND (strlowercase (response_str cfg resp n) 64) resp._header_hash = none)
    (hcnt : resp.header_count < cfg.MAX_HEADER_SIZE)
    (hroom : resp._header_hash.table.length < resp._header_hash.size)
    (hstd : strlowercase (response_str cfg resp n) 64 ∉ std_names)
    (hfit : resp._buf_idx + ((strlowercase (response_str cfg resp n) 64).length + 1)
      ≤ cfg.RESPONSE_BUFFER_SIZE) :
    response_set_header cfg resp n v
      = some (0, { resp with
          header_count := resp.header_count + 1,
          headers := Function.update resp.headers resp.header_count { name := n, value := v },
          _buf_idx := (resp._buf_idx + ((strlowercase (response_str cfg resp n) 64).length + 1))
            % 2 ^ 64,
          _buffer := store resp._buffer resp._buf_idx
            (strlowercase (response_str cfg resp n) 64 ++ [0]),
          _header_hash := { resp._header_hash with
            table := resp._header_hash.table
              ++ [{ key := strlowercase (response_str cfg resp n) 64,
                    data := resp.header_count }] } }) := by
  have hnone : hsearch_r_FIND (strlowercase (response_str cfg resp n) 64) std_headers_hash
      = none := by
    cases hs : hsearch_r_FIND (strlowercase (response_str cfg resp n) 64) std_headers_hash with
    | none => rfl
    | some ret => exact absurd (std_find_some hs).2 hstd
  have hmod : ¬ (resp._buf_idx + ((strlowercase (response_str cfg resp n) 64).length + 1))
      % 2 ^ 64 > cfg.RESPONSE_BUFFER_SIZE := by
    have := Nat.mod_le (resp._buf_idx + ((strlowercase (response_str cfg resp n) 64).length + 1))
      (2 ^ 64)
    omega
  unfold response_set_header
  simp only [hsent, hf, hcnt, if_true, hnone, response_alloc, if_neg hmod]
  simp only [hsearch_r_ENTER, hf, if_neg (Nat.not_le.2 hroom)]
  rfl


theorem find_append_new {α : Type} (tab : List (ENTRY α)) (e : ENTRY α) (size : Nat)
    (hf : hsearch_r_FIND e.key ⟨size, tab⟩ = none) :
    hsearch_r_FIND e.key ⟨size, tab ++ [e]⟩ = some e := by
  unfold hsearch_r_FIND at hf ⊢
  simp only at hf ⊢
  rw [List.find?_append, hf]
  simp

/-- C10: `response_set_header` is a case-insensitive upsert.  On a response with
headers not yet sent and within capacity the call succeeds; afterwards
`response_get_header` returns the value pointer `v` under every re-casing of the
name; and when the name was already in the lookup table the value is
overwritten in place: `header_count`, the lookup table, the arena cursor, the
header's position and stored name and all other headers are unchanged. -/
theorem C10_set_header_upsert (cfg : Config) (resp : response_t) (n v : Ptr)
    (hsent : resp._header_sent = false) (hfits : set_header_fits cfg resp n) :
    ∃ resp1, response_set_header cfg resp n v = some (0, resp1)
      ∧ (∀ n1 : List Nat, n1.map tolower = (response_str cfg resp n).map tolower →
          response_get_header resp1 n1 = v)
      ∧ (∀ ret, hsearch_r_FIND (strlowercase (response_str cfg resp n) 64) resp._header_hash
            = some ret →
          resp1.header_count = resp.header_count
          ∧ resp1._header_hash = resp._header_hash
          ∧ resp1._buf_idx = resp._buf_idx
          ∧ (resp1.headers ret.data).name = (resp.headers ret.data).name
          ∧ (resp1.headers ret.data).value = v
          ∧ ∀ j, j ≠ ret.data → resp1.headers j = resp.headers j) := by
  cases hf : hsearch_r_FIND (strlowercase (response_str cfg resp n) 64) resp._header_hash with
  | some ret =>
    refine ⟨_, set_header_existing cfg resp n v ret hsent hf, ?_, ?_⟩
    · intro n1 hn1
      unfold response_get_header
      simp only [strlowercase_recase n1 _ 64 hn1, hf, Function.update_same]
    · intro ret1 hret1
      cases hret1
      refine ⟨rfl, rfl, rfl, ?_, ?_, ?_⟩
      · simp only [Function.update_same]
      · simp only [Function.update_same]
      · intro j hj
        simp only [Function.update_noteq hj]
  | none =>
    have hget : ∀ (resp1 : response_t),
        resp1._header_hash = { resp._header_hash with
          table := resp._header_hash.table
            ++ [{ key := strlowercase (response_str cfg resp n) 64,
                  data := resp.header_count }] } →
        resp1.headers = Function.update resp.headers resp.header_count
          { name := n, value := v } →
        ∀ n1 : List Nat, n1.map tolower = (response_str cfg resp n).map tolower →
          response_get_header resp1 n1 = v := by
      intro resp1 h1 h2 n1 hn1
      unfold response_get_header
      rw [strlowercase_recase n1 _ 64 hn1, h1,
        find_append_new resp._header_hash.table
          { key := strlowercase (response_str cfg resp n) 64, data := resp.header_count }
          resp._header_hash.size hf]
      simp only [h2, Function.update_same]
    unfold set_header_fits at hfits
    rw [hf] at hfits
    rcases hfits with h0 | ⟨hcnt, hroom, hrest⟩
    · cases h0
    · by_cases hstd : strlowercase (response_str cfg resp n) 64 ∈ std_names
      · refine ⟨_, set_header_new_std cfg resp n v hsent hf hcnt hroom hstd, ?_, ?_⟩
        · exact hget _ rfl rfl
        · intro ret hret; cases hret
      · have hfit := hrest.resolve_left hstd
        refine ⟨_, set_header_new_custom cfg resp n v hsent hf hcnt hroom hstd hfit, ?_, ?_⟩
        · exact hget _ rfl rfl
        · intro ret hret; cases hret

set_option maxRecDepth 100000 in
/-- C10 at `response_set_header(resp, "X-Custom", "42")` on a fresh response, looked
up as `x-CUSTOM`. -/
theorem C10_set_header_upsert_witness :
    resp_demo._header_sent = false
    ∧ set_header_fits demo_cfg resp_demo (.lit (str "X-Custom"))
    ∧ ∃ resp1, response_set_header demo_cfg resp_demo (.lit (str "X-Custom")) (.lit (str "42"))
          = some (0, resp1)
        ∧ response_get_header resp1 (str "x-CUSTOM") = .lit (str "42") := by
  have hfits : set_header_fits demo_cfg resp_demo (.lit (str "X-Custom")) :=
    Or.inr ⟨by decide, by decide, Or.inr (by decide)⟩
  obtain ⟨resp1, h1, h2, -⟩ :=
    C10_set_header_upsert demo_cfg resp_demo (.lit (str "X-Custom")) (.lit (str "42")) rfl hfits
  exact ⟨rfl, hfits, resp1, h1, h2 (str "x-CUSTOM") (by decide)⟩

set_option maxRecDepth 100000 in
/-- C5 (evaluation at the failing input): on a fresh response,
`response_set_header_printf(resp, "X-Custom", "%d", 42)` returns 0, but the
header then reads `x-custom` instead of the formatted `42`: for a name outside
the registry `response_set_header` allocates the key copy at the very cursor
where the formatted bytes were written and `strncpy` overwrites them. -/
theorem C5_printf_value_overwritten :
    (response_set_header_printf demo_cfg resp_demo (.lit (str "X-Custom")) (str "42")).map
        (fun r => (r.1, response_str demo_cfg r.2 (response_get_header r.2 (str "X-Custom"))))
      = some (0, str "x-custom") := by
  decide

/-! ## Serialization -/

theorem stands_append {mem : Nat → Nat} {off : Nat} {a b : List Nat}
    (ha : stands mem off a) (hb : stands mem (off + a.length) b) : stands mem off (a ++ b) := by
  intro j hj
  simp only [List.length_append] at hj
  by_cases h : j < a.length
  · rw [ha j h]
    simp [List.getD_eq_getElem?_getD, List.getElem?_append_left h]
  · have := hb (j - a.length) (by omega)
    rw [show off + a.length + (j - a.length) = off + j by omega] at this
    rw [this]
    simp [List.getD_eq_getElem?_getD, List.getElem?_append_right (Nat.le_of_not_lt h)]

theorem range_map_of_stands (mem : Nat → Nat) (out : List Nat) (h : stands mem 0 out) :
    (List.range out.length).map mem = out := by
  apply List.ext_getElem
  · simp
  · intro j h1 h2
    simp only [List.getElem_map, List.getElem_range]
    have := h j (by simpa using h1)
    rw [Nat.zero_add] at this
    rw [this]
    simp [List.getD_eq_getElem?_getD, List.getElem?_eq_getElem h2]

theorem holds_init : holds (fun _ => 0, 0) [] :=
  ⟨rfl, fun j hj => by simp at hj⟩

theorem send_emit_ok (cfg : Config) (acc : (Nat → Nat) × Nat) (out s : List Nat)
    (h : holds acc out) (hfit : out.length + s.length < cfg.RESPONSE_BUFFER_SIZE) :
    ∃ acc1, send_emit cfg acc s = some acc1 ∧ holds acc1 (out ++ s) := by
  obtain ⟨h1, h2⟩ := h
  have hs : cfg.RESPONSE_BUFFER_SIZE - acc.2 ≠ 0 := by omega
  have ht : s.take (cfg.RESPONSE_BUFFER_SIZE - acc.2 - 1) = s :=
    List.take_of_length_le (by omega)
  refine ⟨(store acc.1 acc.2 (s ++ [0]), acc.2 + s.length), ?_, ?_, ?_⟩
  · unfold send_emit snprintf
    simp only [if_neg (show ¬ cfg.RESPONSE_BUFFER_SIZE < acc.2 by omega), if_neg hs, ht]
  · simp only [List.length_append, h1]
  · apply stands_append
    · exact stands_congr h2 (fun j hj => store_below _ _ _ _ (by omega))
    · rw [Nat.zero_add, ← h1]
      exact stands_append_left (stands_store _ _ _)

theorem send_putc_ok (cfg : Config) (acc : (Nat → Nat) × Nat) (out : List Nat) (ch : Nat)
    (h : holds acc out) (hfit : out.length < cfg.RESPONSE_BUFFER_SIZE) :
    ∃ acc1, send_putc cfg acc ch = some acc1 ∧ holds acc1 (out ++ [ch]) := by
  obtain ⟨h1, h2⟩ := h
  refine ⟨(poke acc.1 acc.2 ch, acc.2 + 1), ?_, ?_, ?_⟩
  · unfold send_putc
    simp only [if_pos (show acc.2 < cfg.RESPONSE_BUFFER_SIZE by omega)]
  · simp only [List.length_append, h1, List.length_cons, List.length_nil]
  · apply stands_append
    · exact stands_congr h2 (fun j hj => by
        simp only [poke]; rw [if_neg (by omega)])
    · rw [Nat.zero_add, ← h1]
      exact stands_store acc.1 acc.2 [ch]

theorem fmt_s_of_ne_null (cfg : Config) (resp : response_t) (p : Ptr) (h : p ≠ .null) :
    fmt_s cfg resp p = some (response_str cfg resp p) := by
  unfold fmt_s; rw [if_neg h]

theorem send_header_lines_ok (cfg : Config) (resp : response_t) (k : Nat) :
    ∀ (i : Nat) (acc : (Nat → Nat) × Nat) (out : List Nat), holds acc out →
      (∀ j, i ≤ j → j < i + k →
        (resp.headers j).name ≠ .null ∧ (resp.headers j).value ≠ .null) →
      out.length + (header_bytes cfg resp i k).length < cfg.RESPONSE_BUFFER_SIZE →
      ∃ acc1, send_header_lines cfg resp i k acc = some acc1
        ∧ holds acc1 (out ++ header_bytes cfg resp i k) := by
  induction k with
  | zero =>
    intro i acc out h _ _
    exact ⟨acc, rfl, by simpa [header_bytes] using h⟩
  | succ k ih =>
    intro i acc out h hnn hfit
    have h0 := hnn i (Nat.le_refl i) (by omega)
    simp only [header_bytes, List.length_append] at hfit
    obtain ⟨acc1, he, hh⟩ := send_emit_ok cfg acc out
      (response_str cfg resp (resp.headers i).name ++ str ": "
        ++ response_str cfg resp (resp.headers i).value ++ str "\r\n") h
      (by simp only [List.length_append]; omega)
    obtain ⟨acc2, he2, hh2⟩ := ih (i + 1) acc1 _ hh
      (fun j hj1 hj2 => hnn j (by omega) (by omega))
      (by simp only [List.length_append]; omega)
    refine ⟨acc2, ?_, ?_⟩
    · simp only [send_header_lines, fmt_s_of_ne_null cfg resp _ h0.1,
        fmt_s_of_ne_null cfg resp _ h0.2, Option.some_bind, he, he2]
    · simpa only [header_bytes, List.append_assoc] using hh2

/-- The bytes `response_send_headers` hands to the write primitive, given the
response `resp1` that the default-header injection produces. -/
theorem send_headers_ok (cfg : Config) (resp resp1 : response_t) (next_handler : Option Nat)
    (date : Option (List Nat)) (io_rc : Int)
    (hsent : resp._header_sent = false)
    (hcommon : set_common_headers cfg resp date = some resp1)
    (hmsg : resp1.status.msg ≠ .null)
    (hnn : ∀ j, j < resp1.header_count →
      (resp1.headers j).name ≠ .null ∧ (resp1.headers j).value ≠ .null)
    (hfit : (status_line cfg resp1 ++ header_bytes cfg resp1 0 resp1.header_count
      ++ str "\r\n").length ≤ cfg.RESPONSE_BUFFER_SIZE) :
    response_send_headers cfg resp next_handler date io_rc
      = some (if io_rc < 0 then -1 else 0,
          { resp1 with
            _next_handler := next_handler,
            _header_sent := if io_rc < 0 then resp1._header_sent else true },
          some (status_line cfg resp1 ++ header_bytes cfg resp1 0 resp1.header_count
            ++ str "\r\n")) := by
  simp only [List.length_append, str_crlf, List.length_cons, List.length_nil] at hfit
  obtain ⟨acc1, he1, hh1⟩ := send_emit_ok cfg (fun _ => 0, 0) [] (status_line cfg resp1)
    holds_init (by simp only [List.length_nil]; omega)
  rw [List.nil_append] at hh1
  obtain ⟨acc2, he2, hh2⟩ := send_header_lines_ok cfg resp1 resp1.header_count 0 acc1 _ hh1
    (fun j _ hj => hnn j (by omega)) (by omega)
  obtain ⟨acc3, he3, hh3⟩ := send_putc_ok cfg acc2 _ 13 hh2
    (by simp only [List.length_append]; omega)
  obtain ⟨acc4, he4, hh4⟩ := send_putc_ok cfg acc3 _ 10 hh3
    (by simp only [List.length_append, List.length_cons, List.length_nil]; omega)
  have hbytes : (List.range acc4.2).map acc4.1
      = status_line cfg resp1 ++ header_bytes cfg resp1 0 resp1.header_count ++ str "\r\n" := by
    rw [hh4.1, range_map_of_stands _ _ hh4.2, str_crlf]
    simp only [List.append_assoc, List.cons_append, List.nil_append]
  unfold response_send_headers
  simp only [hsent, hcommon, Option.some_bind, fmt_s_of_ne_null cfg resp1 _ hmsg]
  have he1' : send_emit cfg (fun _ => 0, 0)
      (str "HTTP/" ++ str_http_ver resp1.version ++ str " " ++ fmt_ld resp1.status.code
        ++ str " " ++ response_str cfg resp1 resp1.status.msg ++ str "\r\n") = some acc1 := he1
  simp only [he1', Option.some_bind, he2, he3, he4, hbytes]
  by_cases hio : io_rc < 0
  · simp [hio]
  · simp [hio]

/-! ## The default headers -/

set_option maxRecDepth 100000 in
theorem default_keys (mem : Nat → Nat) (cap : Nat) :
    strlowercase (cstr mem cap (.lit (str "Content-Length"))) 64 = str "content-length"
    ∧ strlowercase (cstr mem cap (.lit (str "Connection"))) 64 = str "connection"
    ∧ strlowercase (cstr mem cap (.lit (str "Server"))) 64 = str "server"
    ∧ strlowercase (cstr mem cap (.lit (str "Date"))) 64 = str "date"
    ∧ str "content-length" ∈ std_names ∧ str "connection" ∈ std_names
    ∧ str "server" ∈ std_names ∧ str "date" ∈ std_names := by
  simp only [cstr]
  decide

theorem set_header_push (cfg : Config) (resp : response_t) (n v : Ptr) (key : List Nat)
    (hsent : resp._header_sent = false)
    (hkey : strlowercase (response_str cfg resp n) 64 = key)
    (hf : hsearch_r_FIND key resp._header_hash = none)
    (hcnt : resp.header_count < cfg.MAX_HEADER_SIZE)
    (hroom : resp._header_hash.table.length < resp._header_hash.size)
    (hstd : key ∈ std_names) :
    response_set_header cfg resp n v = some (0, push_header resp key n v) := by
  subst hkey
  exact set_header_new_std cfg resp n v hsent hf hcnt hroom hstd

theorem common_date_none (cfg : Config) (resp : response_t)
    (harena : resp._buf_idx + 32 ≤ cfg.RESPONSE_BUFFER_SIZE) :
    common_date cfg resp none
      = some { resp with _buf_idx := (resp._buf_idx + 32) % 2 ^ 64 } := by
  have hmod : ¬ (resp._buf_idx + 32) % 2 ^ 64 > cfg.RESPONSE_BUFFER_SIZE := by
    have := Nat.mod_le (resp._buf_idx + 32) (2 ^ 64)
    omega
  unfold common_date response_alloc current_http_date
  simp only [if_neg hmod]
  rfl

set_option maxRecDepth 100000 in
/-- C3 (evaluation at the failing input): a fresh response (`response_create`,
content length left at the `-1` sentinel) with status 200 is serialized with a
`Content-Length: -1` line and `Connection: keep-alive`, and its connection mode
stays keep-alive: `set_common_headers` tests `len >= 0` on a `size_t`, which
always holds, so the branch that forces the mode to close is never taken. -/
theorem C3_unset_length_not_closed :
    (response_send_headers demo_cfg resp_demo none (some date_demo) 0).map
        (fun r => (r.1, r.2.1.connection, r.2.2))
      = some (0, .CONN_KEEP_ALIVE,
          some (str
            "HTTP/1.1 200 OK\r\nContent-Length: -1\r\nConnection: keep-alive\r\nServer: breeze\r\nDate: Sun, 01 Nov 2026 00:00:00 GMT\r\n\r\n")) := by
  decide!

/-! ## Handler contexts, write completions, resets, and the frozen header store -/

/-- C17: the handler context stack fails without damage at its bounds.  A push
on a stack that holds `MAX_STATE_STACK_SIZE` entries (or more) returns `-1` and
gives back the very same context, so the depth and every entry are unchanged;
a pop and a peek on an empty stack return NULL (no slot address is formed) and
give back the very same context, whose depth is still 0. -/
theorem C17_context_bounds (cfg : Config) (ctx : handler_ctx_t) (stat : ctx_state_t) :
    (cfg.MAX_STATE_STACK_SIZE ≤ ctx._stat_top → context_push cfg ctx stat = (-1, ctx))
    ∧ (ctx._stat_top = 0 →
        context_pop ctx = (none, ctx) ∧ context_peek ctx = (none, ctx)
        ∧ (context_pop ctx).2._stat_top = 0 ∧ (context_peek ctx).2._stat_top = 0) := by
  refine ⟨fun h => ?_, fun h => ?_⟩
  · unfold context_push
    rw [if_pos h]
  · have hp : context_pop ctx = (none, ctx) := by
      unfold context_pop
      rw [if_pos (by omega)]
    have hk : context_peek ctx = (none, ctx) := by
      unfold context_peek
      rw [if_pos (by omega)]
    refine ⟨hp, hk, ?_, ?_⟩
    · rw [hp]; exact h
    · rw [hk]; exact h

/-- C18: the handler context is a LIFO stack.  On a context whose depth is below
`MAX_STATE_STACK_SIZE`, `context_push(s)` returns 0; a following `context_peek`
returns the address of a slot that holds `s` and leaves the context as the push
made it; a following `context_pop` returns the address of that same slot, still
holding `s`, and brings the depth back to what it was before the push, with
every earlier entry and the configuration as they were. -/
theorem C18_context_lifo (cfg : Config) (ctx : handler_ctx_t) (s : ctx_state_t)
    (hdepth : ctx._stat_top < cfg.MAX_STATE_STACK_SIZE) :
    ∃ ctx1, context_push cfg ctx s = (0, ctx1)
      ∧ context_peek ctx1 = (some ctx._stat_top, ctx1)
      ∧ ctx1._stat_stack ctx._stat_top = s
      ∧ (context_pop ctx1).1 = some ctx._stat_top
      ∧ (context_pop ctx1).2._stat_stack ctx._stat_top = s
      ∧ (context_pop ctx1).2._stat_top = ctx._stat_top
      ∧ (∀ j, j < ctx._stat_top →
          (context_pop ctx1).2._stat_stack j = ctx._stat_stack j)
      ∧ (context_pop ctx1).2.conf = ctx.conf := by
  refine ⟨{ ctx with
      _stat_stack := Function.update ctx._stat_stack ctx._stat_top s,
      _stat_top := ctx._stat_top + 1 }, ?_, ?_, ?_, ?_, ?_, ?_, ?_, ?_⟩
  · unfold context_push
    rw [if_neg (by omega)]
  · unfold context_peek
    simp
  · simp
  · unfold context_pop
    simp
  · unfold context_pop
    simp
  · unfold context_pop
    simp
  · intro j hj
    unfold context_pop
    simp only [Nat.le_zero_eq, Nat.add_one_ne_zero, if_false]
    exact Function.update_noteq (by omega) _ _
  · unfold context_pop
    simp

/-- C18 at a push of the state 33 on the context `ctx_demo` of depth 2. -/
theorem C18_context_lifo_witness :
    ctx_demo._stat_top < demo_cfg.MAX_STATE_STACK_SIZE
    ∧ ∃ ctx1, context_push demo_cfg ctx_demo 33 = (0, ctx1)
      ∧ context_peek ctx1 = (some ctx_demo._stat_top, ctx1)
      ∧ ctx1._stat_stack ctx_demo._stat_top = 33
      ∧ (context_pop ctx1).1 = some ctx_demo._stat_top
      ∧ (context_pop ctx1).2._stat_stack ctx_demo._stat_top = 33
      ∧ (context_pop ctx1).2._stat_top = ctx_demo._stat_top
      ∧ (∀ j, j < ctx_demo._stat_top →
          (context_pop ctx1).2._stat_stack j = ctx_demo._stat_stack j)
      ∧ (context_pop ctx1).2.conf = ctx_demo.conf :=
  ⟨by decide, C18_context_lifo demo_cfg ctx_demo 33 (by decide)⟩

/-- C19: `on_write_finished` decides from the done flag and the connection mode
of the response (as they are once the pending continuation, if any, has run).
Not done: nothing is closed, reset or restarted.  Done in close mode: the
connection is closed and nothing is reset.  Done in keep-alive mode with both
resets succeeding: the request and the response are as freshly created for the
same connection, the context has depth 0 and the server's handler
configuration, and `connection_run` restarts processing, without a close.  Done
in keep-alive mode with a reset failing: the connection is closed and
processing is not restarted. -/
theorem C19_write_finished (cfg : Config) (run_handler : connection_t → Nat → connection_t)
    (req_created resp_created : Bool) (conn : connection_t) :
    let c1 := (run_next_handler run_handler conn).1
    let calls := (run_next_handler run_handler conn).2
    let out := on_write_finished cfg run_handler req_created resp_created conn
    (c1.response._done = false → out = (c1, calls))
    ∧ (c1.response._done = true → c1.response.connection = .CONN_CLOSE →
        out = (c1, calls ++ [.connection_close]))
    ∧ (c1.response._done = true → c1.response.connection = .CONN_KEEP_ALIVE →
        req_created = true → resp_created = true →
        out.2 = calls ++ [.connection_run]
        ∧ out.1.request = request_create cfg c1.request._conn
        ∧ out.1.response = response_create cfg c1.response._conn
        ∧ out.1.context._stat_top = 0
        ∧ out.1.context.conf = c1.handler_conf
        ∧ out.1.handler_conf = c1.handler_conf)
    ∧ (c1.response._done = true → c1.response.connection = .CONN_KEEP_ALIVE →
        (req_created = false ∨ resp_created = false) →
        out.2 = calls ++ [.connection_close]) := by
  intro c1 calls out
  have hout : out = on_write_finished cfg run_handler req_created resp_created conn := rfl
  have hc1 : c1 = (run_next_handler run_handler conn).1 := rfl
  have hcalls : calls = (run_next_handler run_handler conn).2 := rfl
  unfold on_write_finished at hout
  dsimp only at hout
  rw [← hc1, ← hcalls] at hout
  refine ⟨fun hd => ?_, fun hd hm => ?_, fun hd hm hq hs => ?_, fun hd hm hf => ?_⟩
  · rw [hout]; simp [hd]
  · rw [hout]; simp [hd, hm]
  · subst hq; subst hs
    rw [hout]
    simp [hd, hm, request_reset, response_reset, context_reset]
  · rw [hout]
    rcases hf with hf | hf
    · subst hf
      simp [hd, hm, request_reset]
    · subst hf
      cases req_created <;> simp [hd, hm, request_reset, response_reset]

/-- C15: reset restores the freshly created state.  A successful `request_reset`
returns 0 and leaves the request exactly as `request_create` makes it for the
same connection: header count 0, cursor 0, every parsed field cleared, the
lookup table empty, only the connection kept; hence `request_parse_headers`
gives on the reset request, for every input, the very result it gives on a
freshly created request, whatever the request held before.  A successful
`response_reset` likewise returns 0 and leaves header count 0, cursor 0,
header-sent false, content length -1 and keep-alive mode. -/
theorem C15_reset_restores (cfg : Config) (req : request_t) (resp : response_t)
    (data : List Nat) :
    (request_reset cfg req true).1 = 0
    ∧ (request_reset cfg req true).2.header_count = 0
    ∧ (request_reset cfg req true).2._buf_idx = 0
    ∧ (request_reset cfg req true).2.method = .null
    ∧ (request_reset cfg req true).2.path = .null
    ∧ (request_reset cfg req true).2.query_str = .null
    ∧ (request_reset cfg req true).2.host = .null
    ∧ (request_reset cfg req true).2.content_length = 0
    ∧ (request_reset cfg req true).2.version = .ZERO
    ∧ (request_reset cfg req true).2.connection = .ZERO
    ∧ (request_reset cfg req true).2._header_hash.table = []
    ∧ (∀ j, (request_reset cfg req true).2._buffer j = 0)
    ∧ (request_reset cfg req true).2._conn = req._conn
    ∧ request_parse_headers cfg (request_reset cfg req true).2 data
        = request_parse_headers cfg (request_create cfg req._conn) data
    ∧ (response_reset cfg resp true).1 = 0
    ∧ (response_reset cfg resp true).2.header_count = 0
    ∧ (response_reset cfg resp true).2._buf_idx = 0
    ∧ (response_reset cfg resp true).2._header_sent = false
    ∧ (response_reset cfg resp true).2.content_length = -1
    ∧ (response_reset cfg resp true).2.connection = .CONN_KEEP_ALIVE
    ∧ (response_reset cfg resp true).2._header_hash.table = []
    ∧ (response_reset cfg resp true).2._conn = resp._conn :=
  ⟨rfl, rfl, rfl, rfl, rfl, rfl, rfl, rfl, rfl, rfl, rfl, fun _ => rfl, rfl, rfl,
    rfl, rfl, rfl, rfl, rfl, rfl, rfl, rfl⟩

/-- The function `response_alloc` when the sum does not wrap around: it fails
without changing the response when the cursor plus `n` exceeds the capacity,
and otherwise returns the old cursor and moves the cursor by `n`. -/
theorem response_alloc_no_wrap (cfg : Config) (resp : response_t) (n : Nat)
    (hn : resp._buf_idx + n < 2 ^ 64) :
    (cfg.RESPONSE_BUFFER_SIZE < resp._buf_idx + n → response_alloc cfg resp n = (.null, resp))
    ∧ (resp._buf_idx + n ≤ cfg.RESPONSE_BUFFER_SIZE →
        response_alloc cfg resp n
          = (.buf resp._buf_idx, { resp with _buf_idx := resp._buf_idx + n })) := by
  unfold response_alloc
  rw [Nat.mod_eq_of_lt hn]
  refine ⟨fun h => ?_, fun h => ?_⟩
  · rw [if_pos h]
  · rw [if_neg (by omega)]

set_option maxRecDepth 100000 in
/-- C16 (evaluation at the failing input): on a cursor of 5 (one slice of 5
bytes handed out), `response_alloc`
with `n = 2 ^ 64 - 1` succeeds although cursor plus `n` exceeds the capacity of
2048: the sum wraps around to 4, the slice handed out starts at offset 5, the
cursor moves back to 4, and the next slice of 10 bytes starts at offset 4,
inside the first one. -/
theorem C16_alloc_wraps :
    (response_alloc demo_cfg resp_demo 5).1 = .buf 0
    ∧ (response_alloc demo_cfg resp_demo 5).2._buf_idx = 5
    ∧ demo_cfg.RESPONSE_BUFFER_SIZE < 5 + (2 ^ 64 - 1)
    ∧ (response_alloc demo_cfg (response_alloc demo_cfg resp_demo 5).2 (2 ^ 64 - 1)).1 = .buf 5
    ∧ (response_alloc demo_cfg (response_alloc demo_cfg resp_demo 5).2 (2 ^ 64 - 1)).2._buf_idx
        = 4
    ∧ (response_alloc demo_cfg
        (response_alloc demo_cfg (response_alloc demo_cfg resp_demo 5).2 (2 ^ 64 - 1)).2 10).1
        = .buf 4 := by
  refine ⟨by decide, by decide, by decide, by decide, by decide, by decide⟩

/-- C11: once the header-sent flag is set, `response_set_header` returns `-1`
and gives back the very same response.  `response_set_header_printf`, on a
cursor within the arena, returns `-1` as well and leaves the header count, every
header slot, the lookup table, the cursor and every arena byte below the cursor
unchanged (the formatted text is written into the free part of the arena, from
the cursor on, before the flag is tested). -/
theorem C11_sent_headers_frozen (cfg : Config) (resp : response_t) (name value : Ptr)
    (s : List Nat) (hsent : resp._header_sent = true) :
    response_set_header cfg resp name value = some (-1, resp)
    ∧ (resp._buf_idx ≤ cfg.RESPONSE_BUFFER_SIZE →
        ∃ resp1, response_set_header_printf cfg resp name s = some (-1, resp1)
          ∧ resp1.header_count = resp.header_count
          ∧ resp1.headers = resp.headers
          ∧ resp1._header_hash = resp._header_hash
          ∧ resp1._buf_idx = resp._buf_idx
          ∧ resp1._header_sent = true
          ∧ ∀ j, j < resp._buf_idx → resp1._buffer j = resp._buffer j) := by
  have h1 : ∀ r : response_t, r._header_sent = true → ∀ n v,
      response_set_header cfg r n v = some (-1, r) := by
    intro r hr n v
    unfold response_set_header
    rw [if_pos hr]
  refine ⟨h1 resp hsent name value, fun hcur => ?_⟩
  refine ⟨{ resp with _buffer := (snprintf resp._buffer resp._buf_idx
      (cfg.RESPONSE_BUFFER_SIZE - resp._buf_idx) s).1 }, ?_, rfl, rfl, rfl, rfl, hsent, ?_⟩
  · unfold response_set_header_printf
    rw [if_neg (by omega)]
    simp only
    rw [h1 { resp with _buffer := (snprintf resp._buffer resp._buf_idx
      (cfg.RESPONSE_BUFFER_SIZE - resp._buf_idx) s).1 } hsent]
    simp
  · intro j hj
    simp only [snprintf]
    split_ifs
    · rfl
    · exact store_below _ _ _ _ hj

/-- C11 at the header `X-Bar: 2` on the response `resp_sent`, whose headers are sent. -/
theorem C11_sent_headers_frozen_witness :
    resp_sent._header_sent = true
    ∧ response_set_header demo_cfg resp_sent (.lit (str "X-Bar")) (.lit (str "2"))
        = some (-1, resp_sent)
    ∧ (resp_sent._buf_idx ≤ demo_cfg.RESPONSE_BUFFER_SIZE →
        ∃ resp1, response_set_header_printf demo_cfg resp_sent (.lit (str "X-Bar")) (str "2")
            = some (-1, resp1)
          ∧ resp1.header_count = resp_sent.header_count
          ∧ resp1.headers = resp_sent.headers
          ∧ resp1._header_hash = resp_sent._header_hash
          ∧ resp1._buf_idx = resp_sent._buf_idx
          ∧ resp1._header_sent = true
          ∧ ∀ j, j < resp_sent._buf_idx → resp1._buffer j = resp_sent._buffer j) :=
  ⟨rfl, C11_sent_headers_frozen demo_cfg resp_sent (.lit (str "X-Bar")) (.lit (str "2"))
    (str "2") rfl⟩

/-- In state `METHOD`, a byte that is neither an upper-case letter nor a space,
met before the token buffer is full, ends the loop in `BAD_REQUEST`. -/
theorem method_bad_byte (cfg : Config) (tok : Nat) (data : List Nat) :
    ∀ (i : Nat) (req : request_t) (k : Nat), i < data.length →
      (data.getD i 0 < 65 ∨ 90 < data.getD i 0) →
      (∀ j, j ≤ i → data.getD j 0 ≠ 32) →
      req._buf_idx + i ≤ cfg.REQUEST_BUFFER_SIZE →
      ∃ l n, parse_loop cfg ⟨.METHOD, tok, req⟩ data k = some (l, n)
        ∧ l.state = .BAD_REQUEST := by
  induction data with
  | nil => intro i req k hi; simp at hi
  | cons c cs ih =>
    intro i req k hi hbad hsp hcap
    have h0 : c ≠ 32 := by simpa using hsp 0 (Nat.zero_le _)
    by_cases hc : c < 65 ∨ c > 90
    · rw [parse_loop_cons cfg .METHOD tok req ⟨.BAD_REQUEST, tok, req⟩ c cs k (by decide)
        (by decide) (by simp only [parse_step]; rw [if_neg h0, if_pos hc])]
      cases cs with
      | nil => exact ⟨_, _, rfl, rfl⟩
      | cons d ds =>
        exact ⟨⟨.BAD_REQUEST, tok, req⟩, k + 1, by simp [parse_loop], rfl⟩
    · cases i with
      | zero =>
        simp only [List.getD_cons_zero] at hbad
        exact absurd (by omega) hc
      | succ i =>
        simp only [List.length_cons] at hi
        simp only [List.getD_cons_succ] at hbad
        rw [parse_loop_cons cfg .METHOD tok req ⟨.METHOD, tok, fill req [c]⟩ c cs k (by decide)
          (by decide) (by
            simp only [parse_step]
            rw [if_neg h0, if_neg hc, FILL_NEXT_CHAR_eq cfg req c (by omega)]
            rfl)]
        exact ih i (fill req [c]) (k + 1) (by omega) hbad
          (fun j hj => by simpa using hsp (j + 1) (by omega))
          (by rw [fill_buf_idx]; simp only [List.length_cons, List.length_nil]; omega)

/-- C14: when a byte other than `A`..`Z` stands at some index `i` of the input,
no space stands at or before `i`, and the bytes before it fit the token buffer,
`request_parse_headers` returns `STATUS_ERROR`. -/
theorem C14_bad_method_byte (cfg : Config) (req : request_t) (data : List Nat) (i : Nat)
    (hi : i < data.length)
    (hbad : data.getD i 0 < 65 ∨ 90 < data.getD i 0)
    (hsp : ∀ j, j ≤ i → data.getD j 0 ≠ 32)
    (hcap : i ≤ cfg.REQUEST_BUFFER_SIZE) :
    (request_parse_headers cfg req data).map (fun r => r.1) = some .STATUS_ERROR := by
  obtain ⟨l, n, hl, hs⟩ := method_bad_byte cfg 0 data i
    { req with _buffer := poke req._buffer 0 0, _buf_idx := 0, header_count := 0 } 0 hi hbad hsp
    (by simp only [Nat.zero_add]; exact hcap)
  unfold request_parse_headers
  simp only [hl, Option.map_some', hs, parse_rc]

set_option maxRecDepth 100000 in
/-- C14 at the input `get /a HTTP/1.1\r\n\r\n`, whose first byte is lower-case. -/
theorem C14_bad_method_byte_witness :
    (0 : Nat) < (str "get /a HTTP/1.1\r\n\r\n").length
    ∧ ((str "get /a HTTP/1.1\r\n\r\n").getD 0 0 < 65 ∨ 90 < (str "get /a HTTP/1.1\r\n\r\n").getD 0 0)
    ∧ (request_parse_headers demo_cfg (request_create demo_cfg 0)
        (str "get /a HTTP/1.1\r\n\r\n")).map (fun r => r.1) = some .STATUS_ERROR :=
  ⟨by decide, by decide,
    C14_bad_method_byte demo_cfg (request_create demo_cfg 0) (str "get /a HTTP/1.1\r\n\r\n") 0
      (by decide) (by decide) (fun j hj => by
        have : j = 0 := by omega
        subst this; decide) (by decide)⟩

set_option maxRecDepth 100000 in
theorem std_callback_connection :
    ∀ e ∈ std_headers_hash.table,
      (e.data = some ._handle_connection ↔ e.key = str "connection") := by
  rw [std_headers_hash_table]; decide

theorem std_find_connection {key : List Nat} {ret : ENTRY (Option http_header_callback)}
    (h : hsearch_r_FIND key std_headers_hash = some ret) :
    ret.data = some ._handle_connection ↔ key = str "connection" := by
  have h2 := List.mem_of_find?_eq_some h
  rw [std_callback_connection ret h2, (std_find_some h).1]

theorem handle_common_header_connection (cfg : Config) (req : request_t) (k : Nat) :
    (handle_common_header cfg req k).connection
      = if strlowercase (request_str cfg req (req.headers k).name) 64 = str "connection"
        then
          (if (request_str cfg req (req.headers k).value).map tolower = str "keep-alive"
            then .CONN_KEEP_ALIVE else .CONN_CLOSE)
        else req.connection := by
  unfold handle_common_header
  simp only
  cases hf : hsearch_r_FIND (strlowercase (request_str cfg req (req.headers k).name) 64)
      std_headers_hash with
  | none =>
    have : strlowercase (request_str cfg req (req.headers k).name) 64 ≠ str "connection" := by
      intro he; exact std_find_none hf (by rw [he]; decide)
    simp [this]
  | some ret =>
    have hh := std_find_connection hf
    simp only
    cases hd : ret.data with
    | none =>
      have : strlowercase (request_str cfg req (req.headers k).name) 64 ≠ str "connection" := by
        intro he; have := hh.2 he; rw [hd] at this; cases this
      simp [this]
    | some cb =>
      cases cb
      · have : strlowercase (request_str cfg req (req.headers k).name) 64 = str "connection" :=
          hh.1 hd
        simp only [call_header_callback, _handle_connection, if_pos this]
        split <;> rfl
      · have : strlowercase (request_str cfg req (req.headers k).name) 64 ≠ str "connection" := by
          intro he; have := hh.2 he; rw [hd] at this; cases this
        simp [call_header_callback, _handle_content_len, this]
      · have : strlowercase (request_str cfg req (req.headers k).name) 64 ≠ str "connection" := by
          intro he; have := hh.2 he; rw [hd] at this; cases this
        simp [call_header_callback, _handle_host, this]

theorem after_header_connection (cfg : Config) (req : request_t) (n v : List Nat)
    (hcap : req._buf_idx + (n.length + 1) + (v.length + 1) ≤ cfg.REQUEST_BUFFER_SIZE) :
    (after_header cfg req (n, v)).connection
      = if strlowercase n 64 = str "connection" then connection_mode v
        else req.connection := by
  rw [after_header_unfold]
  simp only [handle_common_header_connection, request_str, cstr, Function.update_same]
  rw [header_name_read cfg _ _ n v hcap, header_value_read cfg _ _ n v hcap,
    strlowercase_takeWhile]
  rfl

theorem after_headers_connection_keep (cfg : Config) (hs : List (List Nat × List Nat))
    (req : request_t)
    (hcap : req._buf_idx + headers_size hs ≤ cfg.REQUEST_BUFFER_SIZE)
    (hne : ∀ nv ∈ hs, strlowercase nv.1 64 ≠ str "connection") :
    (hs.foldl (after_header cfg) req).connection = req.connection := by
  induction hs generalizing req with
  | nil => rfl
  | cons nv hs ih =>
    obtain ⟨n, v⟩ := nv
    simp only [headers_size] at hcap
    simp only [List.foldl_cons]
    rw [ih _ (by rw [after_header_buf_idx]; simp only; omega)
      (fun nv hnv => hne nv (by simp [hnv])),
      after_header_connection cfg req n v (by omega), if_neg (hne (n, v) (by simp))]

/-- The connection mode after all header lines: the last `Connection` line decides. -/
theorem after_headers_connection (cfg : Config) (hs1 hs2 : List (List Nat × List Nat))
    (n v : List Nat) (req : request_t)
    (hcap : req._buf_idx + headers_size (hs1 ++ (n, v) :: hs2) ≤ cfg.REQUEST_BUFFER_SIZE)
    (hconn : strlowercase n 64 = str "connection")
    (hlast : ∀ nv ∈ hs2, strlowercase nv.1 64 ≠ str "connection") :
    ((hs1 ++ (n, v) :: hs2).foldl (after_header cfg) req).connection = connection_mode v := by
  rw [headers_size_append] at hcap
  simp only [headers_size] at hcap
  simp only [List.foldl_append, List.foldl_cons]
  rw [after_headers_connection_keep cfg hs2 _ (by
      rw [after_header_buf_idx, after_headers_buf_idx]; simp only; omega) hlast,
    after_header_connection cfg _ n v (by rw [after_headers_buf_idx]; omega), if_pos hconn]

/-- The connection mode a well-formed head leaves, the `Connection` header being
told by the key `strlowercase` makes of its name. -/
theorem connection_mode_keyed (cfg : Config) (req : request_t) (h : Head) (rest : List Nat)
    (hs1 hs2 : List (List Nat × List Nat)) (n v : List Nat)
    (hwf : h.wf = true) (hfit : h.fits cfg)
    (hh : h.headers = hs1 ++ (n, v) :: hs2)
    (hconn : strlowercase n 64 = str "connection")
    (hlast : ∀ nv ∈ hs2, strlowercase nv.1 64 ≠ str "connection") :
    ∃ r, request_parse_headers cfg req (h.bytes ++ rest)
        = some (.STATUS_COMPLETE, h.bytes.length, r)
      ∧ r.connection
        = if (v.takeWhile (fun c => decide (c ≠ 0))).map tolower = str "keep-alive"
          then .CONN_KEEP_ALIVE else .CONN_CLOSE := by
  refine ⟨after_head cfg req h, parse_head cfg req h rest hwf hfit, ?_⟩
  obtain ⟨hsz, -⟩ := hfit
  have hbi := after_request_line_buf_idx req h
  have hhs : headers_size h.headers ≤ h.size := by unfold Head.size; omega
  unfold after_head
  rw [hh]
  exact after_headers_connection cfg hs1 hs2 n v _
    (by rw [← hh]; omega) hconn hlast

set_option maxRecDepth 100000 in
/-- C20, counterexample: the value `keep-alive\0x` of a `Connection` header does
not equal `keep-alive` ignoring ASCII case, yet the request is left in
keep-alive mode. -/
theorem C20_nul_value_counterexample :
    head_conn_nul.wf = true ∧ head_conn_nul.fits demo_cfg
    ∧ (str "keep-alive" ++ [0, 120]).map tolower ≠ str "keep-alive"
    ∧ (request_parse_headers demo_cfg (request_create demo_cfg 0) head_conn_nul.bytes).map
        (fun r => (r.1, r.2.1, r.2.2.connection))
      = some (.STATUS_COMPLETE, head_conn_nul.bytes.length, .CONN_KEEP_ALIVE) := by
  refine ⟨by decide, by decide, by decide, by decide!⟩

/-- C17, worked example: a push on the full stack of `ctx_full` fails and
changes nothing; pop and peek on a fresh context return NULL. -/
theorem C17_context_bounds_witness :
    demo_cfg.MAX_STATE_STACK_SIZE ≤ ctx_full._stat_top
    ∧ context_push demo_cfg ctx_full 99 = (-1, ctx_full)
    ∧ context_create._stat_top = 0
    ∧ context_pop context_create = (none, context_create)
    ∧ context_peek context_create = (none, context_create) :=
  ⟨by decide, (C17_context_bounds demo_cfg ctx_full 99).1 (by decide), rfl,
    ((C17_context_bounds demo_cfg context_create 99).2 rfl).1,
    ((C17_context_bounds demo_cfg context_create 99).2 rfl).2.1⟩

/-- C19, worked example: a finished keep-alive response makes the connection
start over with fresh request, response and context. -/
theorem C19_write_finished_witness :
    conn_demo.response._done = true
    ∧ conn_demo.response.connection = .CONN_KEEP_ALIVE
    ∧ (on_write_finished demo_cfg (fun c _ => c) true true conn_demo).2 = [.connection_run]
    ∧ (on_write_finished demo_cfg (fun c _ => c) true true conn_demo).1.request
        = request_create demo_cfg 7
    ∧ (on_write_finished demo_cfg (fun c _ => c) true true conn_demo).1.response
        = response_create demo_cfg 0
    ∧ (on_write_finished demo_cfg (fun c _ => c) true true conn_demo).1.context._stat_top = 0
    ∧ (on_write_finished demo_cfg (fun c _ => c) true true conn_demo).1.context.conf = 9 :=
  have h := (C19_write_finished demo_cfg (fun c _ => c) true true conn_demo).2.2.1
    rfl rfl rfl rfl
  ⟨rfl, rfl, h.1, h.2.1, h.2.2.1, h.2.2.2.1, h.2.2.2.2.1⟩

/-! ## Default-header injection on any response -/

theorem set_header_upsert (cfg : Config) (resp : response_t) (n v : Ptr) (key : List Nat)
    (hsent : resp._header_sent = false)
    (hkey : strlowercase (response_str cfg resp n) 64 = key)
    (hstd : key ∈ std_names)
    (hcnt : resp.header_count < cfg.MAX_HEADER_SIZE)
    (hroom : resp._header_hash.table.length < resp._header_hash.size) :
    response_set_header cfg resp n v = some (0, upsert resp key n v) := by
  unfold upsert
  cases hf : hsearch_r_FIND key resp._header_hash with
  | some ret =>
    subst hkey
    exact set_header_existing cfg resp n v ret hsent hf
  | none => exact set_header_push cfg resp n v key hsent hkey hf hcnt hroom hstd

theorem upsert_frame (resp : response_t) (key : List Nat) (n v : Ptr) :
    (upsert resp key n v)._buffer = resp._buffer
    ∧ (upsert resp key n v)._buf_idx = resp._buf_idx
    ∧ (upsert resp key n v)._header_sent = resp._header_sent
    ∧ (upsert resp key n v).status = resp.status
    ∧ (upsert resp key n v).version = resp.version
    ∧ (upsert resp key n v).connection = resp.connection
    ∧ (upsert resp key n v).content_length = resp.content_length
    ∧ (upsert resp key n v)._header_hash.size = resp._header_hash.size := by
  unfold upsert
  split <;> simp [push_header]

theorem upsert_count (resp : response_t) (key : List Nat) (n v : Ptr) :
    resp.header_count ≤ (upsert resp key n v).header_count
    ∧ (upsert resp key n v).header_count ≤ resp.header_count + 1
    ∧ (upsert resp key n v)._header_hash.table.length
        ≤ resp._header_hash.table.length + 1 := by
  unfold upsert
  split <;> simp [push_header]

theorem upsert_all_set (resp : response_t) (key : List Nat) (n v : Ptr)
    (h : all_set resp) (hn : n ≠ .null) (hv : v ≠ .null) : all_set (upsert resp key n v) := by
  unfold upsert
  split
  · rename_i ret _
    intro j hj
    by_cases hjd : j = ret.data
    · subst hjd
      simp only [Function.update_same]
      exact ⟨(h _ hj).1, hv⟩
    · simp only [Function.update_noteq hjd]
      exact h j hj
  · intro j hj
    simp only [push_header] at hj ⊢
    by_cases hjd : j = resp.header_count
    · subst hjd
      simp only [Function.update_same]
      exact ⟨hn, hv⟩
    · simp only [Function.update_noteq hjd]
      exact h j (by omega)

theorem find_none_of_append {α : Type} (size1 size2 : Nat) (a b : List (ENTRY α))
    (key : List Nat) (h : hsearch_r_FIND key ⟨size1, a ++ b⟩ = none) :
    hsearch_r_FIND key ⟨size2, a⟩ = none := by
  unfold hsearch_r_FIND at h ⊢
  simp only [List.find?_eq_none] at h ⊢
  intro x hx
  exact h x (List.mem_append_left _ hx)

theorem injected_same (a b : response_t) (hc : b.header_count = a.header_count)
    (hh : b.headers = a.headers) (ht : b._header_hash = a._header_hash) : injected a b := by
  refine ⟨by omega, fun j _ => by rw [hh], fun j h1 h2 => by omega, [], by rw [ht]; simp⟩

theorem injected_upsert (resp : response_t) (key dn : List Nat) (v : Ptr)
    (hk : strlowercase dn 64 = key) (hdn : dn ∈ default_header_names) :
    injected resp (upsert resp key (.lit dn) v) := by
  unfold upsert
  cases hf : hsearch_r_FIND key resp._header_hash with
  | some ret =>
    refine ⟨Nat.le_refl _, fun j _ => ?_, fun j h1 h2 => ?_, [], by simp⟩
    · simp only
      by_cases hjd : j = ret.data
      · subst hjd; simp only [Function.update_same]
      · simp only [Function.update_noteq hjd]
    · simp only at h2; omega
  | none =>
    refine ⟨by simp [push_header], fun j hj => ?_, fun j h1 h2 => ?_, ?_⟩
    · simp only [push_header]
      rw [Function.update_noteq (by omega)]
    · simp only [push_header] at h2 ⊢
      have : j = resp.header_count := by omega
      subst this
      simp only [Function.update_same]
      exact ⟨dn, rfl, hdn, by rw [hk]; exact hf⟩
    · exact ⟨[{ key := key, data := resp.header_count }], by simp [push_header]⟩

theorem injected_trans {a b c : response_t} (hab : injected a b) (hbc : injected b c) :
    injected a c := by
  obtain ⟨h1, h2, h3, e1, h4⟩ := hab
  obtain ⟨k1, k2, k3, e2, k4⟩ := hbc
  refine ⟨by omega, fun j hj => ?_, fun j hj1 hj2 => ?_, e1 ++ e2, ?_⟩
  · rw [k2 j (by omega), h2 j hj]
  · by_cases hjb : j < b.header_count
    · obtain ⟨dn, hn, hd, hf⟩ := h3 j hj1 hjb
      exact ⟨dn, by rw [k2 j hjb, hn], hd, hf⟩
    · obtain ⟨dn, hn, hd, hf⟩ := k3 j (by omega) hj2
      refine ⟨dn, hn, hd, ?_⟩
      have hb : b._header_hash = ⟨b._header_hash.size, a._header_hash.table ++ e1⟩ := by
        rw [← h4]
      rw [hb] at hf
      have := find_none_of_append _ a._header_hash.size _ _ _ hf
      exact this
  · rw [k4, h4, List.append_assoc]

theorem upsert_common_content_length (cfg : Config) (resp : response_t)
    (hsent : resp._header_sent = false)
    (hcnt : resp.header_count < cfg.MAX_HEADER_SIZE)
    (hroom : resp._header_hash.table.length < resp._header_hash.size)
    (harena : resp._buf_idx + ((fmt_ld resp.content_length).length + 1)
      ≤ cfg.RESPONSE_BUFFER_SIZE) :
    common_content_length cfg resp
      = some (upsert (arena_put resp (fmt_ld resp.content_length ++ [0]))
          (str "content-length") (.lit (str "Content-Length")) (.buf resp._buf_idx)) := by
  have hs : cfg.RESPONSE_BUFFER_SIZE - resp._buf_idx ≠ 0 := by omega
  have ht : (fmt_ld resp.content_length).take (cfg.RESPONSE_BUFFER_SIZE - resp._buf_idx - 1)
      = fmt_ld resp.content_length := List.take_of_length_le (by omega)
  unfold common_content_length snprintf
  simp only [ge_iff_le, Nat.zero_le, if_true,
    if_neg (show ¬ cfg.RESPONSE_BUFFER_SIZE < resp._buf_idx by omega), if_neg hs, ht]
  have := set_header_upsert cfg (arena_put resp (fmt_ld resp.content_length ++ [0]))
    (.lit (str "Content-Length")) (.buf resp._buf_idx) (str "content-length") hsent
    (default_keys _ _).1 (default_keys (fun _ => 0) 0).2.2.2.2.1 hcnt hroom
  simp only [arena_put, List.length_append, List.length_cons, List.length_nil,
    Nat.zero_add] at this ⊢
  rw [this]; rfl

theorem upsert_common_connection (cfg : Config) (resp : response_t)
    (hsent : resp._header_sent = false)
    (hcnt : resp.header_count < cfg.MAX_HEADER_SIZE)
    (hroom : resp._header_hash.table.length < resp._header_hash.size) :
    common_connection cfg resp
      = some (upsert resp (str "connection") (.lit (str "Connection"))
          (connection_value resp.connection)) := by
  have h := fun v => set_header_upsert cfg resp (.lit (str "Connection")) v (str "connection")
    hsent (default_keys _ _).2.1 (default_keys (fun _ => 0) 0).2.2.2.2.2.1 hcnt hroom
  unfold common_connection
  cases hc : resp.connection <;> simp only [connection_value] <;> rw [h] <;> rfl

theorem upsert_common_server (cfg : Config) (resp : response_t)
    (hsent : resp._header_sent = false)
    (hcnt : resp.header_count < cfg.MAX_HEADER_SIZE)
    (hroom : resp._header_hash.table.length < resp._header_hash.size) :
    common_server cfg resp
      = some (upsert resp (str "server") (.lit (str "Server")) (.lit cfg.BREEZE_NAME)) := by
  unfold common_server
  rw [set_header_upsert cfg resp _ _ (str "server") hsent (default_keys _ _).2.2.1
    (default_keys (fun _ => 0) 0).2.2.2.2.2.2.1 hcnt hroom]
  rfl

theorem upsert_common_date (cfg : Config) (resp : response_t) (d : List Nat)
    (hsent : resp._header_sent = false)
    (hcnt : resp.header_count < cfg.MAX_HEADER_SIZE)
    (hroom : resp._header_hash.table.length < resp._header_hash.size)
    (harena : resp._buf_idx + 32 ≤ cfg.RESPONSE_BUFFER_SIZE) :
    common_date cfg resp (some d)
      = some (upsert
          { resp with
            _buffer := store resp._buffer resp._buf_idx (d.take 31 ++ [0]),
            _buf_idx := (resp._buf_idx + 32) % 2 ^ 64 }
          (str "date") (.lit (str "Date")) (.buf resp._buf_idx)) := by
  have hmod : ¬ (resp._buf_idx + 32) % 2 ^ 64 > cfg.RESPONSE_BUFFER_SIZE := by
    have := Nat.mod_le (resp._buf_idx + 32) (2 ^ 64)
    omega
  unfold common_date response_alloc current_http_date
  simp only [if_neg hmod, if_true, Nat.reduceSub]
  rw [set_header_upsert cfg
    { resp with
      _buffer := store resp._buffer resp._buf_idx (d.take 31 ++ [0]),
      _buf_idx := (resp._buf_idx + 32) % 2 ^ 64 }
    _ _ (str "date") hsent (default_keys _ _).2.2.2.1
    (default_keys (fun _ => 0) 0).2.2.2.2.2.2.2 hcnt hroom]
  rfl

/-- Default-header injection on any response with room for four more headers
and for the two arena strings. -/
theorem set_common_headers_ok (cfg : Config) (resp : response_t) (date : Option (List Nat))
    (hsent : resp._header_sent = false)
    (hcnt : resp.header_count + 4 ≤ cfg.MAX_HEADER_SIZE)
    (hroom : resp._header_hash.table.length + 4 ≤ resp._header_hash.size)
    (harena : resp._buf_idx + ((fmt_ld resp.content_length).length + 1) + 32
      ≤ cfg.RESPONSE_BUFFER_SIZE) :
    set_common_headers cfg resp date = some (with_common cfg resp date) := by
  let r0 := arena_put resp (fmt_ld resp.content_length ++ [0])
  let r1 := upsert r0 (str "content-length") (.lit (str "Content-Length")) (.buf resp._buf_idx)
  let r2 := upsert r1 (str "connection") (.lit (str "Connection")) (connection_value r1.connection)
  let r3 := upsert r2 (str "server") (.lit (str "Server")) (.lit cfg.BREEZE_NAME)
  have f1 := upsert_frame r0 (str "content-length") (.lit (str "Content-Length"))
    (.buf resp._buf_idx)
  have c1 : r0.header_count ≤ r1.header_count ∧ r1.header_count ≤ r0.header_count + 1
      ∧ r1._header_hash.table.length ≤ r0._header_hash.table.length + 1 :=
    upsert_count r0 (str "content-length") (.lit (str "Content-Length")) (.buf resp._buf_idx)
  have f2 := upsert_frame r1 (str "connection") (.lit (str "Connection"))
    (connection_value r1.connection)
  have c2 : r1.header_count ≤ r2.header_count ∧ r2.header_count ≤ r1.header_count + 1
      ∧ r2._header_hash.table.length ≤ r1._header_hash.table.length + 1 :=
    upsert_count r1 (str "connection") (.lit (str "Connection")) (connection_value r1.connection)
  have f3 := upsert_frame r2 (str "server") (.lit (str "Server")) (.lit cfg.BREEZE_NAME)
  have c3 : r2.header_count ≤ r3.header_count ∧ r3.header_count ≤ r2.header_count + 1
      ∧ r3._header_hash.table.length ≤ r2._header_hash.table.length + 1 :=
    upsert_count r2 (str "server") (.lit (str "Server")) (.lit cfg.BREEZE_NAME)
  have h0c : r0.header_count = resp.header_count := rfl
  have h0t : r0._header_hash = resp._header_hash := rfl
  have h0i : r0._buf_idx = resp._buf_idx + ((fmt_ld resp.content_length).length + 1) := by
    simp [r0, arena_put]
  have s1 : r1._header_sent = false := by rw [f1.2.2.1]; exact hsent
  have s2 : r2._header_sent = false := by rw [f2.2.2.1]; exact s1
  have s3 : r3._header_sent = false := by rw [f3.2.2.1]; exact s2
  have z1 : r1._header_hash.size = resp._header_hash.size := by rw [f1.2.2.2.2.2.2.2, h0t]
  have z2 : r2._header_hash.size = resp._header_hash.size := by rw [f2.2.2.2.2.2.2.2, z1]
  have z3 : r3._header_hash.size = resp._header_hash.size := by rw [f3.2.2.2.2.2.2.2, z2]
  have i3 : r3._buf_idx = resp._buf_idx + ((fmt_ld resp.content_length).length + 1) := by
    rw [f3.2.1, f2.2.1, f1.2.1, h0i]
  have h0l : r0._header_hash.table.length = resp._header_hash.table.length := rfl
  have e1 := upsert_common_content_length cfg resp hsent (by omega) (by omega) (by omega)
  have e2 := upsert_common_connection cfg r1 s1 (by omega) (by rw [z1]; omega)
  have e3 := upsert_common_server cfg r2 s2 (by omega) (by rw [z2]; omega)
  unfold set_common_headers
  rw [e1, Option.some_bind, e2, Option.some_bind, e3, Option.some_bind]
  cases date with
  | none =>
    rw [common_date_none cfg r3 (by rw [i3]; omega)]
    rfl
  | some d =>
    rw [upsert_common_date cfg r3 d s3 (by omega) (by rw [z3]; omega) (by rw [i3]; omega)]
    rfl

theorem connection_value_ne_null (c : connection_opt_e) : connection_value c ≠ .null := by
  cases c <;> simp [connection_value]

set_option maxRecDepth 100000 in
theorem default_header_keys :
    strlowercase (str "Content-Length") 64 = str "content-length"
    ∧ strlowercase (str "Connection") 64 = str "connection"
    ∧ strlowercase (str "Server") 64 = str "server"
    ∧ strlowercase (str "Date") 64 = str "date" := by
  decide

/-- What default-header injection does to the header store and what it leaves
alone. -/
theorem with_common_props (cfg : Config) (resp : response_t) (date : Option (List Nat)) :
    injected resp (with_common cfg resp date)
    ∧ (all_set resp → all_set (with_common cfg resp date))
    ∧ (with_common cfg resp date).status = resp.status
    ∧ (with_common cfg resp date).version = resp.version
    ∧ (with_common cfg resp date).content_length = resp.content_length
    ∧ (with_common cfg resp date).connection = resp.connection
    ∧ (with_common cfg resp date)._header_sent = resp._header_sent := by
  let r0 := arena_put resp (fmt_ld resp.content_length ++ [0])
  let r1 := upsert r0 (str "content-length") (.lit (str "Content-Length")) (.buf resp._buf_idx)
  let r2 := upsert r1 (str "connection") (.lit (str "Connection")) (connection_value r1.connection)
  let r3 := upsert r2 (str "server") (.lit (str "Server")) (.lit cfg.BREEZE_NAME)
  have f1 := upsert_frame r0 (str "content-length") (.lit (str "Content-Length"))
    (.buf resp._buf_idx)
  have f2 := upsert_frame r1 (str "connection") (.lit (str "Connection"))
    (connection_value r1.connection)
  have f3 := upsert_frame r2 (str "server") (.lit (str "Server")) (.lit cfg.BREEZE_NAME)
  have j0 : injected resp r0 := injected_same resp r0 rfl rfl rfl
  have j1 : injected r0 r1 := injected_upsert r0 _ (str "Content-Length") _
    default_header_keys.1 (by simp [default_header_names])
  have j2 : injected r1 r2 := injected_upsert r1 _ (str "Connection") _
    default_header_keys.2.1 (by simp [default_header_names])
  have j3 : injected r2 r3 := injected_upsert r2 _ (str "Server") _
    default_header_keys.2.2.1 (by simp [default_header_names])
  have j03 : injected resp r3 := injected_trans (injected_trans (injected_trans j0 j1) j2) j3
  have a3 : all_set resp → all_set r3 := fun h =>
    upsert_all_set r2 _ _ _
      (upsert_all_set r1 _ _ _
        (upsert_all_set r0 _ _ _ h (by simp) (by simp))
        (by simp) (connection_value_ne_null _))
      (by simp) (by simp)
  have q3 : r3.status = resp.status ∧ r3.version = resp.version
      ∧ r3.content_length = resp.content_length ∧ r3.connection = resp.connection
      ∧ r3._header_sent = resp._header_sent :=
    ⟨by rw [f3.2.2.2.1, f2.2.2.2.1, f1.2.2.2.1]; rfl,
      by rw [f3.2.2.2.2.1, f2.2.2.2.2.1, f1.2.2.2.2.1]; rfl,
      by rw [f3.2.2.2.2.2.2.1, f2.2.2.2.2.2.2.1, f1.2.2.2.2.2.2.1]; rfl,
      by rw [f3.2.2.2.2.2.1, f2.2.2.2.2.2.1, f1.2.2.2.2.2.1]; rfl,
      by rw [f3.2.2.1, f2.2.2.1, f1.2.2.1]; rfl⟩
  cases date with
  | none =>
    have e : with_common cfg resp none = { r3 with _buf_idx := (r3._buf_idx + 32) % 2 ^ 64 } :=
      rfl
    rw [e]
    exact ⟨injected_trans j03 (injected_same _ _ rfl rfl rfl), fun h => a3 h, q3⟩
  | some d =>
    let r3d : response_t := { r3 with
      _buffer := store r3._buffer r3._buf_idx (d.take 31 ++ [0]),
      _buf_idx := (r3._buf_idx + 32) % 2 ^ 64 }
    have e : with_common cfg resp (some d)
        = upsert r3d (str "date") (.lit (str "Date")) (.buf r3._buf_idx) := rfl
    have f4 := upsert_frame r3d (str "date") (.lit (str "Date")) (.buf r3._buf_idx)
    have j4 : injected r3d (upsert r3d (str "date") (.lit (str "Date")) (.buf r3._buf_idx)) :=
      injected_upsert r3d _ (str "Date") _ default_header_keys.2.2.2
        (by simp [default_header_names])
    rw [e]
    refine ⟨injected_trans (injected_trans j03 (injected_same r3 r3d rfl rfl rfl)) j4,
      fun h => upsert_all_set r3d _ _ _ (a3 h) (by simp) (by simp), ?_, ?_, ?_, ?_, ?_⟩
    · rw [f4.2.2.2.1]; exact q3.1
    · rw [f4.2.2.2.2.1]; exact q3.2.1
    · rw [f4.2.2.2.2.2.2.1]; exact q3.2.2.1
    · rw [f4.2.2.2.2.2.1]; exact q3.2.2.2.1
    · rw [f4.2.2.1]; exact q3.2.2.2.2

/-- C12: on a response with headers not yet sent, with room for the default
headers and whose serialized head fits `RESPONSE_BUFFER_SIZE`, the bytes
`response_send_headers` hands to the write primitive are exactly the status line
`HTTP/<version> <code> <message>\r\n`, then `<Name>: <Value>\r\n` for each
header of `headers[0..header_count)` in index order, then one `\r\n`.  The
headers are those after default-header injection: the caller's headers keep
their slots and names, and every later slot carries a default header whose name
was not in the lookup table before.  The version renders as `1.1`, `1.0` or
`0.9`, and any other version value as `1.1`. -/
theorem C12_serialized_head (cfg : Config) (resp : response_t) (next_handler : Option Nat)
    (date : Option (List Nat)) (io_rc : Int)
    (hsent : resp._header_sent = false)
    (hcnt : resp.header_count + 4 ≤ cfg.MAX_HEADER_SIZE)
    (hroom : resp._header_hash.table.length + 4 ≤ resp._header_hash.size)
    (harena : resp._buf_idx + ((fmt_ld resp.content_length).length + 1) + 32
      ≤ cfg.RESPONSE_BUFFER_SIZE)
    (hmsg : resp.status.msg ≠ .null)
    (hnn : ∀ j, j < resp.header_count →
      (resp.headers j).name ≠ .null ∧ (resp.headers j).value ≠ .null)
    (hfit : (status_line cfg (with_common cfg resp date)
      ++ header_bytes cfg (with_common cfg resp date) 0 (with_common cfg resp date).header_count
      ++ str "\r\n").length ≤ cfg.RESPONSE_BUFFER_SIZE) :
    ∃ resp1, set_common_headers cfg resp date = some resp1
      ∧ (response_send_headers cfg resp next_handler date io_rc).map (fun r => r.2.2)
        = some (some
            (str "HTTP/" ++ str_http_ver resp.version ++ str " " ++ fmt_ld resp.status.code
              ++ str " " ++ response_str cfg resp1 resp.status.msg ++ str "\r\n"
              ++ header_bytes cfg resp1 0 resp1.header_count ++ str "\r\n"))
      ∧ resp.header_count ≤ resp1.header_count
      ∧ (∀ j, j < resp.header_count → (resp1.headers j).name = (resp.headers j).name)
      ∧ (∀ j, resp.header_count ≤ j → j < resp1.header_count →
          ∃ dn, (resp1.headers j).name = .lit dn
            ∧ dn ∈ [str "Content-Length", str "Connection", str "Server", str "Date"]
            ∧ hsearch_r_FIND (strlowercase dn 64) resp._header_hash = none)
      ∧ str_http_ver .HTTP_VERSION_1_1 = str "1.1"
      ∧ str_http_ver .HTTP_VERSION_1_0 = str "1.0"
      ∧ str_http_ver .HTTP_VERSION_0_9 = str "0.9"
      ∧ (∀ ver, ver ≠ .HTTP_VERSION_1_1 → ver ≠ .HTTP_VERSION_1_0 → ver ≠ .HTTP_VERSION_0_9 →
          str_http_ver ver = str "1.1") := by
  obtain ⟨hinj, hset, hst, hver, -, -, -⟩ := with_common_props cfg resp date
  have hcommon := set_common_headers_ok cfg resp date hsent hcnt hroom harena
  have hsend := send_headers_ok cfg resp (with_common cfg resp date) next_handler date io_rc
    hsent hcommon (by rw [hst]; exact hmsg) (hset hnn) hfit
  refine ⟨with_common cfg resp date, hcommon, ?_, hinj.1, hinj.2.1, hinj.2.2.1, rfl, rfl, rfl, ?_⟩
  · rw [hsend]
    simp only [Option.map_some', status_line, hst, hver]
  · intro ver h1 h2 h3
    cases ver
    · rfl
    · exact absurd rfl h3
    · exact absurd rfl h2
    · exact absurd rfl h1
    · rfl

set_option maxRecDepth 100000 in
/-- C12 at the response `resp_typed`, on which `Content-Type: text/html` was
set before the head is sent. -/
theorem C12_serialized_head_witness :
    resp_typed._header_sent = false
    ∧ resp_typed.header_count = 1
    ∧ ∃ resp1, set_common_headers demo_cfg resp_typed (some date_demo) = some resp1
      ∧ (response_send_headers demo_cfg resp_typed none (some date_demo) 0).map (fun r => r.2.2)
        = some (some
            (str "HTTP/" ++ str_http_ver resp_typed.version ++ str " "
              ++ fmt_ld resp_typed.status.code
              ++ str " " ++ response_str demo_cfg resp1 resp_typed.status.msg ++ str "\r\n"
              ++ header_bytes demo_cfg resp1 0 resp1.header_count ++ str "\r\n"))
      ∧ resp_typed.header_count ≤ resp1.header_count
      ∧ (∀ j, j < resp_typed.header_count →
          (resp1.headers j).name = (resp_typed.headers j).name)
      ∧ (response_send_headers demo_cfg resp_typed none (some date_demo) 0).map (fun r => r.2.2)
        = some (some (str
            "HTTP/1.1 200 OK\r\nContent-Type: text/html\r\nContent-Length: 13\r\nConnection: keep-alive\r\nServer: breeze\r\nDate: Sun, 01 Nov 2026 00:00:00 GMT\r\n\r\n")) := by
  obtain ⟨resp1, h1, h2, h3, h4, -⟩ :=
    C12_serialized_head demo_cfg resp_typed none (some date_demo) 0 rfl (by decide) (by decide)
      (by decide) (by decide)
      (fun j hj => by
        have hj0 : j = 0 := by
          have : resp_typed.header_count = 1 := rfl
          omega
        subst hj0
        decide)
      (by decide!)
  exact ⟨rfl, rfl, resp1, h1, h2, h3, h4, by decide!⟩

/-- The loop stops at or before the end of the input, and before the end only
in a terminal state. -/
theorem parse_loop_bounds (cfg : Config) (data : List Nat) :
    ∀ (l : parse_locals) (i : Nat) (l1 : parse_locals) (n : Nat),
      parse_loop cfg l data i = some (l1, n) →
      i ≤ n ∧ n ≤ i + data.length
      ∧ (l1.state ≠ .COMPLETE → l1.state ≠ .BAD_REQUEST → n = i + data.length) := by
  induction data with
  | nil =>
    intro l i l1 n h
    simp only [parse_loop, Option.some.injEq, Prod.mk.injEq] at h
    obtain ⟨-, rfl⟩ := h
    simp
  | cons ch data ih =>
    intro l i l1 n h
    unfold parse_loop at h
    split_ifs at h with ht
    · simp only [Option.some.injEq, Prod.mk.injEq] at h
      obtain ⟨rfl, rfl⟩ := h
      refine ⟨Nat.le_refl _, by omega, fun h1 h2 => ?_⟩
      rcases ht with ht | ht
      · exact absurd ht h1
      · exact absurd ht h2
    · cases hs : parse_step cfg l ch with
      | none => rw [hs] at h; cases h
      | some l2 =>
        rw [hs] at h
        obtain ⟨h1, h2, h3⟩ := ih l2 (i + 1) l1 n h
        simp only [List.length_cons]
        exact ⟨by omega, by omega, fun a b => by have := h3 a b; omega⟩

/-- A run that ends in a terminal state depends only on the bytes it has taken. -/
theorem parse_loop_prefix (cfg : Config) (data : List Nat) :
    ∀ (l : parse_locals) (i : Nat) (l1 : parse_locals) (n : Nat),
      parse_loop cfg l data i = some (l1, n) →
      (l1.state = .COMPLETE ∨ l1.state = .BAD_REQUEST) →
      ∀ data1 : List Nat, data1.take (n - i) = data.take (n - i) →
        parse_loop cfg l data1 i = some (l1, n) := by
  induction data with
  | nil =>
    intro l i l1 n h ht data1 _
    simp only [parse_loop, Option.some.injEq, Prod.mk.injEq] at h
    obtain ⟨rfl, rfl⟩ := h
    cases data1 with
    | nil => rfl
    | cons c cs => unfold parse_loop; rw [if_pos ht]
  | cons ch data ih =>
    intro l i l1 n h ht data1 hd
    have hb := parse_loop_bounds cfg (ch :: data) l i l1 n h
    unfold parse_loop at h
    split_ifs at h with hl
    · simp only [Option.some.injEq, Prod.mk.injEq] at h
      obtain ⟨rfl, rfl⟩ := h
      cases data1 with
      | nil => rfl
      | cons c cs => unfold parse_loop; rw [if_pos hl]
    · cases hs : parse_step cfg l ch with
      | none => rw [hs] at h; cases h
      | some l2 =>
        rw [hs] at h
        have hb2 := parse_loop_bounds cfg data l2 (i + 1) l1 n h
        have hn : n - i = (n - (i + 1)) + 1 := by omega
        rw [hn, List.take_succ_cons] at hd
        cases data1 with
        | nil => simp at hd
        | cons c cs =>
          rw [List.take_succ_cons] at hd
          simp only [List.cons.injEq] at hd
          obtain ⟨rfl, hd⟩ := hd
          unfold parse_loop
          rw [if_neg hl, hs]
          exact ih l2 (i + 1) l1 n h ht cs hd

set_option maxRecDepth 100000 in
/-- One step of a run that stays within the arrays makes no store outside them,
and what is left of the run stays within them as well. -/
theorem parse_step_within (cfg : Config) (l : parse_locals) (ch : Nat) (data : List Nat)
    (hw : within cfg l (ch :: data)) :
    ∃ l1, parse_step cfg l ch = some l1 ∧ within cfg l1 data := by
  obtain ⟨s, tok, req⟩ := l
  simp only [within, List.length_cons, List.count_cons] at hw
  obtain ⟨hb, hc⟩ := hw
  have hlt : req._buf_idx < cfg.REQUEST_BUFFER_SIZE := by omega
  have hfill : ∀ c, FILL_NEXT_CHAR cfg req c = some (fill req [c]) :=
    fun c => FILL_NEXT_CHAR_eq cfg req c hlt
  have hfin : FINISH_CUR_TOKEN cfg req = some (fill req [0]) := FINISH_CUR_TOKEN_eq cfg req hlt
  cases s
  case BAD_REQUEST =>
    exact ⟨_, rfl, (by simp at hc; simp [within]; omega)⟩
  case COMPLETE =>
    exact ⟨_, rfl, (by simp at hc; simp [within]; omega)⟩
  case METHOD =>
    simp only [parse_step, hfin, hfill, Option.map_some']
    simp at hc
    split_ifs <;> exact ⟨_, rfl, (by simp [within, fill]; omega)⟩
  case PATH =>
    simp only [parse_step, hfin, hfill, Option.map_some']
    simp at hc
    split_ifs <;> exact ⟨_, rfl, (by simp [within, fill]; omega)⟩
  case QUERY_STR =>
    simp only [parse_step, hfin, hfill, Option.map_some']
    simp at hc
    split_ifs <;> exact ⟨_, rfl, (by simp [within, fill]; omega)⟩
  case VERSION =>
    simp only [parse_step, hfin, hfill, Option.map_some']
    simp at hc
    split_ifs <;> exact ⟨_, rfl, (by simp [within, fill]; omega)⟩
  case HEADER_NAME =>
    simp only [parse_step, hfin, hfill, Option.map_some', Option.some_bind]
    by_cases h1 : ch = 58
    · subst h1
      simp at hc
      have h2 : (fill req [0]).header_count < cfg.MAX_HEADER_SIZE := by
        show req.header_count < cfg.MAX_HEADER_SIZE
        omega
      rw [if_pos rfl, if_pos h2]
      exact ⟨_, rfl, (by simp [within, fill, set_header_name]; omega)⟩
    · rw [if_neg h1]
      simp [h1] at hc
      exact ⟨_, rfl, (by simp [within, fill]; omega)⟩
  case HEADER_COLON =>
    simp only [parse_step]
    simp at hc
    split_ifs <;> exact ⟨_, rfl, (by simp [within]; omega)⟩
  case HEADER_VALUE =>
    simp only [parse_step, hfin, hfill, Option.map_some', Option.some_bind]
    simp at hc
    have h2 : (fill req [0]).header_count < cfg.MAX_HEADER_SIZE := by
      show req.header_count < cfg.MAX_HEADER_SIZE
      omega
    by_cases h1 : ch = 13
    · rw [if_pos h1, if_pos h2]
      refine ⟨_, rfl, ?_⟩
      simp only [within, finish_header_buf_idx, finish_header_count]
      simp [fill]
      omega
    · rw [if_neg h1]
      exact ⟨_, rfl, (by simp [within, fill]; omega)⟩
  case HEADER_CR =>
    simp only [parse_step]
    simp at hc
    split_ifs <;> exact ⟨_, rfl, (by simp [within]; omega)⟩
  case HEADER_LF =>
    simp only [parse_step, hfill, Option.map_some']
    simp at hc
    split_ifs <;> exact ⟨_, rfl, (by simp [within, fill]; omega)⟩
  case HEADER_COMPLETE_CR =>
    simp only [parse_step]
    simp at hc
    split_ifs <;> exact ⟨_, rfl, (by simp [within]; omega)⟩

/-- A run that stays within the arrays comes to an end. -/
theorem parse_loop_total (cfg : Config) (data : List Nat) :
    ∀ (l : parse_locals) (i : Nat), within cfg l data →
      ∃ res, parse_loop cfg l data i = some res := by
  induction data with
  | nil => intro l i _; exact ⟨_, rfl⟩
  | cons ch data ih =>
    intro l i hw
    unfold parse_loop
    split_ifs with ht
    · exact ⟨_, rfl⟩
    · obtain ⟨l1, hs, hw1⟩ := parse_step_within cfg l ch data hw
      rw [hs]
      exact ih l1 (i + 1) hw1

/-- C21: `request_parse_headers` halts at a terminal state.  Whenever the call
returns (it does for every input that fits the token buffer and whose `:` bytes
number at most `MAX_HEADER_SIZE`; beyond the arrays no bound is checked), the
consumed count is at most the input length; it equals the input length when the
result is `STATUS_INCOMPLETE`; and when the result is `STATUS_COMPLETE` or
`STATUS_ERROR`, every input that agrees with this one on the first `consumed`
bytes gives the same result, the same consumed count and the same request. -/
theorem C21_parse_halts (cfg : Config) (req : request_t) (data : List Nat) :
    (data.length ≤ cfg.REQUEST_BUFFER_SIZE → data.count 58 ≤ cfg.MAX_HEADER_SIZE →
      ∃ st n r, request_parse_headers cfg req data = some (st, n, r))
    ∧ ∀ st n r, request_parse_headers cfg req data = some (st, n, r) →
        n ≤ data.length
        ∧ (st = .STATUS_INCOMPLETE → n = data.length)
        ∧ (st ≠ .STATUS_INCOMPLETE →
            ∀ data1 : List Nat, data1.take n = data.take n →
              request_parse_headers cfg req data1 = some (st, n, r)) := by
  refine ⟨fun hb hc => ?_, fun st n r h => ?_⟩
  · obtain ⟨res, hres⟩ := parse_loop_total cfg data
      { state := .METHOD, cur_token := 0,
        req := { req with _buffer := poke req._buffer 0 0, _buf_idx := 0, header_count := 0 } } 0
      ⟨by simpa using hb, by simpa using hc⟩
    refine ⟨parse_rc res.1.state, res.2, res.1.req, ?_⟩
    unfold request_parse_headers
    simp only [hres, Option.map_some']
  · unfold request_parse_headers at h
    simp only at h
    cases hl : parse_loop cfg
        { state := .METHOD, cur_token := 0,
          req := { req with _buffer := poke req._buffer 0 0, _buf_idx := 0, header_count := 0 } }
        data 0 with
    | none => rw [hl] at h; cases h
    | some res =>
      obtain ⟨l1, m⟩ := res
      rw [hl] at h
      simp only [Option.map_some', Option.some.injEq, Prod.mk.injEq] at h
      obtain ⟨rfl, rfl, rfl⟩ := h
      obtain ⟨-, h2, h3⟩ := parse_loop_bounds cfg data _ 0 l1 m hl
      rw [Nat.zero_add] at h2 h3
      refine ⟨h2, fun hs => ?_, fun hs data1 hd => ?_⟩
      · apply h3
        · intro hc; rw [hc] at hs; cases hs
        · intro hc; rw [hc] at hs; cases hs
      · have ht : l1.state = .COMPLETE ∨ l1.state = .BAD_REQUEST := by
          cases hst : l1.state <;> simp [hst, parse_rc] at hs ⊢
        have := parse_loop_prefix cfg data _ 0 l1 m hl ht data1 (by simpa using hd)
        unfold request_parse_headers
        simp only [this, Option.map_some']

set_option maxRecDepth 100000 in
/-- C21 at the head `GET /a HTTP/1.1\r\nHost: x\r\n\r\n` followed by the bytes
`BODY`: the 28 bytes of the head are consumed, and with any other bytes after
them the result is the same. -/
theorem C21_parse_halts_witness :
    (head_demo.bytes ++ str "BODY").length ≤ demo_cfg.REQUEST_BUFFER_SIZE
    ∧ (∃ st n r, request_parse_headers demo_cfg (request_create demo_cfg 0)
        (head_demo.bytes ++ str "BODY") = some (st, n, r))
    ∧ head_demo.bytes.length = 28
    ∧ head_demo.bytes.length ≤ (head_demo.bytes ++ str "BODY").length
    ∧ ∀ data1 : List Nat,
        data1.take head_demo.bytes.length
          = (head_demo.bytes ++ str "BODY").take head_demo.bytes.length →
        request_parse_headers demo_cfg (request_create demo_cfg 0) data1
          = some (.STATUS_COMPLETE, head_demo.bytes.length,
              after_head demo_cfg (request_create demo_cfg 0) head_demo) :=
  have h := (C21_parse_halts demo_cfg (request_create demo_cfg 0)
    (head_demo.bytes ++ str "BODY")).2 _ _ _
    (parse_head demo_cfg (request_create demo_cfg 0) head_demo (str "BODY") (by decide)
      (by decide))
  ⟨by decide,
    (C21_parse_halts demo_cfg (request_create demo_cfg 0) (head_demo.bytes ++ str "BODY")).1
      (by decide) (by decide),
    by decide, h.1, h.2.2 (by decide)⟩

theorem load_congr (m1 m2 : Nat → Nat) (e : Nat) (he : m1 e = 0) :
    ∀ (fuel off : Nat), (∀ j, off ≤ j → j ≤ e → m1 j = m2 j) → off ≤ e → e < off + fuel →
      load m1 off fuel = load m2 off fuel := by
  intro fuel
  induction fuel with
  | zero => intro off _ h1 h2; omega
  | succ k ih =>
    intro off hag h1 h2
    have h0 := hag off (Nat.le_refl _) h1
    unfold load
    rw [← h0]
    by_cases hz : m1 off = 0
    · rw [if_pos hz, if_pos hz]
    · rw [if_neg hz, if_neg hz]
      have hne : off ≠ e := by intro h; rw [h] at hz; exact hz he
      rw [ih (off + 1) (fun j hj1 hj2 => hag j (by omega) hj2) (by omega) (by omega)]

/-- A token terminated below the cursor reads the same in two requests that
hold the same tokens. -/
theorem request_str_congr (cfg : Config) (a b : request_t) (off e : Nat)
    (hs : same_tokens cfg a b) (h1 : off ≤ e) (h2 : e < a._buf_idx) (h0 : a._buffer e = 0) :
    request_str cfg a (.buf off) = request_str cfg b (.buf off) := by
  obtain ⟨-, -, hcap, hag⟩ := hs
  unfold request_str cstr
  exact load_congr _ _ e h0 _ off (fun j _ hj => hag j (by omega)) h1 (by omega)

theorem same_tokens_fill (cfg : Config) (a b : request_t) (c : Nat)
    (hs : same_tokens cfg a b) (hlt : a._buf_idx < cfg.REQUEST_BUFFER_SIZE) :
    same_tokens cfg (fill a [c]) (fill b [c]) := by
  obtain ⟨hi, hc, -, hag⟩ := hs
  refine ⟨by simp [fill, hi], hc, by simp [fill]; omega, fun j hj => ?_⟩
  simp only [fill, store, poke, List.length_cons, List.length_nil] at hj ⊢
  rw [← hi]
  by_cases h : j = a._buf_idx
  · rw [if_pos h, if_pos h]
  · rw [if_neg h, if_neg h]
    exact hag j (by omega)

theorem fill_terminated (a : request_t) : (fill a [0])._buffer a._buf_idx = 0 := by
  simp [fill, store, poke]

theorem same_name_fill (a b : request_t) (c : Nat) (hn : same_name a b) :
    same_name (fill a [c]) (fill b [c]) := by
  obtain ⟨off, e, h1, h2, h3, h4, h5⟩ := hn
  refine ⟨off, e, h1, h2, h3, by simp [fill]; omega, ?_⟩
  simp only [fill, store, poke]
  rw [if_neg (by omega)]
  exact h5

theorem FILL_NEXT_CHAR_cases (cfg : Config) (a b : request_t) (c : Nat)
    (hi : a._buf_idx = b._buf_idx) :
    (FILL_NEXT_CHAR cfg a c = none ∧ FILL_NEXT_CHAR cfg b c = none)
    ∨ (a._buf_idx < cfg.REQUEST_BUFFER_SIZE
        ∧ FILL_NEXT_CHAR cfg a c = some (fill a [c])
        ∧ FILL_NEXT_CHAR cfg b c = some (fill b [c])) := by
  by_cases hlt : a._buf_idx < cfg.REQUEST_BUFFER_SIZE
  · exact Or.inr ⟨hlt, FILL_NEXT_CHAR_eq cfg a c hlt, FILL_NEXT_CHAR_eq cfg b c (by omega)⟩
  · left
    unfold FILL_NEXT_CHAR
    rw [if_neg hlt, if_neg (by omega)]
    exact ⟨rfl, rfl⟩

set_option maxRecDepth 100000 in
theorem std_callback_content_len :
    ∀ e ∈ std_headers_hash.table,
      (e.data = some ._handle_content_len ↔ e.key = str "content-length") := by
  rw [std_headers_hash_table]; decide

theorem std_find_content_len {key : List Nat} {ret : ENTRY (Option http_header_callback)}
    (h : hsearch_r_FIND key std_headers_hash = some ret) :
    ret.data = some ._handle_content_len ↔ key = str "content-length" := by
  have h2 := List.mem_of_find?_eq_some h
  rw [std_callback_content_len ret h2, (std_find_some h).1]

theorem handle_common_header_content_length (cfg : Config) (req : request_t) (k : Nat) :
    (handle_common_header cfg req k).content_length
      = if strlowercase (request_str cfg req (req.headers k).name) 64 = str "content-length"
        then (atol (request_str cfg req (req.headers k).value) % 2 ^ 64).toNat
        else req.content_length := by
  unfold handle_common_header
  simp only
  cases hf : hsearch_r_FIND (strlowercase (request_str cfg req (req.headers k).name) 64)
      std_headers_hash with
  | none =>
    have : strlowercase (request_str cfg req (req.headers k).name) 64
        ≠ str "content-length" := by
      intro he; exact std_find_none hf (by rw [he]; decide)
    simp [this]
  | some ret =>
    have hh := std_find_content_len hf
    simp only
    cases hd : ret.data with
    | none =>
      have : strlowercase (request_str cfg req (req.headers k).name) 64
          ≠ str "content-length" := by
        intro he; have := hh.2 he; rw [hd] at this; cases this
      simp [this]
    | some cb =>
      cases cb
      · have : strlowercase (request_str cfg req (req.headers k).name) 64
            ≠ str "content-length" := by
          intro he; have := hh.2 he; rw [hd] at this; cases this
        simp only [call_header_callback, _handle_connection, if_neg this]
        split <;> rfl
      · have : strlowercase (request_str cfg req (req.headers k).name) 64
            = str "content-length" := hh.1 hd
        simp [call_header_callback, _handle_content_len, this]
      · have : strlowercase (request_str cfg req (req.headers k).name) 64
            ≠ str "content-length" := by
          intro he; have := hh.2 he; rw [hd] at this; cases this
        simp [call_header_callback, _handle_host, this]

theorem finish_header_buffer (cfg : Config) (req : request_t) (tok : Nat) :
    (finish_header cfg req tok)._buffer = req._buffer := by
  simp [finish_header, (handle_common_header_frame cfg _ _).2.1]

set_option maxRecDepth 100000 in
/-- C22, counterexample: the input `GET / HTTP/1.1\r\n\r\n` has no `Host` header;
parsed into a fresh request it leaves the host NULL, parsed into the request
that held `GET /a HTTP/1.1\r\nHost: x\r\n\r\n` before it leaves the host pointer
of that earlier message, which still reads `x`. -/
theorem C22_stale_host_counterexample :
    (request_parse_headers demo_cfg (request_create demo_cfg 0)
        (str "GET / HTTP/1.1\r\n\r\n")).map
        (fun r => (r.1, r.2.1, r.2.2.host, request_str demo_cfg r.2.2 r.2.2.host))
      = some (.STATUS_COMPLETE, 18, .null, [])
    ∧ (request_parse_headers demo_cfg req_after_demo (str "GET / HTTP/1.1\r\n\r\n")).map
        (fun r => (r.1, r.2.1, r.2.2.host, request_str demo_cfg r.2.2 r.2.2.host))
      = some (.STATUS_COMPLETE, 18, .buf 21, str "x") := by
  refine ⟨by decide!, by decide!⟩

/-- The function `response_alloc` keeps the cursor within the arena. -/
theorem response_alloc_cursor (cfg : Config) (resp : response_t) (n : Nat)
    (h : resp._buf_idx ≤ cfg.RESPONSE_BUFFER_SIZE) :
    (response_alloc cfg resp n).2._buf_idx ≤ cfg.RESPONSE_BUFFER_SIZE := by
  unfold response_alloc
  split_ifs with hc
  · exact h
  · simp only
    omega

set_option maxRecDepth 100000 in
/-- The function `response_set_header` keeps the cursor within the arena. -/
theorem response_set_header_cursor (cfg : Config) (resp : response_t) (n v : Ptr) (rc : Int)
    (resp1 : response_t) (h : resp._buf_idx ≤ cfg.RESPONSE_BUFFER_SIZE)
    (hr : response_set_header cfg resp n v = some (rc, resp1)) :
    resp1._buf_idx ≤ cfg.RESPONSE_BUFFER_SIZE := by
  unfold response_set_header at hr
  by_cases hs : resp._header_sent = true
  · rw [if_pos hs] at hr; cases hr; exact h
  · rw [if_neg hs] at hr
    simp only at hr
    cases hf : hsearch_r_FIND (strlowercase (response_str cfg resp n) 64) resp._header_hash with
    | some ret => rw [hf] at hr; cases hr; exact h
    | none =>
      rw [hf] at hr
      simp only at hr
      by_cases hc : resp.header_count < cfg.MAX_HEADER_SIZE
      · rw [if_pos hc] at hr
        cases hstd : hsearch_r_FIND (strlowercase (response_str cfg resp n) 64)
            std_headers_hash with
        | some ret =>
          rw [hstd] at hr
          simp only at hr
          split at hr <;> cases hr <;> exact h
        | none =>
          rw [hstd] at hr
          simp only at hr
          have ha := response_alloc_cursor cfg
            { resp with
              header_count := resp.header_count + 1,
              headers := Function.update resp.headers resp.header_count
                { name := n, value := v } }
            ((strlowercase (response_str cfg resp n) 64).length + 1) h
          split at hr
          · rename_i keybuf resp2 heq
            rw [heq] at ha
            split at hr <;> cases hr <;> exact ha
          · rename_i p resp2 _ heq
            rw [heq] at ha
            cases hr
            exact ha
      · rw [if_neg hc] at hr; cases hr

set_option maxRecDepth 100000 in
/-- C24 (evaluation at the failing input): with the cursor at 2040 of 2048,
`response_set_header_printf(resp, "Server", "%s", "breeze-breeze-breeze!")` lets
`vsnprintf` write the 8 bytes that fit, gets back the length 21 of the whole
expansion, returns 0 and moves the cursor by 22, to 2062, beyond the arena.
Likewise the `Content-Length` block of the default-header injection moves a
cursor of 2047 to 2050. -/
theorem C24_printf_cursor_overflow :
    resp_filled._buf_idx = 2040
    ∧ resp_filled._buf_idx ≤ demo_cfg.RESPONSE_BUFFER_SIZE
    ∧ (response_set_header_printf demo_cfg resp_filled (.lit (str "Server"))
        (str "breeze-breeze-breeze!")).map (fun r => (r.1, r.2._buf_idx))
      = some (0, 2062)
    ∧ demo_cfg.RESPONSE_BUFFER_SIZE < 2062
    ∧ (response_alloc demo_cfg resp_demo13 2047).2._buf_idx = 2047
    ∧ (common_content_length demo_cfg (response_alloc demo_cfg resp_demo13 2047).2).map
        (fun r => r._buf_idx) = some 2050 := by
  refine ⟨by decide, by decide, by decide!, by decide, by decide, by decide!⟩

set_option maxRecDepth 100000 in
/-- C23 (evaluation at the failing input): with the cursor at 2040 of 2048,
`response_set_header(resp, "X-Custom", "1")` finds no room for the 9 bytes of
the lower-cased key and returns `-1`, yet `header_count` has gone from 0 to 1
and slot 0 holds the header, which the lookup table does not know:
`response_get_header(resp, "X-Custom")` is NULL.  The same call again returns
`-1` and leaves `header_count` at 2, with two headers of the same name. -/
theorem C23_failed_set_header_counts :
    resp_filled.header_count = 0
    ∧ (response_set_header demo_cfg resp_filled (.lit (str "X-Custom")) (.lit (str "1"))).map
        (fun r => (r.1, r.2.header_count, r.2._buf_idx, (r.2.headers 0).name,
          response_get_header r.2 (str "X-Custom")))
      = some (-1, 1, 2040, .lit (str "X-Custom"), .null)
    ∧ ((response_set_header demo_cfg resp_filled (.lit (str "X-Custom")) (.lit (str "1"))).bind
        (fun r => response_set_header demo_cfg r.2 (.lit (str "X-Custom")) (.lit (str "1")))).map
        (fun r => (r.1, r.2.header_count, (r.2.headers 0).name, (r.2.headers 1).name,
          response_get_header r.2 (str "X-Custom")))
      = some (-1, 2, .lit (str "X-Custom"), .lit (str "X-Custom"), .null) := by
  refine ⟨by decide, by decide!, by decide!⟩

/-! ## Header names cut at the first NUL byte -/

theorem strlowercase_take (n : List Nat) :
    strlowercase n 64 = (cname n).take 63 := by
  unfold strlowercase cname
  rw [List.map_take]

/-- A key shorter than the 63 bytes `strlowercase` keeps is the key of a name
exactly when the name, cut at its first NUL byte and lower-cased, is that key. -/
theorem strlowercase_eq_iff (n key : List Nat) (hk : key.length < 63) :
    strlowercase n 64 = key ↔ cname n = key := by
  rw [strlowercase_take]
  constructor
  · intro h
    have hl : ((cname n).take 63).length < 63 := by rw [h]; exact hk
    rw [List.length_take] at hl
    rw [List.take_of_length_le (by omega)] at h
    exact h
  · intro h
    rw [h, List.take_of_length_le (by omega)]

set_option maxRecDepth 100000 in
theorem std_names_short : ∀ k ∈ std_names, k.length < 63 := by
  decide

theorem strlowercase_mem_std (n : List Nat) :
    strlowercase n 64 ∈ std_names ↔ cname n ∈ std_names := by
  constructor
  · intro h
    have := (strlowercase_eq_iff n _ (std_names_short _ h)).1 rfl
    rw [this]; exact h
  · intro h
    have := (strlowercase_eq_iff n _ (std_names_short _ h)).2 rfl
    rw [this]; exact h

/-- C2 (as amended): for every well-formed request head that fits the capacity,
`request_parse_headers` returns `STATUS_COMPLETE` and records the method token,
the path and the query string cut at their first NUL byte, the version named by
the version token, and as host the value (cut at its first NUL byte) of the last
header whose name, cut at its first NUL byte and lower-cased, is `host`; without
`?` the query string and without such a header the host are left as they
were. -/
theorem C2_parse_fields (cfg : Config) (req : request_t) (h : Head) (rest : List Nat)
    (hwf : h.wf = true) (hfit : h.fits cfg) :
    ∃ r, request_parse_headers cfg req (h.bytes ++ rest)
        = some (.STATUS_COMPLETE, h.bytes.length, r)
      ∧ request_str cfg r r.method = h.method
      ∧ request_str cfg r r.path = h.path.takeWhile (fun c => decide (c ≠ 0))
      ∧ (∀ q, h.query = some q →
          request_str cfg r r.query_str = q.takeWhile (fun c => decide (c ≠ 0)))
      ∧ (h.query = none → r.query_str = req.query_str)
      ∧ (h.version = str "1.1" → r.version = .HTTP_VERSION_1_1)
      ∧ (h.version = str "1.0" → r.version = .HTTP_VERSION_1_0)
      ∧ (h.version = str "0.9" → r.version = .HTTP_VERSION_0_9)
      ∧ (∀ hs1 n v hs2, h.headers = hs1 ++ (n, v) :: hs2 →
          (n.takeWhile (fun c => decide (c ≠ 0))).map tolower = str "host" →
          (∀ nv ∈ hs2, (nv.1.takeWhile (fun c => decide (c ≠ 0))).map tolower ≠ str "host") →
          request_str cfg r r.host = v.takeWhile (fun c => decide (c ≠ 0)))
      ∧ ((∀ nv ∈ h.headers,
            (nv.1.takeWhile (fun c => decide (c ≠ 0))).map tolower ≠ str "host") →
          r.host = req.host) := by
  have hk : (str "host").length < 63 := by decide
  obtain ⟨r, h0, h1, h2, h3, h4, h5, h6, h7, h8, h9⟩ := parse_fields_keyed cfg req h rest hwf hfit
  refine ⟨r, h0, h1, h2, h3, h4, h5, h6, h7, ?_, ?_⟩
  · intro hs1 n v hs2 hh hhost hlast
    exact h8 hs1 n v hs2 hh ((strlowercase_eq_iff n _ hk).2 hhost)
      (fun nv hnv hc => hlast nv hnv ((strlowercase_eq_iff nv.1 _ hk).1 hc))
  · intro hno
    exact h9 (fun nv hnv hc => hno nv hnv ((strlowercase_eq_iff nv.1 _ hk).1 hc))

/-- C2 at the head `GET /a HTTP/1.1\r\nHost: x\r\n\r\n`: method `GET`, path `/a`, no query
string, version 1.1 and host `x`. -/
theorem C2_parse_fields_witness :
    head_demo.wf = true ∧ head_demo.fits demo_cfg
    ∧ ∃ r, request_parse_headers demo_cfg (request_create demo_cfg 0) (head_demo.bytes ++ [])
          = some (.STATUS_COMPLETE, head_demo.bytes.length, r)
        ∧ request_str demo_cfg r r.method = str "GET"
        ∧ request_str demo_cfg r r.path = str "/a"
        ∧ r.query_str = .null
        ∧ r.version = .HTTP_VERSION_1_1
        ∧ request_str demo_cfg r r.host = str "x" := by
  obtain ⟨r, hp, hm, hpa, -, hq, hv, -, -, hh, -⟩ :=
    C2_parse_fields demo_cfg (request_create demo_cfg 0) head_demo [] (by decide) (by decide)
  refine ⟨by decide, by decide, r, hp, hm, ?_, hq rfl, hv (by decide), ?_⟩
  · rw [hpa]; decide
  · rw [hh [] (str "Host") (str "x") [] rfl (by decide) (by simp)]; decide

/-- C8 (as amended): after `request_parse_headers` returns `STATUS_COMPLETE` on a
well-formed head, parsed into a request whose lookup table was empty, every
header whose name, cut at its first NUL byte and lower-cased, is in
`std_headers`, and before which no header of the head has the same name so
read, is retrievable case-insensitively: under every re-casing of its name
`request_get_header` returns its value (cut at the first NUL byte). -/
theorem C8_get_header_registered (cfg : Config) (req : request_t) (h : Head) (rest : List Nat)
    (hwf : h.wf = true) (hfit : h.fits cfg)
    (hreq : req._header_hash = hcreate_r cfg.HTAB_SIZE)
    (htab : cfg.MAX_HEADER_SIZE ≤ cfg.HTAB_SIZE) :
    ∃ r, request_parse_headers cfg req (h.bytes ++ rest)
        = some (.STATUS_COMPLETE, h.bytes.length, r)
      ∧ ∀ hs1 n v hs2 n1, h.headers = hs1 ++ (n, v) :: hs2 →
          (n.takeWhile (fun c => decide (c ≠ 0))).map tolower ∈ std_names →
          (∀ nv ∈ hs1, (nv.1.takeWhile (fun c => decide (c ≠ 0))).map tolower
            ≠ (n.takeWhile (fun c => decide (c ≠ 0))).map tolower) →
          n1.map tolower = n.map tolower →
          request_get_header r n1 ≠ .null
          ∧ request_str cfg r (request_get_header r n1)
              = v.takeWhile (fun c => decide (c ≠ 0)) := by
  obtain ⟨r, h0, h1⟩ := get_header_keyed cfg req h rest hwf hfit hreq htab
  refine ⟨r, h0, ?_⟩
  intro hs1 n v hs2 n1 hh hstd hfirst hcase
  have hn : strlowercase n 64 = cname n :=
    (strlowercase_eq_iff n _ (std_names_short _ hstd)).2 rfl
  refine h1 hs1 n v hs2 n1 hh ((strlowercase_mem_std n).2 hstd) (fun nv hnv hc => ?_) hcase
  rw [hn] at hc
  exact hfirst nv hnv ((strlowercase_eq_iff nv.1 _ (std_names_short _ hstd)).1 hc)

/-- C8 at a head with `Content-Type: text/html`: both `content-type` and
`CONTENT-TYPE` give `text/html`. -/
theorem C8_get_header_registered_witness :
    head_typed.wf = true ∧ head_typed.fits demo_cfg
    ∧ (request_create demo_cfg 0)._header_hash = hcreate_r demo_cfg.HTAB_SIZE
    ∧ demo_cfg.MAX_HEADER_SIZE ≤ demo_cfg.HTAB_SIZE
    ∧ ∃ r, request_parse_headers demo_cfg (request_create demo_cfg 0) (head_typed.bytes ++ [])
          = some (.STATUS_COMPLETE, head_typed.bytes.length, r)
        ∧ request_get_header r (str "content-type") ≠ .null
        ∧ request_str demo_cfg r (request_get_header r (str "content-type")) = str "text/html"
        ∧ request_str demo_cfg r (request_get_header r (str "CONTENT-TYPE")) = str "text/html" := by
  obtain ⟨r, hp, hall⟩ :=
    C8_get_header_registered demo_cfg (request_create demo_cfg 0) head_typed [] (by decide)
      (by decide) rfl (by decide)
  have h1 := hall [] (str "Content-Type") (str "text/html") [(str "X-Foo", str "1")]
    (str "content-type") rfl (by decide) (by simp) (by decide)
  have h2 := hall [] (str "Content-Type") (str "text/html") [(str "X-Foo", str "1")]
    (str "CONTENT-TYPE") rfl (by decide) (by simp) (by decide)
  refine ⟨by decide, by decide, rfl, by decide, r, hp, h1.1, ?_, ?_⟩
  · rw [h1.2]; decide
  · rw [h2.2]; decide

/-- C9 (as amended): request header storage is gated by the registry.  Starting
from a request whose lookup table holds registry names only (as after
`request_create` or `request_reset`), after any parse `request_get_header`
returns a value only for names that, cut at their first NUL byte and
lower-cased, are in `std_headers`; and after a well-formed head every header is
counted in `header_count` while `request_get_header` returns NULL for each
header whose name, cut at its first NUL byte and lower-cased, is not in
`std_headers`. -/
theorem C9_registry_gate (cfg : Config) (req : request_t) (hk : keys_std req) :
    (∀ data rc consumed r name,
        request_parse_headers cfg req data = some (rc, consumed, r) →
        request_get_header r name ≠ .null →
        (name.takeWhile (fun c => decide (c ≠ 0))).map tolower ∈ std_names)
    ∧ (∀ (h : Head) (rest : List Nat), h.wf = true → h.fits cfg →
        ∃ r, request_parse_headers cfg req (h.bytes ++ rest)
            = some (.STATUS_COMPLETE, h.bytes.length, r)
          ∧ r.header_count = h.headers.length
          ∧ ∀ nv ∈ h.headers,
              (nv.1.takeWhile (fun c => decide (c ≠ 0))).map tolower ∉ std_names →
              request_get_header r nv.1 = .null) := by
  obtain ⟨h1, h2⟩ := registry_gate_keyed cfg req hk
  refine ⟨fun data rc consumed r name hp hg =>
    (strlowercase_mem_std name).1 (h1 data rc consumed r name hp hg), ?_⟩
  intro h rest hwf hfit
  obtain ⟨r, hp, hc, hn⟩ := h2 h rest hwf hfit
  exact ⟨r, hp, hc, fun nv hnv hno =>
    hn nv hnv (fun hm => hno ((strlowercase_mem_std nv.1).1 hm))⟩

set_option maxRecDepth 100000 in
/-- C9 at the head `GET / HTTP/1.1\r\nX-Foo: 1\r\n\r\n` parsed into a fresh request: the
header is counted and `request_get_header` returns NULL for it. -/
theorem C9_registry_gate_witness :
    keys_std (request_create demo_cfg 0)
    ∧ ∃ r, request_parse_headers demo_cfg (request_create demo_cfg 0) (head_custom.bytes ++ [])
          = some (.STATUS_COMPLETE, head_custom.bytes.length, r)
        ∧ r.header_count = 1
        ∧ request_get_header r (str "X-Foo") = .null := by
  have hk : keys_std (request_create demo_cfg 0) := by
    intro e he; cases he
  obtain ⟨r, hp, hc, hn⟩ :=
    (C9_registry_gate demo_cfg (request_create demo_cfg 0) hk).2 head_custom []
      (by decide) (by decide)
  exact ⟨hk, r, hp, hc, hn (str "X-Foo", str "1") (by simp [head_custom]) (by decide)⟩

set_option maxRecDepth 100000 in
/-- C9 (as stated) fails: in the head `GET / HTTP/1.1\r\nHost\0junk: x\r\n\r\n` the
lower-cased name `host\0junk` of the header is not in `std_headers`, yet the
code reads the name as the C string `Host`, enters the header under `host`, and
`request_get_header` returns for the header's name a pointer that is not NULL
and reads the value `x`. -/
theorem C9_nul_name_counterexample :
    head_nul_name.wf = true ∧ head_nul_name.fits demo_cfg
    ∧ (str "Host" ++ [0] ++ str "junk").map tolower ∉ std_names
    ∧ (request_parse_headers demo_cfg (request_create demo_cfg 0)
          (head_nul_name.bytes ++ [])).map
        (fun r => (r.1, r.2.2.header_count,
          request_get_header r.2.2 (str "Host" ++ [0] ++ str "junk"),
          request_str demo_cfg r.2.2
            (request_get_header r.2.2 (str "Host" ++ [0] ++ str "junk"))))
        = some (.STATUS_COMPLETE, 1, .buf 25, str "x") := by
  refine ⟨by decide, by decide, by decide, by decide!⟩

/-- C20 (as amended): for every well-formed request head within capacity that
holds a `Connection` header (a name that, cut at its first NUL byte and
lower-cased, is `connection`) with value `v`, `request_parse_headers` completes
and leaves the connection mode at keep-alive if `v`, read up to its first NUL
byte, equals `keep-alive` ignoring ASCII case, and at close otherwise; of
several such headers the last decides. -/
theorem C20_connection_mode (cfg : Config) (req : request_t) (h : Head) (rest : List Nat)
    (hs1 hs2 : List (List Nat × List Nat)) (n v : List Nat)
    (hwf : h.wf = true) (hfit : h.fits cfg)
    (hh : h.headers = hs1 ++ (n, v) :: hs2)
    (hconn : (n.takeWhile (fun c => decide (c ≠ 0))).map tolower = str "connection")
    (hlast : ∀ nv ∈ hs2,
      (nv.1.takeWhile (fun c => decide (c ≠ 0))).map tolower ≠ str "connection") :
    ∃ r, request_parse_headers cfg req (h.bytes ++ rest)
        = some (.STATUS_COMPLETE, h.bytes.length, r)
      ∧ r.connection
        = if (v.takeWhile (fun c => decide (c ≠ 0))).map tolower = str "keep-alive"
          then .CONN_KEEP_ALIVE else .CONN_CLOSE := by
  have hk : (str "connection").length < 63 := by decide
  exact connection_mode_keyed cfg req h rest hs1 hs2 n v hwf hfit hh
    ((strlowercase_eq_iff n _ hk).2 hconn)
    (fun nv hnv hc => hlast nv hnv ((strlowercase_eq_iff nv.1 _ hk).1 hc))

set_option maxRecDepth 100000 in
/-- C20 at the headers `CONNECTION: Keep-Alive` and `connection: close`: the last one
decides, the mode is close. -/
theorem C20_connection_mode_witness :
    head_conn_twice.wf = true ∧ head_conn_twice.fits demo_cfg
    ∧ ∃ r, request_parse_headers demo_cfg (request_create demo_cfg 0)
          (head_conn_twice.bytes ++ [])
        = some (.STATUS_COMPLETE, head_conn_twice.bytes.length, r)
      ∧ r.connection
        = if ((str "close").takeWhile (fun c => decide (c ≠ 0))).map tolower = str "keep-alive"
          then .CONN_KEEP_ALIVE else .CONN_CLOSE :=
  ⟨by decide, by decide,
    C20_connection_mode demo_cfg (request_create demo_cfg 0) head_conn_twice []
      [(str "CONNECTION", str "Keep-Alive")] [] (str "connection") (str "close")
      (by decide) (by decide) rfl (by decide) (by simp)⟩

set_option maxRecDepth 100000 in
/-- Header names are read as C strings.  After `Host: good` and `Host\0junk: evil`
the host is `evil`; after `Host\0junk: evil` and `Host: good` the header found
under `Host` is `evil`; after `Connection: keep-alive` and
`Connection\0junk: close` the mode is close. -/
theorem nul_name_examples :
    (request_parse_headers demo_cfg (request_create demo_cfg 0)
        head_host_then_nul.bytes).map
        (fun r => (r.1, request_str demo_cfg r.2.2 r.2.2.host))
      = some (.STATUS_COMPLETE, str "evil")
    ∧ (request_parse_headers demo_cfg (request_create demo_cfg 0)
        head_nul_then_host.bytes).map
        (fun r => (r.1, request_str demo_cfg r.2.2 (request_get_header r.2.2 (str "Host"))))
      = some (.STATUS_COMPLETE, str "evil")
    ∧ (request_parse_headers demo_cfg (request_create demo_cfg 0)
        head_conn_then_nul.bytes).map (fun r => (r.1, r.2.2.connection))
      = some (.STATUS_COMPLETE, .CONN_CLOSE) := by
  refine ⟨by decide!, by decide!, by decide!⟩

/-! ## The status page for every status -/

theorem token_ptr_fill (a : request_t) (c : Nat) (p : Ptr)
    (h : token_ptr a._buffer a._buf_idx p) :
    token_ptr (fill a [c])._buffer (fill a [c])._buf_idx p := by
  obtain ⟨off, e, h1, h2, h3, h4⟩ := h
  refine ⟨off, e, h1, h2, by simp [fill]; omega, ?_⟩
  simp only [fill, store, poke]
  rw [if_neg (by omega)]
  exact h4

theorem same_token_or_kept_fill (a : request_t) (c : Nat) (x y x0 y0 : Ptr)
    (h : same_token_or_kept a._buffer a._buf_idx x y x0 y0) :
    same_token_or_kept (fill a [c])._buffer (fill a [c])._buf_idx x y x0 y0 := by
  rcases h with ⟨h1, h2⟩ | h
  · exact Or.inl ⟨h1, token_ptr_fill a c x h2⟩
  · exact Or.inr h

theorem same_fields_fill (req1 req2 a b : request_t) (c : Nat)
    (hf : same_fields req1 req2 a b) :
    same_fields req1 req2 (fill a [c]) (fill b [c]) := by
  obtain ⟨f1, f2, f3, f4, f5, f6, f7⟩ := hf
  exact ⟨same_token_or_kept_fill a c _ _ _ _ f1, same_token_or_kept_fill a c _ _ _ _ f2,
    same_token_or_kept_fill a c _ _ _ _ f3, f4, same_token_or_kept_fill a c _ _ _ _ f5, f6, f7⟩

/-- A pointer field that is the same token in two requests that hold the same
tokens reads the same string in both. -/
theorem same_token_or_kept_str (cfg : Config) (a b : request_t) (x y x0 y0 : Ptr)
    (hs : same_tokens cfg a b) (h : same_token_or_kept a._buffer a._buf_idx x y x0 y0) :
    (x = y ∧ request_str cfg a x = request_str cfg b y) ∨ (x = x0 ∧ y = y0) := by
  rcases h with ⟨h1, off, e, h2, h3, h4, h5⟩ | h
  · refine Or.inl ⟨h1, ?_⟩
    rw [← h1, h2]
    exact request_str_congr cfg a b off e hs h3 h4 h5
  · exact Or.inr h

/-- Two calls of `handle_common_header` on headers that read the same leave the
fields the same, or as they were. -/
theorem handle_common_header_same_fields (cfg : Config) (req1 req2 x y : request_t)
    (k k1 : Nat)
    (hname : request_str cfg x (x.headers k).name = request_str cfg y (y.headers k1).name)
    (hval : request_str cfg x (x.headers k).value = request_str cfg y (y.headers k1).value)
    (hptr : (x.headers k).value = (y.headers k1).value)
    (hv : token_ptr x._buffer x._buf_idx (x.headers k).value)
    (hf : same_fields req1 req2 x y) :
    same_fields req1 req2 (handle_common_header cfg x k) (handle_common_header cfg y k1) := by
  obtain ⟨f1, f2, f3, f4, f5, f6, f7⟩ := hf
  have fx := handle_common_header_frame cfg x k
  have fy := handle_common_header_frame cfg y k1
  unfold same_fields
  rw [fx.1, fx.2.1, fx.2.2.2.2.1, fy.2.2.2.2.1, fx.2.2.2.2.2.1, fy.2.2.2.2.2.1,
    fx.2.2.2.2.2.2.1,
    fy.2.2.2.2.2.2.1, fx.2.2.2.2.2.2.2.1, fy.2.2.2.2.2.2.2.1,
    handle_common_header_host, handle_common_header_host,
    handle_common_header_content_length, handle_common_header_content_length,
    handle_common_header_connection, handle_common_header_connection,
    ← hname, ← hval, ← hptr]
  refine ⟨f1, f2, f3, f4, ?_, ?_, ?_⟩
  · split_ifs
    · exact Or.inl ⟨rfl, hv⟩
    · exact f5
  · split_ifs
    · exact Or.inl rfl
    · exact f6
  · split_ifs
    · exact Or.inl rfl
    · exact Or.inl rfl
    · exact f7

set_option maxRecDepth 100000 in
/-- The end of a header line in two runs that are at the same point. -/
theorem finish_header_sim (cfg : Config) (req1 req2 a b : request_t) (tok : Nat)
    (hs : same_tokens cfg a b) (hlt : a._buf_idx < cfg.REQUEST_BUFFER_SIZE)
    (ht : tok ≤ a._buf_idx) (hn : same_name a b) (hf : same_fields req1 req2 a b) :
    same_tokens cfg (finish_header cfg (fill a [0]) tok) (finish_header cfg (fill b [0]) tok)
    ∧ same_fields req1 req2 (finish_header cfg (fill a [0]) tok)
        (finish_header cfg (fill b [0]) tok) := by
  have hs1 := same_tokens_fill cfg a b 0 hs hlt
  obtain ⟨off, e, n1, n2, n3, n4, n5⟩ := same_name_fill a b 0 hn
  have hz := fill_terminated a
  have hf0 := same_fields_fill req1 req2 a b 0 hf
  refine ⟨?_, ?_⟩
  · refine ⟨?_, ?_, ?_, ?_⟩
    · rw [finish_header_buf_idx, finish_header_buf_idx]; exact hs1.1
    · rw [finish_header_count, finish_header_count, hs1.2.1]
    · rw [finish_header_buf_idx]; exact hs1.2.2.1
    · intro j hj
      rw [finish_header_buf_idx] at hj
      rw [finish_header_buffer, finish_header_buffer]
      exact hs1.2.2.2 j hj
  · have hnm := request_str_congr cfg (fill a [0]) (fill b [0]) off e hs1 n3 n4 n5
    have hvl := request_str_congr cfg (fill a [0]) (fill b [0]) tok a._buf_idx hs1 ht
      (by simp [fill]) hz
    have key := handle_common_header_same_fields cfg req1 req2
      { fill a [0] with
        headers := Function.update (fill a [0]).headers (fill a [0]).header_count
          { (fill a [0]).headers (fill a [0]).header_count with value := .buf tok } }
      { fill b [0] with
        headers := Function.update (fill b [0]).headers (fill b [0]).header_count
          { (fill b [0]).headers (fill b [0]).header_count with value := .buf tok } }
      (fill a [0]).header_count (fill b [0]).header_count
      (by
        simp only [Function.update_same]
        rw [n1, n2]
        exact hnm)
      (by
        simp only [Function.update_same]
        exact hvl)
      (by simp only [Function.update_same])
      (by
        simp only [Function.update_same]
        exact ⟨tok, a._buf_idx, rfl, ht, by simp [fill], hz⟩)
      hf0
    exact key


set_option maxRecDepth 100000 in
/-- One step of two runs that are at the same point: both leave the arrays, or
both go on and are at the same point again. -/
theorem parse_step_sim (cfg : Config) (req1 req2 : request_t) (l1 l2 : parse_locals) (ch : Nat)
    (h : sim cfg req1 req2 l1 l2) :
    (parse_step cfg l1 ch = none ∧ parse_step cfg l2 ch = none)
    ∨ ∃ m1 m2, parse_step cfg l1 ch = some m1 ∧ parse_step cfg l2 ch = some m2
        ∧ sim cfg req1 req2 m1 m2 := by
  obtain ⟨s, tok, a⟩ := l1
  obtain ⟨s2, tok2, b⟩ := l2
  obtain ⟨hs0, ht0, ht, hs, hf, hn⟩ := h
  simp only at hs0 ht0 ht hs hf hn
  subst hs0
  subst ht0
  have hi : a._buf_idx = b._buf_idx := hs.1
  have hc : a.header_count = b.header_count := hs.2.1
  have hF := fun c => FILL_NEXT_CHAR_cases cfg a b c hi
  have hstay : sim cfg req1 req2 ⟨s, tok, a⟩ ⟨s, tok, b⟩ := ⟨rfl, rfl, ht, hs, hf, hn⟩
  have hbad : sim cfg req1 req2 ⟨.BAD_REQUEST, tok, a⟩ ⟨.BAD_REQUEST, tok, b⟩ :=
    ⟨rfl, rfl, ht, hs, hf, fun h => by simp at h⟩
  -- a byte appended to the token, the state going to `s1`
  have hput : ∀ (c : Nat) (s1 : parser_state_e), a._buf_idx < cfg.REQUEST_BUFFER_SIZE →
      ((s1 = .HEADER_COLON ∨ s1 = .HEADER_VALUE) → s = .HEADER_COLON ∨ s = .HEADER_VALUE) →
      sim cfg req1 req2 ⟨s1, tok, fill a [c]⟩ ⟨s1, tok, fill b [c]⟩ := by
    intro c s1 hlt hst
    exact ⟨rfl, rfl, by simp only [fill, List.length_cons, List.length_nil]; omega,
      same_tokens_fill cfg a b c hs hlt, same_fields_fill req1 req2 a b c hf,
      fun h => same_name_fill a b c (hn (hst h))⟩
  -- the token finished, the next one starting at the new cursor, a field set
  have hnext : ∀ (s1 : parser_state_e) (x y : request_t),
      a._buf_idx < cfg.REQUEST_BUFFER_SIZE →
      same_tokens cfg x y → x._buf_idx = a._buf_idx + 1 → y._buf_idx = b._buf_idx + 1 →
      same_fields req1 req2 x y → s1 ≠ .HEADER_COLON → s1 ≠ .HEADER_VALUE →
      sim cfg req1 req2 ⟨s1, (fill a [0])._buf_idx, x⟩ ⟨s1, (fill b [0])._buf_idx, y⟩ := by
    intro s1 x y hlt hxy hx hy hfx h1 h2
    refine ⟨rfl, ?_, ?_, hxy, hfx, fun h => ?_⟩
    · simp only [fill, List.length_cons, List.length_nil]; omega
    · simp only [fill, List.length_cons, List.length_nil]; omega
    · rcases h with h | h
      · exact absurd h h1
      · exact absurd h h2
  have hf0 := same_fields_fill req1 req2 a b 0 hf
  -- the token just finished is terminated below the new cursor
  have htk : token_ptr (fill a [0])._buffer (fill a [0])._buf_idx (.buf tok) :=
    ⟨tok, a._buf_idx, rfl, ht, by simp [fill], fill_terminated a⟩
  cases s
  case BAD_REQUEST => exact Or.inr ⟨_, _, rfl, rfl, hstay⟩
  case COMPLETE => exact Or.inr ⟨_, _, rfl, rfl, hstay⟩
  case METHOD =>
    simp only [parse_step, FINISH_CUR_TOKEN]
    by_cases h1 : ch = 32
    · rw [if_pos h1, if_pos h1]
      rcases hF 0 with ⟨e1, e2⟩ | ⟨hlt, e1, e2⟩
      · rw [e1, e2]; exact Or.inl ⟨rfl, rfl⟩
      · rw [e1, e2]
        refine Or.inr ⟨_, _, rfl, rfl, ?_⟩
        exact hnext .PATH _ _ hlt (same_tokens_fill cfg a b 0 hs hlt) rfl rfl
          ⟨Or.inl ⟨rfl, htk⟩, hf0.2⟩ (by decide) (by decide)
    · rw [if_neg h1, if_neg h1]
      by_cases h2 : ch < 65 ∨ ch > 90
      · rw [if_pos h2, if_pos h2]
        exact Or.inr ⟨_, _, rfl, rfl, hbad⟩
      · rw [if_neg h2, if_neg h2]
        rcases hF ch with ⟨e1, e2⟩ | ⟨hlt, e1, e2⟩
        · rw [e1, e2]; exact Or.inl ⟨rfl, rfl⟩
        · rw [e1, e2]
          exact Or.inr ⟨_, _, rfl, rfl, hput ch .METHOD hlt (fun h => by simp at h)⟩
  case PATH =>
    simp only [parse_step, FINISH_CUR_TOKEN]
    by_cases h1 : ch = 63
    · rw [if_pos h1, if_pos h1]
      rcases hF 0 with ⟨e1, e2⟩ | ⟨hlt, e1, e2⟩
      · rw [e1, e2]; exact Or.inl ⟨rfl, rfl⟩
      · rw [e1, e2]
        refine Or.inr ⟨_, _, rfl, rfl, ?_⟩
        exact hnext .QUERY_STR _ _ hlt (same_tokens_fill cfg a b 0 hs hlt) rfl rfl
          ⟨hf0.1, Or.inl ⟨rfl, htk⟩, hf0.2.2⟩ (by decide) (by decide)
    · rw [if_neg h1, if_neg h1]
      by_cases h2 : ch = 32
      · rw [if_pos h2, if_pos h2]
        rcases hF 0 with ⟨e1, e2⟩ | ⟨hlt, e1, e2⟩
        · rw [e1, e2]; exact Or.inl ⟨rfl, rfl⟩
        · rw [e1, e2]
          refine Or.inr ⟨_, _, rfl, rfl, ?_⟩
          exact hnext .VERSION _ _ hlt (same_tokens_fill cfg a b 0 hs hlt) rfl rfl
            ⟨hf0.1, Or.inl ⟨rfl, htk⟩, hf0.2.2⟩ (by decide) (by decide)
      · rw [if_neg h2, if_neg h2]
        rcases hF ch with ⟨e1, e2⟩ | ⟨hlt, e1, e2⟩
        · rw [e1, e2]; exact Or.inl ⟨rfl, rfl⟩
        · rw [e1, e2]
          exact Or.inr ⟨_, _, rfl, rfl, hput ch .PATH hlt (fun h => by simp at h)⟩
  case QUERY_STR =>
    simp only [parse_step, FINISH_CUR_TOKEN]
    by_cases h1 : ch = 32
    · rw [if_pos h1, if_pos h1]
      rcases hF 0 with ⟨e1, e2⟩ | ⟨hlt, e1, e2⟩
      · rw [e1, e2]; exact Or.inl ⟨rfl, rfl⟩
      · rw [e1, e2]
        refine Or.inr ⟨_, _, rfl, rfl, ?_⟩
        exact hnext .VERSION _ _ hlt (same_tokens_fill cfg a b 0 hs hlt) rfl rfl
          ⟨hf0.1, hf0.2.1, Or.inl ⟨rfl, htk⟩, hf0.2.2.2⟩ (by decide) (by decide)
    · rw [if_neg h1, if_neg h1]
      rcases hF ch with ⟨e1, e2⟩ | ⟨hlt, e1, e2⟩
      · rw [e1, e2]; exact Or.inl ⟨rfl, rfl⟩
      · rw [e1, e2]
        exact Or.inr ⟨_, _, rfl, rfl, hput ch .QUERY_STR hlt (fun h => by simp at h)⟩
  case VERSION =>
    simp only [parse_step, FINISH_CUR_TOKEN]
    by_cases h1 : ch = 72 ∨ ch = 84 ∨ ch = 80 ∨ ch = 48 ∨ ch = 49 ∨ ch = 57 ∨ ch = 46
    · rw [if_pos h1, if_pos h1]
      rcases hF ch with ⟨e1, e2⟩ | ⟨hlt, e1, e2⟩
      · rw [e1, e2]; exact Or.inl ⟨rfl, rfl⟩
      · rw [e1, e2]
        exact Or.inr ⟨_, _, rfl, rfl, hput ch .VERSION hlt (fun h => by simp at h)⟩
    · rw [if_neg h1, if_neg h1]
      by_cases h2 : ch = 47
      · rw [if_pos h2, if_pos h2]
        rcases hF 0 with ⟨e1, e2⟩ | ⟨hlt, e1, e2⟩
        · rw [e1, e2]; exact Or.inl ⟨rfl, rfl⟩
        · rw [e1, e2]
          have hst := same_tokens_fill cfg a b 0 hs hlt
          have hstr := request_str_congr cfg (fill a [0]) (fill b [0]) tok a._buf_idx hst ht
            (by simp [fill]) (fill_terminated a)
          simp only [Option.map_some', ← hstr]
          refine Or.inr ⟨_, _, rfl, rfl, ?_⟩
          by_cases h3 : str "HTTP" ≠ request_str cfg (fill a [0]) (.buf tok)
          · rw [if_pos h3, if_pos h3]
            exact ⟨rfl, rfl, by simp only [fill, List.length_cons, List.length_nil]; omega, hst,
              hf0, fun h => by simp at h⟩
          · rw [if_neg h3, if_neg h3]
            exact hnext .VERSION _ _ hlt hst rfl rfl hf0 (by decide) (by decide)
      · rw [if_neg h2, if_neg h2]
        by_cases h3 : ch = 13
        · rw [if_pos h3, if_pos h3]
          rcases hF 0 with ⟨e1, e2⟩ | ⟨hlt, e1, e2⟩
          · rw [e1, e2]; exact Or.inl ⟨rfl, rfl⟩
          · rw [e1, e2]
            have hst := same_tokens_fill cfg a b 0 hs hlt
            have hstr := request_str_congr cfg (fill a [0]) (fill b [0]) tok a._buf_idx hst ht
              (by simp [fill]) (fill_terminated a)
            simp only [Option.map_some', ← hstr]
            refine Or.inr ⟨_, _, rfl, rfl, ?_⟩
            by_cases h4 : _resolve_http_version (request_str cfg (fill a [0]) (.buf tok))
                = .HTTP_VERSION_UNKNOW
            · rw [if_pos h4, if_pos h4]
              exact ⟨rfl, rfl, by simp only [fill, List.length_cons, List.length_nil]; omega,
                hst, hf0, fun h => by simp at h⟩
            · rw [if_neg h4, if_neg h4]
              exact hnext .HEADER_CR _ _ hlt hst rfl rfl
                ⟨hf0.1, hf0.2.1, hf0.2.2.1, Or.inl rfl, hf0.2.2.2.2⟩ (by decide) (by decide)
        · rw [if_neg h3, if_neg h3]
          exact Or.inr ⟨_, _, rfl, rfl, hstay⟩
  case HEADER_NAME =>
    simp only [parse_step, FINISH_CUR_TOKEN]
    by_cases h1 : ch = 58
    · rw [if_pos h1, if_pos h1]
      rcases hF 0 with ⟨e1, e2⟩ | ⟨hlt, e1, e2⟩
      · rw [e1, e2]; exact Or.inl ⟨rfl, rfl⟩
      · rw [e1, e2]
        simp only [Option.some_bind]
        have hcc : (fill b [0]).header_count = (fill a [0]).header_count := hc.symm
        rw [hcc]
        by_cases h2 : (fill a [0]).header_count < cfg.MAX_HEADER_SIZE
        · rw [if_pos h2, if_pos h2]
          refine Or.inr ⟨_, _, rfl, rfl, ?_⟩
          refine ⟨rfl, ?_, ?_, same_tokens_fill cfg a b 0 hs hlt, hf0, fun _ => ?_⟩
          · simp only [fill, List.length_cons, List.length_nil]; omega
          · simp only [fill, List.length_cons, List.length_nil, set_header_name]; omega
          · refine ⟨tok, a._buf_idx, ?_, ?_, ht, ?_, ?_⟩
            · simp [set_header_name]
            · simp [set_header_name]
            · simp [set_header_name, fill]
            · simp [set_header_name, fill, store, poke]
        · rw [if_neg h2, if_neg h2]
          exact Or.inl ⟨rfl, rfl⟩
    · rw [if_neg h1, if_neg h1]
      rcases hF ch with ⟨e1, e2⟩ | ⟨hlt, e1, e2⟩
      · rw [e1, e2]; exact Or.inl ⟨rfl, rfl⟩
      · rw [e1, e2]
        exact Or.inr ⟨_, _, rfl, rfl, hput ch .HEADER_NAME hlt (fun h => by simp at h)⟩
  case HEADER_COLON =>
    simp only [parse_step]
    by_cases h1 : ch = 32
    · rw [if_pos h1, if_pos h1]
      exact Or.inr ⟨_, _, rfl, rfl, rfl, rfl, ht, hs, hf, fun _ => hn (Or.inl rfl)⟩
    · rw [if_neg h1, if_neg h1]
      exact Or.inr ⟨_, _, rfl, rfl, hbad⟩
  case HEADER_VALUE =>
    simp only [parse_step, FINISH_CUR_TOKEN]
    by_cases h1 : ch = 13
    · rw [if_pos h1, if_pos h1]
      rcases hF 0 with ⟨e1, e2⟩ | ⟨hlt, e1, e2⟩
      · rw [e1, e2]; exact Or.inl ⟨rfl, rfl⟩
      · rw [e1, e2]
        simp only [Option.some_bind]
        have hcc : (fill b [0]).header_count = (fill a [0]).header_count := hc.symm
        rw [hcc]
        by_cases h2 : (fill a [0]).header_count < cfg.MAX_HEADER_SIZE
        · rw [if_pos h2, if_pos h2]
          obtain ⟨k1, k2⟩ := finish_header_sim cfg req1 req2 a b tok hs hlt ht
            (hn (Or.inr rfl)) hf
          refine Or.inr ⟨_, _, rfl, rfl, ?_⟩
          refine ⟨rfl, ?_, Nat.le_refl _, k1, k2, fun h => by simp at h⟩
          simp only [finish_header_buf_idx]
          simp only [fill, List.length_cons, List.length_nil]; omega
        · rw [if_neg h2, if_neg h2]
          exact Or.inl ⟨rfl, rfl⟩
    · rw [if_neg h1, if_neg h1]
      rcases hF ch with ⟨e1, e2⟩ | ⟨hlt, e1, e2⟩
      · rw [e1, e2]; exact Or.inl ⟨rfl, rfl⟩
      · rw [e1, e2]
        exact Or.inr ⟨_, _, rfl, rfl, hput ch .HEADER_VALUE hlt (fun _ => Or.inr rfl)⟩
  case HEADER_CR =>
    simp only [parse_step]
    by_cases h1 : ch = 10
    · rw [if_pos h1, if_pos h1]
      exact Or.inr ⟨_, _, rfl, rfl, rfl, rfl, ht, hs, hf, fun h => by simp at h⟩
    · rw [if_neg h1, if_neg h1]
      exact Or.inr ⟨_, _, rfl, rfl, hbad⟩
  case HEADER_LF =>
    simp only [parse_step]
    by_cases h1 : ch = 13
    · rw [if_pos h1, if_pos h1]
      exact Or.inr ⟨_, _, rfl, rfl, rfl, rfl, ht, hs, hf, fun h => by simp at h⟩
    · rw [if_neg h1, if_neg h1]
      rcases hF ch with ⟨e1, e2⟩ | ⟨hlt, e1, e2⟩
      · rw [e1, e2]; exact Or.inl ⟨rfl, rfl⟩
      · rw [e1, e2]
        exact Or.inr ⟨_, _, rfl, rfl, hput ch .HEADER_NAME hlt (fun h => by simp at h)⟩
  case HEADER_COMPLETE_CR =>
    simp only [parse_step]
    by_cases h1 : ch = 10
    · rw [if_pos h1, if_pos h1]
      exact Or.inr ⟨_, _, rfl, rfl, rfl, rfl, ht, hs, hf, fun h => by simp at h⟩
    · rw [if_neg h1, if_neg h1]
      exact Or.inr ⟨_, _, rfl, rfl, hbad⟩


/-- Two runs of the loop that start at the same point end at the same point. -/
theorem parse_loop_sim (cfg : Config) (req1 req2 : request_t) (data : List Nat) :
    ∀ (l1 l2 : parse_locals) (i : Nat), sim cfg req1 req2 l1 l2 →
      (parse_loop cfg l1 data i = none ∧ parse_loop cfg l2 data i = none)
      ∨ ∃ m1 m2 n, parse_loop cfg l1 data i = some (m1, n)
          ∧ parse_loop cfg l2 data i = some (m2, n) ∧ sim cfg req1 req2 m1 m2 := by
  induction data with
  | nil => intro l1 l2 i h; exact Or.inr ⟨l1, l2, i, rfl, rfl, h⟩
  | cons ch data ih =>
    intro l1 l2 i h
    unfold parse_loop
    rw [← h.1]
    by_cases ht : l1.state = .COMPLETE ∨ l1.state = .BAD_REQUEST
    · rw [if_pos ht, if_pos ht]
      exact Or.inr ⟨l1, l2, i, rfl, rfl, h⟩
    · rw [if_neg ht, if_neg ht]
      rcases parse_step_sim cfg req1 req2 l1 l2 ch h with ⟨e1, e2⟩ | ⟨m1, m2, e1, e2, hm⟩
      · rw [e1, e2]; exact Or.inl ⟨rfl, rfl⟩
      · rw [e1, e2]; exact ih m1 m2 (i + 1) hm


/-- C22 (as amended): for any two request states and the same input bytes,
`request_parse_headers` returns on both or on neither, with the same status, the
same consumed count and the same header count; each of method, path, query
string and host is in the two results either the same pointer, reading the same
string, or in each result the pointer that request held before the call; and
each of version, content length and connection mode is either the same in the
two results, or is in each result what that request held before the call. -/
theorem C22_parse_prior_state (cfg : Config) (req1 req2 : request_t) (data : List Nat) :
    (request_parse_headers cfg req1 data).map (fun r => (r.1, r.2.1, r.2.2.header_count))
      = (request_parse_headers cfg req2 data).map (fun r => (r.1, r.2.1, r.2.2.header_count))
    ∧ ∀ st1 n1 r1 st2 n2 r2,
        request_parse_headers cfg req1 data = some (st1, n1, r1) →
        request_parse_headers cfg req2 data = some (st2, n2, r2) →
        ((r1.method = r2.method
            ∧ request_str cfg r1 r1.method = request_str cfg r2 r2.method)
          ∨ (r1.method = req1.method ∧ r2.method = req2.method))
        ∧ ((r1.path = r2.path ∧ request_str cfg r1 r1.path = request_str cfg r2 r2.path)
          ∨ (r1.path = req1.path ∧ r2.path = req2.path))
        ∧ ((r1.query_str = r2.query_str
            ∧ request_str cfg r1 r1.query_str = request_str cfg r2 r2.query_str)
          ∨ (r1.query_str = req1.query_str ∧ r2.query_str = req2.query_str))
        ∧ (r1.version = r2.version ∨ (r1.version = req1.version ∧ r2.version = req2.version))
        ∧ ((r1.host = r2.host ∧ request_str cfg r1 r1.host = request_str cfg r2 r2.host)
          ∨ (r1.host = req1.host ∧ r2.host = req2.host))
        ∧ (r1.content_length = r2.content_length
            ∨ (r1.content_length = req1.content_length
                ∧ r2.content_length = req2.content_length))
        ∧ (r1.connection = r2.connection
            ∨ (r1.connection = req1.connection ∧ r2.connection = req2.connection)) := by
  have h0 : sim cfg req1 req2
      { state := .METHOD, cur_token := 0,
        req := { req1 with _buffer := poke req1._buffer 0 0, _buf_idx := 0, header_count := 0 } }
      { state := .METHOD, cur_token := 0,
        req := { req2 with _buffer := poke req2._buffer 0 0, _buf_idx := 0, header_count := 0 } } :=
    ⟨rfl, rfl, Nat.le_refl _, ⟨rfl, rfl, Nat.zero_le _, fun j hj => absurd hj (Nat.not_lt_zero j)⟩,
      ⟨Or.inr ⟨rfl, rfl⟩, Or.inr ⟨rfl, rfl⟩, Or.inr ⟨rfl, rfl⟩, Or.inr ⟨rfl, rfl⟩,
        Or.inr ⟨rfl, rfl⟩, Or.inr ⟨rfl, rfl⟩, Or.inr ⟨rfl, rfl⟩⟩,
      fun h => by simp at h⟩
  unfold request_parse_headers
  simp only
  rcases parse_loop_sim cfg req1 req2 data _ _ 0 h0 with ⟨e1, e2⟩ | ⟨m1, m2, n, e1, e2, hm⟩
  · rw [e1, e2]
    refine ⟨rfl, fun st1 n1 r1 st2 n2 r2 h => ?_⟩
    cases h
  · rw [e1, e2]
    refine ⟨?_, ?_⟩
    · simp only [Option.map_some']
      rw [hm.1, hm.2.2.2.1.2.1]
    · intro st1 n1 r1 st2 n2 r2 k1 k2
      simp only [Option.map_some', Option.some.injEq, Prod.mk.injEq] at k1 k2
      obtain ⟨-, -, rfl⟩ := k1
      obtain ⟨-, -, rfl⟩ := k2
      obtain ⟨-, -, -, hs, ⟨f1, f2, f3, f4, f5, f6, f7⟩, -⟩ := hm
      exact ⟨same_token_or_kept_str cfg _ _ _ _ _ _ hs f1,
        same_token_or_kept_str cfg _ _ _ _ _ _ hs f2,
        same_token_or_kept_str cfg _ _ _ _ _ _ hs f3, f4,
        same_token_or_kept_str cfg _ _ _ _ _ _ hs f5, f6, f7⟩

set_option maxRecDepth 100000 in
/-- C22 at the head `GET / HTTP/1.1\r\n\r\n`, parsed into a fresh request and into
one in which `GET /a HTTP/1.1\r\nHost: x\r\n\r\n` has been parsed before: the same
status, consumed count and header count; the path is in both results the same
pointer and reads the same string; the host is in each result the pointer the
request held before. -/
theorem C22_parse_prior_state_witness :
    (request_parse_headers demo_cfg (request_create demo_cfg 0) (head_bare.bytes ++ [])).map
        (fun r => (r.1, r.2.1, r.2.2.header_count))
      = (request_parse_headers demo_cfg req_after_demo (head_bare.bytes ++ [])).map
        (fun r => (r.1, r.2.1, r.2.2.header_count))
    ∧ (((after_head demo_cfg (request_create demo_cfg 0) head_bare).path
          = (after_head demo_cfg req_after_demo head_bare).path
        ∧ request_str demo_cfg (after_head demo_cfg (request_create demo_cfg 0) head_bare)
            (after_head demo_cfg (request_create demo_cfg 0) head_bare).path
          = request_str demo_cfg (after_head demo_cfg req_after_demo head_bare)
            (after_head demo_cfg req_after_demo head_bare).path)
      ∨ ((after_head demo_cfg (request_create demo_cfg 0) head_bare).path
            = (request_create demo_cfg 0).path
          ∧ (after_head demo_cfg req_after_demo head_bare).path = req_after_demo.path))
    ∧ (((after_head demo_cfg (request_create demo_cfg 0) head_bare).host
          = (after_head demo_cfg req_after_demo head_bare).host
        ∧ request_str demo_cfg (after_head demo_cfg (request_create demo_cfg 0) head_bare)
            (after_head demo_cfg (request_create demo_cfg 0) head_bare).host
          = request_str demo_cfg (after_head demo_cfg req_after_demo head_bare)
            (after_head demo_cfg req_after_demo head_bare).host)
      ∨ ((after_head demo_cfg (request_create demo_cfg 0) head_bare).host
            = (request_create demo_cfg 0).host
          ∧ (after_head demo_cfg req_after_demo head_bare).host = req_after_demo.host)) :=
  ⟨(C22_parse_prior_state demo_cfg (request_create demo_cfg 0) req_after_demo
      (head_bare.bytes ++ [])).1,
    ((C22_parse_prior_state demo_cfg (request_create demo_cfg 0) req_after_demo
      (head_bare.bytes ++ [])).2 _ _ _ _ _ _
      (parse_head demo_cfg (request_create demo_cfg 0) head_bare [] (by decide) (by decide))
      (parse_head demo_cfg req_after_demo head_bare [] (by decide) (by decide))).2.1,
    ((C22_parse_prior_state demo_cfg (request_create demo_cfg 0) req_after_demo
      (head_bare.bytes ++ [])).2 _ _ _ _ _ _
      (parse_head demo_cfg (request_create demo_cfg 0) head_bare [] (by decide) (by decide))
      (parse_head demo_cfg req_after_demo head_bare [] (by decide) (by decide))).2.2.2.2.1⟩

set_option maxRecDepth 100000 in
/-- A pointer that a parse keeps points into the token buffer, which the parse
refills from its start: after `GET /0123456789abcdefghijABCDEFGHIJ HTTP/1.1\r\n\r\n`,
parsed into the request that held `GET /a HTTP/1.1\r\nHost: x\r\n\r\n` before, the
host is still the pointer of the earlier message, and now reads the end of the
new path. -/
theorem kept_pointer_example :
    req_after_demo.host = .buf 21
    ∧ request_str demo_cfg req_after_demo req_after_demo.host = str "x"
    ∧ (request_parse_headers demo_cfg req_after_demo head_long_path.bytes).map
        (fun r => (r.1, r.2.2.host, request_str demo_cfg r.2.2 r.2.2.host))
      = some (.STATUS_COMPLETE, .buf 21, str "ghijABCDEFGHIJ") := by
  refine ⟨by decide!, by decide!, by decide!⟩

end Breeze
